import Mathlib

/-! LeaveEase: the multi-level approval workflow.

A shallow embedding of the workflow routes of `src/routes/applications.js`
(`POST /`, `PUT /:id/approve`, `PUT /:id/reject`, `PUT /:id/cancel`) with the
notifications they send, of the `Application` schema of
`src/models/Application.js` and of the role middleware of
`src/middleware/auth.js`, followed by theorems about them.

Modelling conventions.

* The `applications` collection is a list of documents; `findById` and `save`
  are explicit functions on it.
* Mongo object ids are natural numbers, dates are milliseconds since the epoch,
  `Date.now()` is an argument of the call.
* `req.user` is the identity that the `protect` middleware attached to the
  request; token verification itself is not modelled.
* `next(error)` hands control to `src/middleware/error.js`, which is not among
  the sources: it is kept as the outcome `Response.next`.
* The record holds the paths declared in the schema literal.  The bookkeeping
  paths that Mongoose maintains by itself (`createdAt`, `updatedAt`, `__v`) are
  not written by any handler and are not part of the record.
* A string is a sequence of Unicode characters (a lone surrogate, which a
  JavaScript string may hold, has no counterpart); its JavaScript `length` is
  the number of its UTF-16 code units (`utf16Length`), which is what the schema
  bounds test, and the route validators count as validator.js does
  (`validatorLength`).
* A stored number is a rational (every double is one).  A numeric field of a
  request body is the exact value of the float literal that was sent;
  `parseFloat` rounds it to the nearest double.
-/

namespace LeaveEase

/-! ## Enumerations of `src/models/Application.js` and `src/middleware/auth.js` -/

/-- Schema path `applicationType`, enum `['leave', 'outpass']`. -/
inductive ApplicationType where
  | leave
  | outpass
  deriving DecidableEq, Repr

/-- Schema path `status`, enum `['pending', 'approved', 'rejected', 'cancelled']`. -/
inductive Status where
  | pending
  | approved
  | rejected
  | cancelled
  deriving DecidableEq, Repr

/-- Schema path `currentLevel`,
enum `['counsellor', 'hod', 'joint_director', 'warden', 'completed']`. -/
inductive Level where
  | counsellor
  | hod
  | joint_director
  | warden
  | completed
  deriving DecidableEq, Repr

/-- The `userType` values that `protect` accepts (the five `case` labels of its switch). -/
inductive UserType where
  | student
  | counsellor
  | hod
  | joint_director
  | warden
  deriving DecidableEq, Repr

/-- The string stored in `currentLevel`. -/
def Level.str : Level → String
  | .counsellor => "counsellor"
  | .hod => "hod"
  | .joint_director => "joint_director"
  | .warden => "warden"
  | .completed => "completed"

/-- The string stored in `userType`. -/
def UserType.str : UserType → String
  | .student => "student"
  | .counsellor => "counsellor"
  | .hod => "hod"
  | .joint_director => "joint_director"
  | .warden => "warden"

/-! ## Documents -/

/-- One of the four approval sub-records of the schema
(`approved` defaults to `false`, the other paths are absent until written). -/
structure Approval where
  approved : Bool := false
  approvedBy : Option Nat := none
  approvedAt : Option Nat := none
  comments : Option String := none
  deriving DecidableEq, Repr

/-- A document of the `Application` model. -/
structure Application where
  _id : Nat
  student : Nat
  counsellorEmail : String
  hodEmail : Option String
  wardenEmail : String
  applicationType : ApplicationType
  initialTime : Option Int
  expectedReturnTime : Option Int
  journeyDate : Option Int
  returnDate : Option Int
  reason : String
  address : String
  attendance : ℚ
  lastSemesterSGPA : ℚ
  status : Status := .pending
  currentLevel : Level := .counsellor
  counsellorApproval : Approval := {}
  hodApproval : Approval := {}
  jointDirectorApproval : Approval := {}
  wardenApproval : Approval := {}
  rejectedBy : Option Nat := none
  rejectedAt : Option Nat := none
  rejectionReason : Option String := none
  submittedAt : Nat
  isActive : Bool := true
  deriving DecidableEq, Repr

/-- The authenticated identity `req.user`. -/
structure User where
  id : Nat
  userType : UserType
  name : String
  deriving DecidableEq, Repr

/-- What a handler answers: `res.status(code).json(\x7b success, message, ... \x7d)`,
or `next(error)`. -/
inductive Response where
  | json (code : Nat) (success : Bool) (message : String)
  | next (error : String)
  deriving DecidableEq, Repr

/-- The `applications` collection. -/
abbrev Collection := List Application

/-! ## Schema validation and the `pre('save')` hook -/

/-- The `length` of a JavaScript string: the number of UTF-16 code units, one
for a character of the basic plane and two for any other. -/
def utf16Length (s : String) : Nat :=
  (s.data.map (fun c => if c.toNat < 65536 then 1 else 2)).sum

/-- The number of surrogate pairs of a string: its characters outside the basic
plane. -/
def surrogatePairs (s : String) : Nat :=
  s.data.countP (fun c => decide (65536 ≤ c.toNat))

/-- The number of variation selectors U+FE0E and U+FE0F of a string. -/
def presentationSequences (s : String) : Nat :=
  s.data.countP (fun c => c.toNat == 65038 || c.toNat == 65039)

/-- The length that `isLength` of validator.js measures:
`str.length - presentationSequences.length - surrogatePairs.length`. -/
def validatorLength (s : String) : Nat :=
  utf16Length s - presentationSequences s - surrogatePairs s

/-- Validator `maxlength` of Mongoose on an optional string path: it tests
`v.length`, in UTF-16 code units. -/
def maxlengthOk (n : Nat) : Option String → Bool
  | none => true
  | some s => decide (utf16Length s ≤ n)

/-- Validators of one approval sub-record: `comments` has `maxlength` 200. -/
def Approval.valid (r : Approval) : Bool :=
  maxlengthOk 200 r.comments

/-- A required string path is present and non-empty. -/
def requiredString (s : String) : Bool :=
  !(s == "")

/-- The validators declared in the schema literal: `required` (also the
conditional ones that depend on `applicationType`), `maxlength`, `min`, `max`.
The `enum` validators hold by typing. -/
def validate (a : Application) : Bool :=
  requiredString a.counsellorEmail
  && requiredString a.wardenEmail
  && (match a.applicationType with
      | .leave =>
          (match a.hodEmail with
           | some e => requiredString e
           | none => false)
          && a.journeyDate.isSome && a.returnDate.isSome
      | .outpass => a.initialTime.isSome && a.expectedReturnTime.isSome)
  && requiredString a.reason && decide (utf16Length a.reason ≤ 500)
  && requiredString a.address && decide (utf16Length a.address ≤ 200)
  && decide (0 ≤ a.attendance) && decide (a.attendance ≤ 100)
  && decide (0 ≤ a.lastSemesterSGPA) && decide (a.lastSemesterSGPA ≤ 10)
  && a.counsellorApproval.valid && a.hodApproval.valid
  && a.jointDirectorApproval.valid && a.wardenApproval.valid
  && maxlengthOk 200 a.rejectionReason

/-- JavaScript `x >= y` on two optional dates: an absent operand makes the
comparison false. -/
def dateGe : Option Int → Option Int → Bool
  | some x, some y => decide (y ≤ x)
  | _, _ => false

/-- The hook `applicationSchema.pre('save', ...)`: `none` when it calls `next()`,
the error message when it calls `next(new Error(...))`. -/
def preSave (a : Application) : Option String :=
  match a.applicationType with
  | .outpass =>
      if dateGe a.initialTime a.expectedReturnTime then
        some "Expected return time must be after initial time"
      else none
  | .leave =>
      if dateGe a.journeyDate a.returnDate then
        some "Return date must be after journey date"
      else none

/-- Query `Application.findById(id)`. -/
def findById (db : Collection) (id : Nat) : Option Application :=
  db.find? (fun a => a._id == id)

/-- Overwrite the stored document that has the id of `a`. -/
def replaceDoc (db : Collection) (a : Application) : Collection :=
  db.map (fun b => if b._id == a._id then a else b)

/-- Method `application.save()` on a document read from the collection: schema
validation, then the `pre('save')` hook, then the write.  A failure throws and
writes nothing. -/
def save (db : Collection) (a : Application) : Except String Collection :=
  if !validate a then .error "ValidationError"
  else match preSave a with
    | some msg => .error msg
    | none => .ok (replaceDoc db a)

/-- A document passes `save()`: the schema validators accept it and the
`pre('save')` hook raises no error.  Every stored document passed `save()` when
it was created. -/
def passesSave (a : Application) : Bool :=
  validate a && (preSave a).isNone

/-! ## Middleware of `src/middleware/auth.js` -/

/-- Middleware `isAdmin`: `adminUserTypes.includes(req.user.userType)`. -/
def isAdmin (user : User) : Bool :=
  ["counsellor", "hod", "joint_director", "warden"].contains user.userType.str

/-- Middleware `isStudent`: `req.user.userType === 'student'`. -/
def isStudent (user : User) : Bool :=
  user.userType.str == "student"

/-! ## `PUT /api/applications/:id/approve` -/

/-- Validator `body('comments').optional().isLength(\x7b max: 200 \x7d)`. -/
def commentsValid : Option String → Bool
  | none => true
  | some c => decide (validatorLength c ≤ 200)

/-- The assignment `application[path] = value` for the approval sub-records: a
path of the schema is written, any other name only sets a property on the
JavaScript object, which is neither validated nor persisted. -/
def setApprovalPath (a : Application) (path : String) (value : Approval) : Application :=
  if path = "counsellorApproval" then { a with counsellorApproval := value }
  else if path = "hodApproval" then { a with hodApproval := value }
  else if path = "jointDirectorApproval" then { a with jointDirectorApproval := value }
  else if path = "wardenApproval" then { a with wardenApproval := value }
  else a

/-- The template string that names the approval path of the acting admin. -/
def approvalField (user : User) : String :=
  user.userType.str ++ "Approval"

/-- Lines 368-389: the next level, by application type and current level. -/
def nextLevel (a : Application) : Application :=
  match a.applicationType with
  | .outpass =>
      match a.currentLevel with
      | .counsellor => { a with currentLevel := .warden }
      | .warden => { a with currentLevel := .completed, status := .approved }
      | _ => a
  | .leave =>
      match a.currentLevel with
      | .counsellor => { a with currentLevel := .hod }
      | .hod => { a with currentLevel := .joint_director }
      | .joint_director => { a with currentLevel := .warden }
      | .warden => { a with currentLevel := .completed, status := .approved }
      | _ => a

/-- Lines 359-389: the approval record is written, then the level advances. -/
def applyApproval (a : Application) (user : User) (comments : Option String)
    (now : Nat) : Application :=
  nextLevel (setApprovalPath a (approvalField user)
    { approved := true
      approvedBy := some user.id
      approvedAt := some now
      comments := some (comments.getD "") })

/-- The handler of `PUT /:id/approve` behind `protect`, with `isAdmin` and the
body validator: the response and the collection afterwards.  The notifications
that follow `application.save()` are modelled apart, in `approveHandler`; the
response is the one of a call in which no template throws, that is in which
the owner of the request is still among the users. -/
def approveApplication (db : Collection) (id : Nat) (user : User)
    (comments : Option String) (now : Nat) : Response × Collection :=
  if !isAdmin user then
    (.json 403 false "Access denied. Admin privileges required.", db)
  else if !commentsValid comments then
    (.json 400 false "Validation failed", db)
  else match findById db id with
    | none => (.json 404 false "Application not found", db)
    | some application =>
        if application.currentLevel.str != user.userType.str then
          (.json 403 false ("Application is not at " ++ user.userType.str ++ " level"), db)
        else
          match save db (applyApproval application user comments now) with
          | .error e => (.next e, db)
          | .ok db' => (.json 200 true "Application approved successfully", db')

/-! ## `PUT /api/applications/:id/reject` -/

/-- Validator `body('rejectionReason').isLength(\x7b min: 5, max: 200 \x7d)`; a missing
field is validated as the empty string. -/
def rejectionReasonValid (rejectionReason : Option String) : Bool :=
  decide (5 ≤ validatorLength (rejectionReason.getD ""))
  && decide (validatorLength (rejectionReason.getD "") ≤ 200)

/-- Lines 510-514: the rejection details. -/
def applyRejection (a : Application) (user : User) (rejectionReason : Option String)
    (now : Nat) : Application :=
  { a with
    status := .rejected
    rejectedBy := some user.id
    rejectedAt := some now
    rejectionReason := rejectionReason }

/-- The handler of `PUT /:id/reject` behind `protect`, with `isAdmin` and the
body validator.  The notifications that follow `application.save()` are
modelled apart, in `rejectHandler`; the response is the one of a call in which
no template throws, that is in which the owner of the request is still among
the users. -/
def rejectApplication (db : Collection) (id : Nat) (user : User)
    (rejectionReason : Option String) (now : Nat) : Response × Collection :=
  if !isAdmin user then
    (.json 403 false "Access denied. Admin privileges required.", db)
  else if !rejectionReasonValid rejectionReason then
    (.json 400 false "Validation failed", db)
  else match findById db id with
    | none => (.json 404 false "Application not found", db)
    | some application =>
        if application.currentLevel.str != user.userType.str then
          (.json 403 false ("Application is not at " ++ user.userType.str ++ " level"), db)
        else
          match save db (applyRejection application user rejectionReason now) with
          | .error e => (.next e, db)
          | .ok db' => (.json 200 true "Application rejected successfully", db')

/-! ## `PUT /api/applications/:id/cancel` -/

/-- Line 577: `application.status = 'cancelled'`. -/
def applyCancellation (a : Application) : Application :=
  { a with status := .cancelled }

/-- The handler of `PUT /:id/cancel` behind `protect`, with `isStudent`. -/
def cancelApplication (db : Collection) (id : Nat) (user : User) : Response × Collection :=
  if !isStudent user then
    (.json 403 false "Access denied. Student privileges required.", db)
  else match findById db id with
    | none => (.json 404 false "Application not found", db)
    | some application =>
        if application.student != user.id then
          (.json 403 false "Access denied", db)
        else if application.status != .pending then
          (.json 400 false "Application cannot be cancelled at this stage", db)
        else
          match save db (applyCancellation application) with
          | .error e => (.next e, db)
          | .ok db' => (.json 200 true "Application cancelled successfully", db')

/-! ## Sequences of workflow calls -/

/-- One call of a workflow route on a given application id. -/
inductive Call where
  | approve (user : User) (comments : Option String) (now : Nat)
  | reject (user : User) (rejectionReason : Option String) (now : Nat)
  | cancel (user : User)
  deriving DecidableEq, Repr

/-- Run one call. -/
def Call.run (db : Collection) (id : Nat) : Call → Response × Collection
  | .approve user comments now => approveApplication db id user comments now
  | .reject user rejectionReason now => rejectApplication db id user rejectionReason now
  | .cancel user => cancelApplication db id user

/-- Run the calls one after the other; the collection afterwards. -/
def runCalls (db : Collection) (id : Nat) : List Call → Collection
  | [] => db
  | c :: cs => runCalls (c.run db id).2 id cs

/-- The stored document with the given id, when there is one. -/
def levelOf (db : Collection) (id : Nat) : List Level :=
  match findById db id with
  | some a => [a.currentLevel]
  | none => []

/-- The value of `currentLevel` of the document before the first call and after
each call of the sequence, in order. -/
def levelHistory (db : Collection) (id : Nat) : List Call → List Level
  | [] => levelOf db id
  | c :: cs => levelOf db id ++ levelHistory (c.run db id).2 id cs

/-- Collapse each run of equal adjacent levels to one occurrence: the distinct
values a level history goes through, in order. -/
def distinctRuns : List Level → List Level
  | [] => []
  | [l] => [l]
  | l :: l' :: ls => if l = l' then distinctRuns (l' :: ls) else l :: distinctRuns (l' :: ls)

/-- The levels `nextLevel` goes through when started at a given level. -/
def levelsFrom : ApplicationType → Level → List Level
  | .outpass, .counsellor => [.counsellor, .warden, .completed]
  | .outpass, .warden => [.warden, .completed]
  | .leave, .counsellor => [.counsellor, .hod, .joint_director, .warden, .completed]
  | .leave, .hod => [.hod, .joint_director, .warden, .completed]
  | .leave, .joint_director => [.joint_director, .warden, .completed]
  | .leave, .warden => [.warden, .completed]
  | _, l => [l]

/-! ## Example data used by the closed statements below -/

/-- An outpass as `POST /` stores it. -/
def sampleOutpass : Application :=
  { _id := 1, student := 7, counsellorEmail := "c@college.edu", hodEmail := none,
    wardenEmail := "w@college.edu", applicationType := .outpass,
    initialTime := some 1000, expectedReturnTime := some 2000,
    journeyDate := none, returnDate := none,
    reason := "visit to the dentist", address := "12 Station Road, Pune",
    attendance := 80, lastSemesterSGPA := 8, submittedAt := 900 }

/-- A leave as `POST /` stores it. -/
def sampleLeave : Application :=
  { _id := 2, student := 7, counsellorEmail := "c@college.edu",
    hodEmail := some "h@college.edu", wardenEmail := "w@college.edu",
    applicationType := .leave, initialTime := none, expectedReturnTime := none,
    journeyDate := some 5000, returnDate := some 9000,
    reason := "family function at home", address := "12 Station Road, Pune",
    attendance := 80, lastSemesterSGPA := 8, submittedAt := 900 }

/-- The student who owns the sample applications. -/
def sampleStudent : User := { id := 7, userType := .student, name := "Asha" }

/-- An active counsellor. -/
def sampleCounsellor : User := { id := 100, userType := .counsellor, name := "Rao" }

/-- An active head of department. -/
def sampleHod : User := { id := 101, userType := .hod, name := "Iyer" }

/-- An active joint director. -/
def sampleJointDirector : User := { id := 102, userType := .joint_director, name := "Sen" }

/-- An active warden. -/
def sampleWarden : User := { id := 103, userType := .warden, name := "Das" }

/-- A rejected outpass that is still at counsellor level. -/
def rejectedOutpass : Application :=
  { sampleOutpass with
    status := .rejected
    rejectedBy := some 100
    rejectedAt := some 1500
    rejectionReason := some "insufficient notice" }

/-- The responses of the calls of a sequence, in order. -/
def callResponses (db : Collection) (id : Nat) : List Call → List Response
  | [] => []
  | c :: cs => (c.run db id).1 :: callResponses (c.run db id).2 id cs

/-- A leave that the counsellor and the hod have approved: it waits at
joint_director level. -/
def leaveAtJointDirector : Application :=
  { sampleLeave with
    currentLevel := .joint_director
    counsellorApproval :=
      { approved := true, approvedBy := some 100, approvedAt := some 1000, comments := some "" }
    hodApproval :=
      { approved := true, approvedBy := some 101, approvedAt := some 2000, comments := some "" } }

/-- A cancelled outpass that is still at counsellor level. -/
def cancelledOutpass : Application :=
  { sampleOutpass with status := .cancelled }

/-- Another student, who owns none of the sample applications. -/
def otherStudent : User := { id := 8, userType := .student, name := "Bela" }

/-! ## The identity directory

The models `User`, `HOD`, `Warden` and `JointDirector` are not among the sources
(`Counsellor.js` is); the handlers read from their documents the paths `name`,
`email`, `mobile` and `isActive` only, which is what an `Identity` holds.  The
collections are arguments of the handlers that query them.

A query casts the `email` of its filter as the schema of the model says.
`Counsellor.js` declares `lowercase: true` on `email`, so the filter of
`Counsellor.findOne` is passed through `String.prototype.toLowerCase`, a method
of the JavaScript engine that is an argument here.  The schemas of `HOD` and
`Warden` are not among the sources, so the casts of their filters are arguments
as well. -/

/-- A document of one of the identity collections. -/
structure Identity where
  id : Nat
  name : String
  email : String
  mobile : String
  isActive : Bool := true
  deriving DecidableEq, Repr

/-- The collections of identities that the handlers query, with the casts of
the `email` filter: the four collections of admins, the `users` collection of
the students, `toLowerCase` for the filter of `Counsellor.findOne`, and the
casts of the filters of `HOD.findOne` and `Warden.findOne`. -/
structure Directory where
  counsellors : List Identity
  hods : List Identity
  jointDirectors : List Identity
  wardens : List Identity
  users : List Identity
  toLowerCase : String → String
  hodEmailCast : String → String
  wardenEmailCast : String → String

/-- Query `Model.findOne(\x7b email, isActive: true \x7d)`: the first document that
is active and whose `email` is the filter value as the schema casts it. -/
def findActiveByEmail (cast : String → String) (l : List Identity) (email : String) :
    Option Identity :=
  l.find? (fun x => x.email == cast email && x.isActive)

/-- Call `populate('student', 'name email mobile')`: the document of `users`
that the reference points to, `null` when there is none. -/
def populate (users : List Identity) (student : Nat) : Option Identity :=
  users.find? (fun u => u.id == student)

/-- An email resolves in a collection: some active document of the collection
has this email. -/
def resolves (l : List Identity) (email : String) : Prop :=
  ∃ x ∈ l, x.isActive = true ∧ x.email = email

/-- Query `Model.find(\x7b isActive: true \x7d)`. -/
def findActive (l : List Identity) : List Identity :=
  l.filter (fun x => x.isActive)

/-! ## `POST /api/applications` -/

/-- A date field of the request body: absent (or any other falsy value), a
value that `new Date` turns into an Invalid Date, or a value that it parses. -/
inductive DateInput where
  | missing
  | invalid
  | valid (ms : Int)
  deriving DecidableEq, Repr

/-- Truthiness of a date field, as the custom validators test it with `!value`. -/
def DateInput.truthy : DateInput → Bool
  | .missing => false
  | _ => true

/-- The expression `new Date(value)`; `none` stands for an Invalid Date. -/
def DateInput.toDate : DateInput → Option Int
  | .valid ms => some ms
  | _ => none

/-- The JSON body of a submission.  A missing string field is the empty string
(the validators treat both alike), a numeric field is the exact value of the
float literal that was sent, `none` when it is missing or is not a float
literal, and `others` holds every property of the body that the handler does
not destructure (for instance `status`, `currentLevel`, `student` or an
approval record). -/
structure SubmitBody where
  applicationType : String
  initialTime : DateInput
  expectedReturnTime : DateInput
  journeyDate : DateInput
  returnDate : DateInput
  reason : String
  address : String
  attendance : Option ℚ
  lastSemesterSGPA : Option ℚ
  counsellorEmail : String
  hodEmail : String
  wardenEmail : String
  others : List (String × String) := []
  deriving DecidableEq, Repr

/-- Validator `isLength(\x7b min, max \x7d)`. -/
def isLength (min max : Nat) (s : String) : Bool :=
  decide (min ≤ validatorLength s) && decide (validatorLength s ≤ max)

/-- The number of binary digits of `n`; `fuel` bounds the recursion. -/
def bitLength : Nat → Nat → Nat
  | 0, _ => 0
  | fuel + 1, n => if n = 0 then 0 else bitLength fuel (n / 2) + 1

/-- The exponent of the positive rational `n / d`: the integer `e` with
`2 ^ e ≤ n / d < 2 ^ (e + 1)`. -/
def binaryExponent (n d : Nat) : Int :=
  if d ≤ n then (bitLength (n / d) (n / d) : Int) - 1
  else
    let t := bitLength (d / n) (d / n) - 1
    if d ≤ n * 2 ^ t then -(t : Int) else -(t : Int) - 1

/-- The integer nearest to `n / d`; a tie goes to the even one. -/
def roundHalfEven (n d : Nat) : Nat :=
  if d < 2 * (n % d) then n / d + 1
  else if 2 * (n % d) = d ∧ (n / d) % 2 = 1 then n / d + 1
  else n / d

/-- The double nearest to the non-negative rational `n / d`, ties to even: 53
significant binary digits, no digit below `2 ^ (-1074)`, and `none` for the
infinity that a value of `2 ^ 1024` or more rounds to. -/
def roundToDouble (n d : Nat) : Option ℚ :=
  if n = 0 then some 0
  else
    let p : Int := max (binaryExponent n d - 52) (-1074)
    if 0 ≤ p then
      let r := roundHalfEven n (d * 2 ^ p.toNat)
      if 2 ^ 1024 ≤ r * 2 ^ p.toNat then none else some (mkRat (r * 2 ^ p.toNat) 1)
    else some (mkRat (roundHalfEven (n * 2 ^ (-p).toNat) d) (2 ^ (-p).toNat))

/-- Function `parseFloat` of JavaScript on a float literal, given by the exact
value of the literal: the nearest double, `none` for an infinity. -/
def parseFloat (literal : ℚ) : Option ℚ :=
  if literal < 0 then (roundToDouble literal.num.natAbs literal.den).map (fun x => -x)
  else roundToDouble literal.num.natAbs literal.den

/-- Validator `isFloat(\x7b min, max \x7d)` of validator.js: the field is a float
literal and `value >= min && value <= max` for `value = parseFloat(str)`; an
infinity fails one of the two bounds. -/
def isFloat (min max : ℚ) : Option ℚ → Bool
  | none => false
  | some literal =>
      match parseFloat literal with
      | none => false
      | some value => decide (min ≤ value) && decide (value ≤ max)

/-- The validation chain of `POST /` (lines 16-52): `true` when
`validationResult(req)` is empty.  The library validator `isEmail` is an
argument. -/
def submitValidation (isEmail : String → Bool) (body : SubmitBody) : Bool :=
  ["leave", "outpass"].contains body.applicationType
  && isLength 10 500 body.reason
  && isLength 10 200 body.address
  && isFloat 0 100 body.attendance
  && isFloat 0 10 body.lastSemesterSGPA
  && isEmail body.counsellorEmail
  && isEmail body.wardenEmail
  && !(body.applicationType == "leave" && body.hodEmail == "")
  && !(body.applicationType == "outpass" && !body.initialTime.truthy)
  && !(body.applicationType == "outpass" && !body.expectedReturnTime.truthy)
  && !(body.applicationType == "leave" && !body.journeyDate.truthy)
  && !(body.applicationType == "leave" && !body.returnDate.truthy)

/-- Query `Application.findOne(\x7b student, status: 'pending' \x7d)`. -/
def pendingApplication (db : Collection) (student : Nat) : Option Application :=
  db.find? (fun a => a.student == student && a.status == .pending)

/-- The id that the database gives to a new document: one that no stored
document has. -/
def freshId (db : Collection) : Nat :=
  (db.map (fun a => a._id)).foldr max 0 + 1

/-- Lines 126-151: the document built from `applicationData` and the schema
defaults; `none` when a schedule field of the applicable type is an Invalid
Date, which Mongoose refuses to cast.  A numeric field is cast to a Number, the
double that `parseFloat` yields. -/
def applicationData (db : Collection) (user : User) (body : SubmitBody) (now : Nat) :
    Option Application :=
  let doc : Application :=
    { _id := freshId db
      student := user.id
      applicationType := if body.applicationType = "outpass" then .outpass else .leave
      reason := body.reason
      address := body.address
      attendance := (body.attendance.bind parseFloat).getD 0
      lastSemesterSGPA := (body.lastSemesterSGPA.bind parseFloat).getD 0
      counsellorEmail := body.counsellorEmail
      wardenEmail := body.wardenEmail
      currentLevel := .counsellor
      hodEmail := if body.applicationType = "leave" then some body.hodEmail else none
      initialTime := none
      expectedReturnTime := none
      journeyDate := none
      returnDate := none
      submittedAt := now }
  if body.applicationType = "outpass" then
    match body.initialTime.toDate, body.expectedReturnTime.toDate with
    | some i, some e => some { doc with initialTime := some i, expectedReturnTime := some e }
    | _, _ => none
  else
    match body.journeyDate.toDate, body.returnDate.toDate with
    | some j, some r => some { doc with journeyDate := some j, returnDate := some r }
    | _, _ => none

/-- Method `Application.create(doc)`: schema validation, then the `pre('save')`
hook, then the insertion.  A failure throws and inserts nothing. -/
def create (db : Collection) (a : Application) : Except String Collection :=
  if !validate a then .error "ValidationError"
  else match preSave a with
    | some msg => .error msg
    | none => .ok (db ++ [a])

/-- The handler of `POST /` behind `protect`, with `isStudent` and the
validation chain: the response and the collection afterwards.  The
notifications that follow the insertion are modelled apart. -/
def submitApplication (isEmail : String → Bool) (dir : Directory) (db : Collection)
    (user : User) (body : SubmitBody) (now : Nat) : Response × Collection :=
  if !isStudent user then
    (.json 403 false "Access denied. Student privileges required.", db)
  else if !submitValidation isEmail body then
    (.json 400 false "Validation failed", db)
  else if (pendingApplication db user.id).isSome then
    (.json 400 false
      "You already have a pending application. Please wait for it to be processed.", db)
  else if (findActiveByEmail dir.toLowerCase dir.counsellors body.counsellorEmail).isNone then
    (.json 400 false "Invalid counsellor email. Please check and try again.", db)
  else if (findActiveByEmail dir.wardenEmailCast dir.wardens body.wardenEmail).isNone then
    (.json 400 false "Invalid warden email. Please check and try again.", db)
  else if body.applicationType = "leave"
      && (findActiveByEmail dir.hodEmailCast dir.hods body.hodEmail).isNone then
    (.json 400 false "Invalid HOD email. Please check and try again.", db)
  else
    match applicationData db user body now with
    | none => (.next "CastError", db)
    | some doc =>
        match create db doc with
        | .error e => (.next e, db)
        | .ok db' => (.json 201 true "Application submitted successfully", db')

/-! ## Sequences of calls on the whole collection -/

/-- One call of a route of `src/routes/applications.js` that writes. -/
inductive Op where
  | submit (user : User) (body : SubmitBody) (now : Nat)
  | approve (id : Nat) (user : User) (comments : Option String) (now : Nat)
  | reject (id : Nat) (user : User) (rejectionReason : Option String) (now : Nat)
  | cancel (id : Nat) (user : User)
  deriving DecidableEq, Repr

/-- Run one call. -/
def Op.run (isEmail : String → Bool) (dir : Directory) (db : Collection) :
    Op → Response × Collection
  | .submit user body now => submitApplication isEmail dir db user body now
  | .approve id user comments now => approveApplication db id user comments now
  | .reject id user rejectionReason now => rejectApplication db id user rejectionReason now
  | .cancel id user => cancelApplication db id user

/-- Run the calls one after the other; the collection afterwards. -/
def runOps (isEmail : String → Bool) (dir : Directory) (db : Collection) :
    List Op → Collection
  | [] => db
  | op :: ops => runOps isEmail dir (op.run isEmail dir db).2 ops

/-- The number of stored requests of a student that have status pending. -/
def pendingCount (db : Collection) (student : Nat) : Nat :=
  db.countP (fun a => a.student == student && a.status == .pending)

/-- The owner of the sample applications as `populate` returns it. -/
def sampleStudentIdentity : Identity :=
  { id := 7, name := "Asha", email := "asha@college.edu", mobile := "9000000007" }

/-- Example lowercase conversion: the letters A to Z are replaced by a to z,
which is what `toLowerCase` does on a string of ASCII characters. -/
def asciiLowerCase (s : String) : String :=
  String.mk (s.data.map Char.toLower)

/-- Example directory: one active admin of each role, one inactive warden and
the owner of the sample applications; the filters of the HOD and warden
queries are taken as they are. -/
def sampleDirectory : Directory :=
  { counsellors := [{ id := 100, name := "Rao", email := "c@college.edu", mobile := "9000000100" }]
    hods := [{ id := 101, name := "Iyer", email := "h@college.edu", mobile := "9000000101" }]
    jointDirectors :=
      [{ id := 102, name := "Sen", email := "j@college.edu", mobile := "9000000102" }]
    wardens :=
      [{ id := 103, name := "Das", email := "w@college.edu", mobile := "9000000103" },
       { id := 104, name := "Roy", email := "w2@college.edu", mobile := "9000000104",
         isActive := false }]
    users := [sampleStudentIdentity]
    toLowerCase := asciiLowerCase
    hodEmailCast := id
    wardenEmailCast := id }

/-- Example email check: the address contains an at sign. -/
def sampleIsEmail (s : String) : Bool :=
  s.data.contains '@'

/-- A well-formed outpass submission. -/
def outpassBody : SubmitBody :=
  { applicationType := "outpass"
    initialTime := .valid 1000
    expectedReturnTime := .valid 2000
    journeyDate := .missing
    returnDate := .missing
    reason := "visit to the dentist"
    address := "12 Station Road, Pune"
    attendance := some 80
    lastSemesterSGPA := some 8
    counsellorEmail := "c@college.edu"
    hodEmail := ""
    wardenEmail := "w@college.edu" }

/-- A well-formed leave submission. -/
def leaveBody : SubmitBody :=
  { applicationType := "leave"
    initialTime := .missing
    expectedReturnTime := .missing
    journeyDate := .valid 5000
    returnDate := .valid 9000
    reason := "family function at home"
    address := "12 Station Road, Pune"
    attendance := some 80
    lastSemesterSGPA := some 8
    counsellorEmail := "c@college.edu"
    hodEmail := "h@college.edu"
    wardenEmail := "w@college.edu" }

/-- The facts that hold of every collection the routes can produce: the ids are
distinct, every stored document passed `save()`, and no student has two pending
requests. -/
def StoreInvariant (db : Collection) : Prop :=
  (db.map (fun a => a._id)).Nodup ∧
  (∀ a ∈ db, passesSave a = true) ∧
  (∀ student, pendingCount db student ≤ 1)

/-- A well-formed leave submission whose body also carries properties that the
handler does not read. -/
def leaveBodyWithExtras : SubmitBody :=
  { leaveBody with
    others := [("status", "approved"), ("currentLevel", "completed"), ("student", "99"),
      ("wardenApproval.approved", "true"), ("rejectionReason", "none")] }

/-- The schedule of a document is in order: for an outpass `initialTime` is
strictly before `expectedReturnTime`, for a leave `journeyDate` is strictly
before `returnDate`. -/
def scheduleOrdered (a : Application) : Bool :=
  match a.applicationType with
  | .outpass =>
      match a.initialTime, a.expectedReturnTime with
      | some i, some e => decide (i < e)
      | _, _ => false
  | .leave =>
      match a.journeyDate, a.returnDate with
      | some j, some r => decide (j < r)
      | _, _ => false

/-- The sample outpass with a return time equal to the initial time. -/
def outpassWithEqualTimes : Application :=
  { sampleOutpass with expectedReturnTime := some 1000 }

/-! ## Notifications of the approve and reject handlers

`sendEmail` and `sendSMS` are called with a recipient and a text built by one of
the templates; a message is recorded as its channel, its recipient and the name
of its template.  `application.student` is what `populate` put there: the
document of the owner in `users`, or `null` when there is none, in which case
the first template that reads `application.student.name` throws a TypeError. -/

/-- The templates of `emailTemplates` and `smsTemplates`. -/
inductive Template where
  | applicationSubmitted
  | applicationApproved
  | applicationRejected
  | newApplicationNotification
  deriving DecidableEq, Repr

/-- One call of `sendEmail` or of `sendSMS`. -/
inductive Message where
  | email (recipient : String) (template : Template)
  | sms (recipient : String) (template : Template)
  deriving DecidableEq, Repr

/-- Lines 415-443: the admins found by the `switch` on `application.currentLevel`,
which is evaluated after the level has been advanced and saved.  The level
`completed` has no `case`. -/
def nextAdmins (dir : Directory) (application : Application) : List Identity :=
  match application.currentLevel with
  | .counsellor =>
      match application.applicationType with
      | .outpass => findActive dir.wardens
      | .leave => findActive dir.hods
  | .hod => findActive dir.jointDirectors
  | .joint_director => findActive dir.wardens
  | .warden => []
  | .completed => []

/-- Lines 393-463: the messages sent after `application.save()` in the approve
handler; `application` is the saved document.  With status approved the
templates of the owner are built first; otherwise the template of each admin is
built inside the loop, so a missing owner throws only when there is an admin to
notify.  The throw comes before the first send. -/
def approveNotifications (dir : Directory) (application : Application) :
    Except String (List Message) :=
  if application.status = .approved then
    match populate dir.users application.student with
    | none => .error "TypeError"
    | some student =>
        .ok [.email student.email .applicationApproved,
             .sms student.mobile .applicationApproved]
  else
    match nextAdmins dir application with
    | [] => .ok []
    | admin :: admins =>
        match populate dir.users application.student with
        | none => .error "TypeError"
        | some _ =>
            .ok ((admin :: admins).flatMap (fun admin =>
              [.email admin.email .newApplicationNotification,
               .sms admin.mobile .newApplicationNotification]))

/-- Lines 518-535: the messages sent after `application.save()` in the reject
handler, to the owner that `populate` found. -/
def rejectNotifications (dir : Directory) (application : Application) :
    Except String (List Message) :=
  match populate dir.users application.student with
  | none => .error "TypeError"
  | some student =>
      .ok [.email student.email .applicationRejected,
           .sms student.mobile .applicationRejected]

/-- The messages that a call of `PUT /:id/approve` sends: none on the paths
that answer before `application.save()`, when the save throws, or when a
template throws. -/
def approveMessages (dir : Directory) (db : Collection) (id : Nat)
    (user : User) (comments : Option String) (now : Nat) : List Message :=
  if !isAdmin user then []
  else if !commentsValid comments then []
  else match findById db id with
    | none => []
    | some application =>
        if application.currentLevel.str != user.userType.str then []
        else
          match save db (applyApproval application user comments now) with
          | .error _ => []
          | .ok _ =>
              match approveNotifications dir (applyApproval application user comments now) with
              | .error _ => []
              | .ok messages => messages

/-- The messages that a call of `PUT /:id/reject` sends. -/
def rejectMessages (dir : Directory) (db : Collection) (id : Nat)
    (user : User) (rejectionReason : Option String) (now : Nat) : List Message :=
  if !isAdmin user then []
  else if !rejectionReasonValid rejectionReason then []
  else match findById db id with
    | none => []
    | some application =>
        if application.currentLevel.str != user.userType.str then []
        else
          match save db (applyRejection application user rejectionReason now) with
          | .error _ => []
          | .ok _ =>
              match rejectNotifications dir
                  (applyRejection application user rejectionReason now) with
              | .error _ => []
              | .ok messages => messages

/-- The sample leave after the counsellor approved it: it waits at hod level. -/
def leaveAtHod : Application :=
  { sampleLeave with
    currentLevel := .hod
    counsellorApproval :=
      { approved := true, approvedBy := some 100, approvedAt := some 1000, comments := some "" } }

/-- The sample outpass after the counsellor approved it: it waits at warden level. -/
def outpassAtWarden : Application :=
  { sampleOutpass with
    currentLevel := .warden
    counsellorApproval :=
      { approved := true, approvedBy := some 100, approvedAt := some 1000, comments := some "" } }

/-- A directory in which the only counsellor is deactivated. -/
def directoryWithoutCounsellor : Directory :=
  { sampleDirectory with
    counsellors :=
      [{ id := 100, name := "Rao", email := "c@college.edu", mobile := "9000000100",
         isActive := false }] }

/-- The sample outpass after the counsellor and the warden approved it. -/
def approvedOutpass : Application :=
  { sampleOutpass with
    status := .approved
    currentLevel := .completed
    counsellorApproval :=
      { approved := true, approvedBy := some 100, approvedAt := some 1000, comments := some "" }
    wardenApproval :=
      { approved := true, approvedBy := some 103, approvedAt := some 2000, comments := some "" } }

/-- The paths of a document that a submission fills in: owner, type, schedule,
reason, address, attendance, SGPA, approver emails and `submittedAt`. -/
def submissionData (a : Application) :
    Nat × ApplicationType × Option Int × Option Int × Option Int × Option Int × String ×
      String × ℚ × ℚ × String × Option String × String × Nat :=
  (a.student, a.applicationType, a.initialTime, a.expectedReturnTime, a.journeyDate,
    a.returnDate, a.reason, a.address, a.attendance, a.lastSemesterSGPA, a.counsellorEmail,
    a.hodEmail, a.wardenEmail, a.submittedAt)

/-- The level is completed exactly when the status is approved. -/
def completedIffApproved (a : Application) : Bool :=
  decide (a.currentLevel = .completed) == decide (a.status = .approved)

/-! ## Middleware `canApproveAtLevel` and the pagination of the list routes -/

/-- The table `userTypeHierarchy` of `canApproveAtLevel`: the levels listed for
a user type, `none` for a key that the object does not have. -/
def userTypeHierarchy (userType : String) : Option (List String) :=
  if userType = "counsellor" then some ["counsellor"]
  else if userType = "hod" then some ["counsellor", "hod"]
  else if userType = "joint_director" then some ["counsellor", "hod", "joint_director"]
  else if userType = "warden" then some ["counsellor", "hod", "joint_director", "warden"]
  else none

/-- Middleware `canApproveAtLevel`: `true` when it calls `next()`, `false` when
it answers 403.  `currentLevel` is read from the request body. -/
def canApproveAtLevel (user : User) (currentLevel : String) : Bool :=
  match userTypeHierarchy user.userType.str with
  | none => false
  | some levels => levels.contains currentLevel

/-- The position of an approving role in the order counsellor, hod,
joint_director, warden of the statement compared with `canApproveAtLevel`;
`student` has none. -/
def UserType.seniority : UserType → Option Nat
  | .student => none
  | .counsellor => some 0
  | .hod => some 1
  | .joint_director => some 2
  | .warden => some 3

/-- The position of a level in the same order; `completed` has none. -/
def Level.seniority : Level → Option Nat
  | .counsellor => some 0
  | .hod => some 1
  | .joint_director => some 2
  | .warden => some 3
  | .completed => none

/-- The statement compared with `canApproveAtLevel`: the level is at or below
the role in the order counsellor, hod, joint_director, warden. -/
def levelAtOrBelowRole (role : UserType) (level : Level) : Bool :=
  match level.seniority, role.seniority with
  | some l, some r => decide (l ≤ r)
  | _, _ => false

/-- The expression `parseInt(value) || dflt`; `none` stands for the `NaN` that
`parseInt` gives for a missing or non-numeric value. -/
def parseIntOr (value : Option Int) (dflt : Int) : Int :=
  match value with
  | none => dflt
  | some n => if n = 0 then dflt else n

/-- The object `pagination` of the list responses. -/
structure Pagination where
  current : Int
  pages : Int
  hasNext : Bool
  hasPrev : Bool
  deriving DecidableEq, Repr

/-- The pagination block of `GET /api/applications` and of
`GET /api/admin/applications`: `Math.ceil(total / limit)` is the ceiling of the
exact quotient. -/
def pagination (pageQuery limitQuery : Option Int) (total : Nat) : Pagination :=
  let page := parseIntOr pageQuery 1
  let limit := parseIntOr limitQuery 10
  { current := page
    pages := ⌈(total : ℚ) / (limit : ℚ)⌉
    hasNext := decide (page * limit < (total : Int))
    hasPrev := decide (page > 1) }

/-! ## The transports behind `sendEmail` and `sendSMS` -/

/-- The call that hands a message to the mail server or to the SMS gateway
(`transporter.sendMail`, `client.messages.create`): it resolves or it throws. -/
abbrev Transport := Message → Except String Unit

/-- Function `sendEmail` of `src/utils/emailService.js`: `true` when the
transport resolves, `false` when it throws; the error is caught. -/
def sendEmail (transport : Transport) (message : Message) : Bool :=
  match transport message with
  | .ok _ => true
  | .error _ => false

/-- Function `sendSMS` of `src/utils/smsService.js`: `true` when the transport
resolves, `false` when it throws; the error is caught. -/
def sendSMS (transport : Transport) (message : Message) : Bool :=
  match transport message with
  | .ok _ => true
  | .error _ => false

/-- One notification of a handler: an email goes through `sendEmail`, an SMS
through `sendSMS`. -/
def send (transport : Transport) : Message → Bool
  | .email recipient template => sendEmail transport (.email recipient template)
  | .sms recipient template => sendSMS transport (.sms recipient template)

/-- What a handler does to the outside, in order: the write of
`application.save()`, and each call of `sendEmail` or `sendSMS` with what it
returned. -/
inductive Event where
  | saved (application : Application)
  | sent (message : Message) (delivered : Bool)
  deriving DecidableEq, Repr

/-- The whole handler of `PUT /:id/approve`: the response, the collection
afterwards, and the trace of the call.  The sends come after
`application.save()` and before the response; the handler does not read what
they return.  An error thrown after the save (a template that reads the name of
a missing owner) is passed to `next` with the write already done. -/
def approveHandler (transport : Transport) (dir : Directory)
    (db : Collection) (id : Nat) (user : User) (comments : Option String) (now : Nat) :
    Response × Collection × List Event :=
  if !isAdmin user then
    (.json 403 false "Access denied. Admin privileges required.", db, [])
  else if !commentsValid comments then
    (.json 400 false "Validation failed", db, [])
  else match findById db id with
    | none => (.json 404 false "Application not found", db, [])
    | some application =>
        if application.currentLevel.str != user.userType.str then
          (.json 403 false ("Application is not at " ++ user.userType.str ++ " level"), db, [])
        else
          match save db (applyApproval application user comments now) with
          | .error e => (.next e, db, [])
          | .ok db' =>
              match approveNotifications dir (applyApproval application user comments now) with
              | .error e =>
                  (.next e, db', [.saved (applyApproval application user comments now)])
              | .ok messages =>
                  (.json 200 true "Application approved successfully", db',
                    .saved (applyApproval application user comments now) ::
                      messages.map (fun m => .sent m (send transport m)))

/-- The whole handler of `PUT /:id/reject`, in the same way. -/
def rejectHandler (transport : Transport) (dir : Directory)
    (db : Collection) (id : Nat) (user : User) (rejectionReason : Option String) (now : Nat) :
    Response × Collection × List Event :=
  if !isAdmin user then
    (.json 403 false "Access denied. Admin privileges required.", db, [])
  else if !rejectionReasonValid rejectionReason then
    (.json 400 false "Validation failed", db, [])
  else match findById db id with
    | none => (.json 404 false "Application not found", db, [])
    | some application =>
        if application.currentLevel.str != user.userType.str then
          (.json 403 false ("Application is not at " ++ user.userType.str ++ " level"), db, [])
        else
          match save db (applyRejection application user rejectionReason now) with
          | .error e => (.next e, db, [])
          | .ok db' =>
              match rejectNotifications dir
                  (applyRejection application user rejectionReason now) with
              | .error e =>
                  (.next e, db', [.saved (applyRejection application user rejectionReason now)])
              | .ok messages =>
                  (.json 200 true "Application rejected successfully", db',
                    .saved (applyRejection application user rejectionReason now) ::
                      messages.map (fun m => .sent m (send transport m)))

/-- The messages that a trace hands to `sendEmail` and `sendSMS`, in order. -/
def sentMessages : List Event → List Message
  | [] => []
  | .saved _ :: rest => sentMessages rest
  | .sent m _ :: rest => m :: sentMessages rest

/-- A trace in which the write comes before every notification: either nothing
happened and the collection is as before, or the first event is the write of a
document, that document is what the collection holds under its id from then
on, and every later event is a send. -/
def persistedFirst (db after : Collection) : List Event → Prop
  | [] => after = db
  | .saved b :: rest =>
      after = replaceDoc db b ∧ findById after b._id = some b ∧
        ∀ e ∈ rest, ∃ m d, e = .sent m d
  | .sent _ _ :: _ => False

/-- A transport that always resolves. -/
def workingTransport : Transport := fun _ => .ok ()

/-- A transport that always throws. -/
def brokenTransport : Transport := fun _ => .error "connection refused"

/-! ## Two approve calls that overlap

The approve handler awaits twice on the database: `Application.findById` and
`application.save()`.  Between the two the event loop may run another request,
so a second call can read the document before the first call has saved it.  The
handler is split at the first await into the part that reads and checks and the
part that writes. -/

/-- Lines 331-357 of the approve handler: the validation result, the read and
the level check.  It yields the document in memory, or the response of an early
return. -/
def approveRead (db : Collection) (id : Nat) (user : User) (comments : Option String) :
    Except Response Application :=
  if !isAdmin user then
    .error (.json 403 false "Access denied. Admin privileges required.")
  else if !commentsValid comments then
    .error (.json 400 false "Validation failed")
  else match findById db id with
    | none => .error (.json 404 false "Application not found")
    | some application =>
        if application.currentLevel.str != user.userType.str then
          .error (.json 403 false ("Application is not at " ++ user.userType.str ++ " level"))
        else .ok application

/-- Lines 359-469 of the approve handler: the document in memory is changed and
saved into the collection as it is at that moment.  `save()` has no version
check; it sends the paths that the handler modified, which for two approvals by
the same role are the same paths, so that the stored document becomes the one
in memory. -/
def approveWrite (db : Collection) (application : Application) (user : User)
    (comments : Option String) (now : Nat) : Response × Collection :=
  match save db (applyApproval application user comments now) with
  | .error e => (.next e, db)
  | .ok db' => (.json 200 true "Application approved successfully", db')

/-- Two approve calls on the same id where both read before either writes: the
two responses and the collection afterwards. -/
def approveOverlapped (db : Collection) (id : Nat)
    (user1 : User) (comments1 : Option String) (now1 : Nat)
    (user2 : User) (comments2 : Option String) (now2 : Nat) :
    Response × Response × Collection :=
  let read1 := approveRead db id user1 comments1
  let read2 := approveRead db id user2 comments2
  let write1 : Response × Collection :=
    match read1 with
    | .error r => (r, db)
    | .ok application => approveWrite db application user1 comments1 now1
  let write2 : Response × Collection :=
    match read2 with
    | .error r => (r, write1.2)
    | .ok application => approveWrite write1.2 application user2 comments2 now2
  (write1.1, write2.1, write2.2)

/-- A second active counsellor. -/
def secondCounsellor : User := { id := 105, userType := .counsellor, name := "Nair" }

/-! ## A float literal next to a bound -/

/-- The value of the float literal `100.00000000000000001`. -/
def literalAbove100 : ℚ :=
  mkRat (10 ^ 19 + 1) (10 ^ 17)

/-! ## Reasons and comments outside the basic Latin range -/

/-- A reason of 101 characters, each the code point U+1F600: 202 UTF-16 code
units, which validator.js counts as 101. -/
def astralReason : String :=
  String.mk (List.replicate 101 (Char.ofNat 128512))

/-- The reason "ok" followed by three variation selectors U+FE0F: five
characters and five UTF-16 code units, which validator.js counts as 2. -/
def selectorReason : String :=
  String.mk ('o' :: 'k' :: List.replicate 3 (Char.ofNat 65039))

/-- A reason of 200 letters followed by one variation selector U+FE0F: 201
characters and 201 UTF-16 code units, which validator.js counts as 200. -/
def longSelectorReason : String :=
  String.mk (List.replicate 200 'a' ++ [Char.ofNat 65039])

/-! ## Lemmas on the collection -/

theorem findById_nil (id : Nat) : findById [] id = none := rfl

theorem findById_cons (x : Application) (xs : Collection) (id : Nat) :
    findById (x :: xs) id = if x._id = id then some x else findById xs id := by
  by_cases h : x._id = id <;> simp [findById, List.find?_cons, h]

theorem replaceDoc_cons (x : Application) (xs : Collection) (b : Application) :
    replaceDoc (x :: xs) b = (if x._id = b._id then b else x) :: replaceDoc xs b := by
  by_cases h : x._id = b._id <;> simp [replaceDoc, h]

theorem findById_id {db : Collection} {id : Nat} {a : Application}
    (h : findById db id = some a) : a._id = id := by
  induction db with
  | nil => simp [findById_nil] at h
  | cons x xs ih =>
    rw [findById_cons] at h
    split_ifs at h with hx
    · cases h; exact hx
    · exact ih h

theorem findById_replaceDoc {db : Collection} {id : Nat} {a b : Application}
    (h : findById db id = some a) (hb : b._id = id) :
    findById (replaceDoc db b) id = some b := by
  induction db with
  | nil => simp [findById_nil] at h
  | cons x xs ih =>
    rw [findById_cons] at h
    rw [replaceDoc_cons, findById_cons]
    split_ifs at h with hx
    · rw [if_pos (hx.trans hb.symm), if_pos hb]
    · have hx' : ¬ x._id = b._id := by rw [hb]; exact hx
      rw [if_neg hx', if_neg hx]
      exact ih h

theorem findById_replaceDoc_ne (db : Collection) {j : Nat} {b : Application}
    (hj : j ≠ b._id) :
    findById (replaceDoc db b) j = findById db j := by
  induction db with
  | nil => rfl
  | cons x xs ih =>
    rw [replaceDoc_cons, findById_cons, findById_cons, ih]
    by_cases hx : x._id = b._id
    · have h1 : ¬ b._id = j := fun h => hj h.symm
      have h2 : ¬ x._id = j := by rw [hx]; exact h1
      rw [if_pos hx, if_neg h1, if_neg h2]
    · rw [if_neg hx]

/-! ## Lemmas on `save()` -/

theorem save_of_passesSave (db : Collection) {a : Application} (h : passesSave a = true) :
    save db a = .ok (replaceDoc db a) := by
  simp only [passesSave, Bool.and_eq_true] at h
  obtain ⟨hv, hp⟩ := h
  unfold save
  rw [hv]
  cases hq : preSave a with
  | none => rfl
  | some m => rw [hq] at hp; simp at hp

theorem save_cases (db : Collection) (a : Application) :
    (∃ e, save db a = .error e) ∨ (save db a = .ok (replaceDoc db a)) := by
  unfold save
  split_ifs
  · exact Or.inl ⟨_, rfl⟩
  · cases preSave a with
    | none => exact Or.inr rfl
    | some m => exact Or.inl ⟨_, rfl⟩

theorem validate_nextLevel (a : Application) : validate (nextLevel a) = validate a := by
  unfold nextLevel
  cases hT : a.applicationType <;> cases hL : a.currentLevel <;> simp [validate, hT]

theorem preSave_nextLevel (a : Application) : preSave (nextLevel a) = preSave a := by
  unfold nextLevel
  cases hT : a.applicationType <;> cases hL : a.currentLevel <;> simp [preSave, hT]

theorem validate_setApprovalPath {a : Application} (path : String) {v : Approval}
    (ha : validate a = true) (hv : v.valid = true) :
    validate (setApprovalPath a path v) = true := by
  unfold setApprovalPath
  split_ifs <;> simp [validate] at ha ⊢ <;> simp [ha, hv]

theorem preSave_setApprovalPath (a : Application) (path : String) (v : Approval) :
    preSave (setApprovalPath a path v) = preSave a := by
  unfold setApprovalPath
  split_ifs <;> rfl

/-- The count of validator.js never exceeds the number of UTF-16 code units. -/
theorem validatorLength_le_utf16Length (s : String) : validatorLength s ≤ utf16Length s := by
  unfold validatorLength
  omega

/-- A comment that fits the schema bound also passes the route validator. -/
theorem commentsValid_of_utf16Length {comments : Option String}
    (hu : utf16Length (comments.getD "") ≤ 200) : commentsValid comments = true := by
  cases comments with
  | none => rfl
  | some c =>
    simp only [commentsValid, decide_eq_true_eq]
    exact (validatorLength_le_utf16Length c).trans hu

theorem passesSave_applyApproval {a : Application} (user : User) {comments : Option String}
    (now : Nat) (ha : passesSave a = true) (hu : utf16Length (comments.getD "") ≤ 200) :
    passesSave (applyApproval a user comments now) = true := by
  simp only [passesSave, Bool.and_eq_true] at ha ⊢
  unfold applyApproval
  rw [validate_nextLevel, preSave_nextLevel, preSave_setApprovalPath]
  refine ⟨validate_setApprovalPath _ ha.1 ?_, ha.2⟩
  simpa [Approval.valid, maxlengthOk] using hu

theorem passesSave_applyRejection {a : Application} (user : User) {rejectionReason : Option String}
    (now : Nat) (ha : passesSave a = true)
    (hu : utf16Length (rejectionReason.getD "") ≤ 200) :
    passesSave (applyRejection a user rejectionReason now) = true := by
  have hlen : maxlengthOk 200 rejectionReason = true := by
    cases rejectionReason with
    | none => rfl
    | some r => simpa [maxlengthOk] using hu
  simp only [passesSave, Bool.and_eq_true] at ha ⊢
  obtain ⟨hv, hp⟩ := ha
  refine ⟨?_, hp⟩
  simp [validate, applyRejection] at hv ⊢
  simp [hv, hlen]

theorem passesSave_applyCancellation {a : Application} (ha : passesSave a = true) :
    passesSave (applyCancellation a) = true := ha

/-! ## Lemmas on the role checks -/

theorem adminUserTypes_of_level_eq (l : Level) (t : UserType) :
    l.str = t.str →
      ["counsellor", "hod", "joint_director", "warden"].contains t.str = true := by
  cases l <;> cases t <;> decide

theorem isAdmin_of_level_eq {l : Level} {user : User} (h : l.str = user.userType.str) :
    isAdmin user = true :=
  adminUserTypes_of_level_eq l user.userType h

theorem level_str_eq_iff (l : Level) (t : UserType) :
    l.str = t.str ↔
      (l = .counsellor ∧ t = .counsellor) ∨ (l = .hod ∧ t = .hod) ∨
      (l = .joint_director ∧ t = .joint_director) ∨ (l = .warden ∧ t = .warden) := by
  cases l <;> cases t <;> decide

/-! ## What each route does -/

theorem approveApplication_ok {db : Collection} {id : Nat} {a : Application} {user : User}
    {comments : Option String} (now : Nat)
    (hfind : findById db id = some a) (hlevel : a.currentLevel.str = user.userType.str)
    (hu : utf16Length (comments.getD "") ≤ 200) (hsave : passesSave a = true) :
    approveApplication db id user comments now =
      (.json 200 true "Application approved successfully",
        replaceDoc db (applyApproval a user comments now)) := by
  unfold approveApplication
  rw [isAdmin_of_level_eq hlevel, commentsValid_of_utf16Length hu, hfind]
  simp only [Bool.not_true, Bool.false_eq_true, if_false, hlevel, bne_self_eq_false]
  rw [save_of_passesSave db (passesSave_applyApproval user now hsave hu)]

theorem rejectApplication_ok {db : Collection} {id : Nat} {a : Application} {user : User}
    {rejectionReason : Option String} (now : Nat)
    (hfind : findById db id = some a) (hlevel : a.currentLevel.str = user.userType.str)
    (hr : rejectionReasonValid rejectionReason = true)
    (hu : utf16Length (rejectionReason.getD "") ≤ 200) (hsave : passesSave a = true) :
    rejectApplication db id user rejectionReason now =
      (.json 200 true "Application rejected successfully",
        replaceDoc db (applyRejection a user rejectionReason now)) := by
  unfold rejectApplication
  rw [isAdmin_of_level_eq hlevel, hr, hfind]
  simp only [Bool.not_true, Bool.false_eq_true, if_false, hlevel, bne_self_eq_false]
  rw [save_of_passesSave db (passesSave_applyRejection user now hsave hu)]

theorem cancelApplication_ok {db : Collection} {id : Nat} {a : Application} {user : User}
    (hfind : findById db id = some a) (hstudent : isStudent user = true)
    (howner : a.student = user.id) (hpending : a.status = .pending)
    (hsave : passesSave a = true) :
    cancelApplication db id user =
      (.json 200 true "Application cancelled successfully",
        replaceDoc db (applyCancellation a)) := by
  unfold cancelApplication
  rw [hstudent, hfind]
  simp only [Bool.not_true, Bool.false_eq_true, if_false, howner, hpending, bne_self_eq_false]
  rw [save_of_passesSave db (passesSave_applyCancellation hsave)]

theorem approveApplication_forbidden {db : Collection} {id : Nat} {a : Application} {user : User}
    {comments : Option String} (now : Nat)
    (hfind : findById db id = some a) (hadmin : isAdmin user = true)
    (hlevel : a.currentLevel.str ≠ user.userType.str)
    (hc : commentsValid comments = true) :
    approveApplication db id user comments now =
      (.json 403 false ("Application is not at " ++ user.userType.str ++ " level"), db) := by
  unfold approveApplication
  rw [hadmin, hc, hfind]
  simp [hlevel]

theorem rejectApplication_forbidden {db : Collection} {id : Nat} {a : Application} {user : User}
    {rejectionReason : Option String} (now : Nat)
    (hfind : findById db id = some a) (hadmin : isAdmin user = true)
    (hlevel : a.currentLevel.str ≠ user.userType.str)
    (hr : rejectionReasonValid rejectionReason = true) :
    rejectApplication db id user rejectionReason now =
      (.json 403 false ("Application is not at " ++ user.userType.str ++ " level"), db) := by
  unfold rejectApplication
  rw [hadmin, hr, hfind]
  simp [hlevel]

/-- The collection after `approve`: untouched, or the found document overwritten
by its approved version. -/
theorem approveApplication_db (db : Collection) (id : Nat) (user : User)
    (comments : Option String) (now : Nat) :
    (approveApplication db id user comments now).2 = db ∨
    ∃ a, findById db id = some a ∧ a.currentLevel.str = user.userType.str ∧
      (approveApplication db id user comments now).2 =
        replaceDoc db (applyApproval a user comments now) := by
  unfold approveApplication
  split_ifs
  · exact Or.inl rfl
  · exact Or.inl rfl
  · cases hfind : findById db id with
    | none => exact Or.inl rfl
    | some a =>
      by_cases hlevel : a.currentLevel.str = user.userType.str
      · rcases save_cases db (applyApproval a user comments now) with ⟨e, he⟩ | hok
        · left; simp [hlevel, he]
        · right; exact ⟨a, rfl, hlevel, by simp [hlevel, hok]⟩
      · left; simp [hlevel]

theorem rejectApplication_db (db : Collection) (id : Nat) (user : User)
    (rejectionReason : Option String) (now : Nat) :
    (rejectApplication db id user rejectionReason now).2 = db ∨
    ∃ a, findById db id = some a ∧ a.currentLevel.str = user.userType.str ∧
      (rejectApplication db id user rejectionReason now).2 =
        replaceDoc db (applyRejection a user rejectionReason now) := by
  unfold rejectApplication
  split_ifs
  · exact Or.inl rfl
  · exact Or.inl rfl
  · cases hfind : findById db id with
    | none => exact Or.inl rfl
    | some a =>
      by_cases hlevel : a.currentLevel.str = user.userType.str
      · rcases save_cases db (applyRejection a user rejectionReason now) with ⟨e, he⟩ | hok
        · left; simp [hlevel, he]
        · right; exact ⟨a, rfl, hlevel, by simp [hlevel, hok]⟩
      · left; simp [hlevel]

theorem cancelApplication_db (db : Collection) (id : Nat) (user : User) :
    (cancelApplication db id user).2 = db ∨
    ∃ a, findById db id = some a ∧ a.status = .pending ∧
      (cancelApplication db id user).2 = replaceDoc db (applyCancellation a) := by
  unfold cancelApplication
  split_ifs
  · exact Or.inl rfl
  · cases hfind : findById db id with
    | none => exact Or.inl rfl
    | some a =>
      by_cases howner : a.student = user.id
      · by_cases hst : a.status = .pending
        · rcases save_cases db (applyCancellation a) with ⟨e, he⟩ | hok
          · left; simp [howner, hst, he]
          · right; exact ⟨a, rfl, hst, by simp [howner, hst, hok]⟩
        · left; simp [howner, hst]
      · left; simp [howner]

/-! ## Terminal states (claims C1, C2) -/

/-- C1, evaluated on the code.  The sample outpass is cancelled by its owner,
then a counsellor rejects it, approves it, and a warden approves it: every call
answers 200 and the stored status goes pending, cancelled, rejected, rejected,
approved.  A status other than pending is overwritten by later calls, because
the approve and reject handlers test `currentLevel` only. -/
theorem terminal_status_overwritten :
    (findById (runCalls [sampleOutpass] 1
        [.cancel sampleStudent]) 1).map (fun a => a.status) = some .cancelled ∧
    (findById (runCalls [sampleOutpass] 1
        [.cancel sampleStudent,
         .reject sampleCounsellor (some "too late") 1500]) 1).map (fun a => a.status)
      = some .rejected ∧
    (findById (runCalls [sampleOutpass] 1
        [.cancel sampleStudent,
         .reject sampleCounsellor (some "too late") 1500,
         .approve sampleCounsellor none 1600]) 1).map (fun a => a.status)
      = some .rejected ∧
    (findById (runCalls [sampleOutpass] 1
        [.cancel sampleStudent,
         .reject sampleCounsellor (some "too late") 1500,
         .approve sampleCounsellor none 1600,
         .approve sampleWarden none 1700]) 1).map (fun a => a.status)
      = some .approved := by
  decide

/-- C2, evaluated on the code.  On a rejected outpass at counsellor level an
approve call by a counsellor answers 200, records the approval and moves
`currentLevel` to warden; a reject call by another counsellor answers 200 and
overwrites the rejection details. -/
theorem terminal_request_still_mutable :
    approveApplication [rejectedOutpass] 1 sampleCounsellor none 1600 =
      (.json 200 true "Application approved successfully",
        [{ rejectedOutpass with
           currentLevel := .warden
           counsellorApproval :=
             { approved := true, approvedBy := some 100, approvedAt := some 1600,
               comments := some "" } }]) ∧
    rejectApplication [rejectedOutpass] 1 { sampleCounsellor with id := 104 }
        (some "second opinion") 1600 =
      (.json 200 true "Application rejected successfully",
        [{ rejectedOutpass with
           rejectedBy := some 104
           rejectedAt := some 1600
           rejectionReason := some "second opinion" }]) := by
  decide

/-! ## The level check (claim C3) -/

/-- C3.  When the role of an admin differs from `currentLevel` of an existing
request, approve and reject with well-formed bodies both answer 403 with the
message of the level check and return the collection untouched, so the stored
request is the one found before the call. -/
theorem wrong_level_forbidden (db : Collection) (id : Nat) (a : Application) (user : User)
    (comments rejectionReason : Option String) (now : Nat)
    (hfind : findById db id = some a) (hadmin : isAdmin user = true)
    (hrole : user.userType.str ≠ a.currentLevel.str)
    (hc : commentsValid comments = true)
    (hr : rejectionReasonValid rejectionReason = true) :
    approveApplication db id user comments now =
      (.json 403 false ("Application is not at " ++ user.userType.str ++ " level"), db) ∧
    rejectApplication db id user rejectionReason now =
      (.json 403 false ("Application is not at " ++ user.userType.str ++ " level"), db) ∧
    findById (approveApplication db id user comments now).2 id = some a ∧
    findById (rejectApplication db id user rejectionReason now).2 id = some a := by
  have h1 := approveApplication_forbidden now hfind hadmin (fun h => hrole h.symm) hc
  have h2 := rejectApplication_forbidden now hfind hadmin (fun h => hrole h.symm) hr
  refine ⟨h1, h2, ?_, ?_⟩
  · rw [h1]; exact hfind
  · rw [h2]; exact hfind

/-- C3 at a concrete input: a warden acting on the sample outpass, which is at
counsellor level. -/
theorem wrong_level_forbidden_witness :
    approveApplication [sampleOutpass] 1 sampleWarden (some "fine") 1500 =
      (.json 403 false "Application is not at warden level", [sampleOutpass]) ∧
    rejectApplication [sampleOutpass] 1 sampleWarden (some "not allowed") 1500 =
      (.json 403 false "Application is not at warden level", [sampleOutpass]) ∧
    findById (approveApplication [sampleOutpass] 1 sampleWarden (some "fine") 1500).2 1
      = some sampleOutpass ∧
    findById (rejectApplication [sampleOutpass] 1 sampleWarden (some "not allowed") 1500).2 1
      = some sampleOutpass :=
  wrong_level_forbidden [sampleOutpass] 1 sampleOutpass sampleWarden (some "fine")
    (some "not allowed") 1500 (by decide) (by decide) (by decide) (by decide) (by decide)

/-! ## The approval chains (claims C4, C5) -/

theorem setApprovalPath_frame (a : Application) (path : String) (v : Approval) :
    (setApprovalPath a path v)._id = a._id ∧
    (setApprovalPath a path v).applicationType = a.applicationType ∧
    (setApprovalPath a path v).currentLevel = a.currentLevel ∧
    (setApprovalPath a path v).status = a.status := by
  unfold setApprovalPath
  split_ifs <;> exact ⟨rfl, rfl, rfl, rfl⟩

theorem nextLevel_frame (a : Application) :
    (nextLevel a)._id = a._id ∧ (nextLevel a).applicationType = a.applicationType := by
  unfold nextLevel
  cases hT : a.applicationType <;> cases hL : a.currentLevel <;> simp [hT]

theorem applyApproval_frame (a : Application) (user : User) (comments : Option String)
    (now : Nat) :
    (applyApproval a user comments now)._id = a._id ∧
    (applyApproval a user comments now).applicationType = a.applicationType := by
  unfold applyApproval
  obtain ⟨h1, h2, -, -⟩ := setApprovalPath_frame a (approvalField user)
    { approved := true, approvedBy := some user.id, approvedAt := some now,
      comments := some (comments.getD "") }
  obtain ⟨h3, h4⟩ := nextLevel_frame (setApprovalPath a (approvalField user)
    { approved := true, approvedBy := some user.id, approvedAt := some now,
      comments := some (comments.getD "") })
  exact ⟨h3.trans h1, h4.trans h2⟩

/-- The level and status after `nextLevel`, as a table. -/
theorem nextLevel_table (a : Application) :
    ((nextLevel a).currentLevel, (nextLevel a).status) =
      match a.applicationType, a.currentLevel with
      | .outpass, .counsellor => (.warden, a.status)
      | .outpass, .warden => (.completed, .approved)
      | .leave, .counsellor => (.hod, a.status)
      | .leave, .hod => (.joint_director, a.status)
      | .leave, .joint_director => (.warden, a.status)
      | .leave, .warden => (.completed, .approved)
      | _, l => (l, a.status) := by
  unfold nextLevel
  cases hT : a.applicationType <;> cases hL : a.currentLevel <;> simp [hL]

theorem applyApproval_table (a : Application) (user : User) (comments : Option String)
    (now : Nat) :
    ((applyApproval a user comments now).currentLevel,
      (applyApproval a user comments now).status) =
      match a.applicationType, a.currentLevel with
      | .outpass, .counsellor => (.warden, a.status)
      | .outpass, .warden => (.completed, .approved)
      | .leave, .counsellor => (.hod, a.status)
      | .leave, .hod => (.joint_director, a.status)
      | .leave, .joint_director => (.warden, a.status)
      | .leave, .warden => (.completed, .approved)
      | _, l => (l, a.status) := by
  unfold applyApproval
  obtain ⟨-, h2, h3, h4⟩ := setApprovalPath_frame a (approvalField user)
    { approved := true, approvedBy := some user.id, approvedAt := some now,
      comments := some (comments.getD "") }
  rw [nextLevel_table, h2, h3, h4]

/-- One successful approval: the response, the stored document afterwards, and
the fact that it can be saved again. -/
theorem approve_step {db : Collection} {id : Nat} {a : Application} {user : User}
    {comments : Option String} (now : Nat)
    (hfind : findById db id = some a) (hlevel : a.currentLevel.str = user.userType.str)
    (hu : utf16Length (comments.getD "") ≤ 200) (hsave : passesSave a = true) :
    approveApplication db id user comments now =
      (.json 200 true "Application approved successfully",
        replaceDoc db (applyApproval a user comments now)) ∧
    findById (replaceDoc db (applyApproval a user comments now)) id =
      some (applyApproval a user comments now) ∧
    passesSave (applyApproval a user comments now) = true :=
  ⟨approveApplication_ok now hfind hlevel hu hsave,
   findById_replaceDoc hfind ((applyApproval_frame a user comments now).1.trans (findById_id hfind)),
   passesSave_applyApproval user now hsave hu⟩

/-- C4.  On a stored leave request that is pending at counsellor level, four
approve calls by a counsellor, an hod, a joint director and a warden, each with
a body the stored record accepts (no comment, or a comment of at most 200 UTF-16
code units, the bound of the schema, which also passes the route validator), all
answer 200, and the stored request is at hod, then joint_director, then warden,
each time still pending, and finally at completed with status approved. -/
theorem leave_chain (db : Collection) (id : Nat) (a : Application)
    (counsellor hod jointDirector warden : User) (c1 c2 c3 c4 : Option String)
    (t1 t2 t3 t4 : Nat)
    (hfind : findById db id = some a) (hsave : passesSave a = true)
    (htype : a.applicationType = .leave) (hstatus : a.status = .pending)
    (hlevel : a.currentLevel = .counsellor)
    (hu1 : counsellor.userType = .counsellor) (hu2 : hod.userType = .hod)
    (hu3 : jointDirector.userType = .joint_director) (hu4 : warden.userType = .warden)
    (hc1 : utf16Length (c1.getD "") ≤ 200) (hc2 : utf16Length (c2.getD "") ≤ 200)
    (hc3 : utf16Length (c3.getD "") ≤ 200) (hc4 : utf16Length (c4.getD "") ≤ 200) :
    (findById (runCalls db id [.approve counsellor c1 t1]) id).map
        (fun x => (x.currentLevel, x.status)) = some (.hod, .pending) ∧
    (findById (runCalls db id [.approve counsellor c1 t1, .approve hod c2 t2]) id).map
        (fun x => (x.currentLevel, x.status)) = some (.joint_director, .pending) ∧
    (findById (runCalls db id [.approve counsellor c1 t1, .approve hod c2 t2,
        .approve jointDirector c3 t3]) id).map
        (fun x => (x.currentLevel, x.status)) = some (.warden, .pending) ∧
    (findById (runCalls db id [.approve counsellor c1 t1, .approve hod c2 t2,
        .approve jointDirector c3 t3, .approve warden c4 t4]) id).map
        (fun x => (x.currentLevel, x.status)) = some (.completed, .approved) ∧
    callResponses db id [.approve counsellor c1 t1, .approve hod c2 t2,
        .approve jointDirector c3 t3, .approve warden c4 t4] =
      List.replicate 4 (.json 200 true "Application approved successfully") := by
  -- first approval
  have e1 := applyApproval_table a counsellor c1 t1
  rw [htype, hlevel, hstatus] at e1
  simp only [Prod.mk.injEq] at e1
  have ty1 := (applyApproval_frame a counsellor c1 t1).2.trans htype
  obtain ⟨r1, f1, s1⟩ := approve_step t1 hfind
    (show a.currentLevel.str = counsellor.userType.str by rw [hlevel, hu1]; rfl) hc1 hsave
  -- second approval
  have e2 := applyApproval_table (applyApproval a counsellor c1 t1) hod c2 t2
  rw [ty1, e1.1, e1.2] at e2
  simp only [Prod.mk.injEq] at e2
  have ty2 := (applyApproval_frame (applyApproval a counsellor c1 t1) hod c2 t2).2.trans ty1
  obtain ⟨r2, f2, s2⟩ := approve_step t2 f1
    (show (applyApproval a counsellor c1 t1).currentLevel.str = hod.userType.str by
      rw [e1.1, hu2]; rfl) hc2 s1
  -- third approval
  have e3 := applyApproval_table
    (applyApproval (applyApproval a counsellor c1 t1) hod c2 t2) jointDirector c3 t3
  rw [ty2, e2.1, e2.2] at e3
  simp only [Prod.mk.injEq] at e3
  have ty3 := (applyApproval_frame
    (applyApproval (applyApproval a counsellor c1 t1) hod c2 t2) jointDirector c3 t3).2.trans ty2
  obtain ⟨r3, f3, s3⟩ := approve_step t3 f2
    (show (applyApproval (applyApproval a counsellor c1 t1) hod c2 t2).currentLevel.str
        = jointDirector.userType.str by rw [e2.1, hu3]; rfl) hc3 s2
  -- fourth approval
  have e4 := applyApproval_table
    (applyApproval (applyApproval (applyApproval a counsellor c1 t1) hod c2 t2)
      jointDirector c3 t3) warden c4 t4
  rw [ty3, e3.1] at e4
  simp only [Prod.mk.injEq] at e4
  obtain ⟨r4, f4, -⟩ := approve_step t4 f3
    (show (applyApproval (applyApproval (applyApproval a counsellor c1 t1) hod c2 t2)
        jointDirector c3 t3).currentLevel.str = warden.userType.str by
      rw [e3.1, hu4]; rfl) hc4 s3
  simp only [runCalls, callResponses, Call.run, r1, r2, r3, r4, f1, f2, f3, f4, Option.map_some',
    e1.1, e1.2, e2.1, e2.2, e3.1, e3.2, e4.1, e4.2, List.replicate]
  exact ⟨trivial, trivial, trivial, trivial, trivial⟩

/-- C4 at a concrete input: the sample leave and the four sample admins. -/
theorem leave_chain_witness :
    (findById (runCalls [sampleLeave] 2 [.approve sampleCounsellor none 10]) 2).map
        (fun x => (x.currentLevel, x.status)) = some (.hod, .pending) ∧
    (findById (runCalls [sampleLeave] 2 [.approve sampleCounsellor none 10,
        .approve sampleHod (some "ok") 20]) 2).map
        (fun x => (x.currentLevel, x.status)) = some (.joint_director, .pending) ∧
    (findById (runCalls [sampleLeave] 2 [.approve sampleCounsellor none 10,
        .approve sampleHod (some "ok") 20, .approve sampleJointDirector none 30]) 2).map
        (fun x => (x.currentLevel, x.status)) = some (.warden, .pending) ∧
    (findById (runCalls [sampleLeave] 2 [.approve sampleCounsellor none 10,
        .approve sampleHod (some "ok") 20, .approve sampleJointDirector none 30,
        .approve sampleWarden none 40]) 2).map
        (fun x => (x.currentLevel, x.status)) = some (.completed, .approved) ∧
    callResponses [sampleLeave] 2 [.approve sampleCounsellor none 10,
        .approve sampleHod (some "ok") 20, .approve sampleJointDirector none 30,
        .approve sampleWarden none 40] =
      List.replicate 4 (.json 200 true "Application approved successfully") :=
  leave_chain [sampleLeave] 2 sampleLeave sampleCounsellor sampleHod sampleJointDirector
    sampleWarden none (some "ok") none none 10 20 30 40
    (by decide) (by decide) (by decide) (by decide) (by decide) (by decide) (by decide)
    (by decide) (by decide) (by decide) (by decide) (by decide) (by decide)

/-- C5.  On a stored outpass request that is pending at counsellor level, an
approve call by a counsellor answers 200 and leaves the request pending at
warden level; a following approve call by a warden answers 200 and leaves it
with status approved at level completed.  No hod or joint director takes part.
Each call carries a body the stored record accepts: no comment, or a comment of
at most 200 UTF-16 code units (the bound of the schema, which also passes the
route validator). -/
theorem outpass_chain (db : Collection) (id : Nat) (a : Application)
    (counsellor warden : User) (c1 c2 : Option String) (t1 t2 : Nat)
    (hfind : findById db id = some a) (hsave : passesSave a = true)
    (htype : a.applicationType = .outpass) (hstatus : a.status = .pending)
    (hlevel : a.currentLevel = .counsellor)
    (hu1 : counsellor.userType = .counsellor) (hu2 : warden.userType = .warden)
    (hc1 : utf16Length (c1.getD "") ≤ 200) (hc2 : utf16Length (c2.getD "") ≤ 200) :
    (findById (runCalls db id [.approve counsellor c1 t1]) id).map
        (fun x => (x.currentLevel, x.status)) = some (.warden, .pending) ∧
    (findById (runCalls db id [.approve counsellor c1 t1, .approve warden c2 t2]) id).map
        (fun x => (x.currentLevel, x.status)) = some (.completed, .approved) ∧
    callResponses db id [.approve counsellor c1 t1, .approve warden c2 t2] =
      List.replicate 2 (.json 200 true "Application approved successfully") := by
  have e1 := applyApproval_table a counsellor c1 t1
  rw [htype, hlevel, hstatus] at e1
  simp only [Prod.mk.injEq] at e1
  have ty1 := (applyApproval_frame a counsellor c1 t1).2.trans htype
  obtain ⟨r1, f1, s1⟩ := approve_step t1 hfind
    (show a.currentLevel.str = counsellor.userType.str by rw [hlevel, hu1]; rfl) hc1 hsave
  have e2 := applyApproval_table (applyApproval a counsellor c1 t1) warden c2 t2
  rw [ty1, e1.1] at e2
  simp only [Prod.mk.injEq] at e2
  obtain ⟨r2, f2, -⟩ := approve_step t2 f1
    (show (applyApproval a counsellor c1 t1).currentLevel.str = warden.userType.str by
      rw [e1.1, hu2]; rfl) hc2 s1
  simp only [runCalls, callResponses, Call.run, r1, r2, f1, f2, Option.map_some',
    e1.1, e1.2, e2.1, e2.2, List.replicate]
  exact ⟨trivial, trivial, trivial⟩

/-- C5 at a concrete input: the sample outpass, a counsellor and a warden. -/
theorem outpass_chain_witness :
    (findById (runCalls [sampleOutpass] 1 [.approve sampleCounsellor (some "ok") 10]) 1).map
        (fun x => (x.currentLevel, x.status)) = some (.warden, .pending) ∧
    (findById (runCalls [sampleOutpass] 1 [.approve sampleCounsellor (some "ok") 10,
        .approve sampleWarden none 20]) 1).map
        (fun x => (x.currentLevel, x.status)) = some (.completed, .approved) ∧
    callResponses [sampleOutpass] 1 [.approve sampleCounsellor (some "ok") 10,
        .approve sampleWarden none 20] =
      List.replicate 2 (.json 200 true "Application approved successfully") :=
  outpass_chain [sampleOutpass] 1 sampleOutpass sampleCounsellor sampleWarden (some "ok") none
    10 20 (by decide) (by decide) (by decide) (by decide) (by decide) (by decide) (by decide)
    (by decide) (by decide)

/-! ## The levels a request goes through (claim C6) -/

theorem levelsFrom_head (t : ApplicationType) (l : Level) :
    ∃ rest, levelsFrom t l = l :: rest := by
  cases t <;> cases l <;> exact ⟨_, rfl⟩

/-- One approval keeps the level or moves it to the next one of the chain. -/
theorem applyApproval_level (a : Application) (user : User) (comments : Option String)
    (now : Nat) :
    (applyApproval a user comments now).currentLevel = a.currentLevel ∨
    ((applyApproval a user comments now).currentLevel ≠ a.currentLevel ∧
      levelsFrom a.applicationType a.currentLevel =
        a.currentLevel :: levelsFrom a.applicationType
          (applyApproval a user comments now).currentLevel) := by
  have h := applyApproval_table a user comments now
  cases hT : a.applicationType <;> cases hL : a.currentLevel <;>
    rw [hT, hL] at h <;> simp only [Prod.mk.injEq] at h <;> rw [h.1] <;>
    first
      | exact Or.inl rfl
      | exact Or.inr ⟨by decide, rfl⟩

/-- One call keeps the document in the collection, keeps its type, and keeps
its level or moves it to the next one of the chain. -/
theorem call_step (c : Call) {db : Collection} {id : Nat} {a : Application}
    (hfind : findById db id = some a) :
    ∃ b, findById (c.run db id).2 id = some b ∧
      b.applicationType = a.applicationType ∧
      (b.currentLevel = a.currentLevel ∨
        (b.currentLevel ≠ a.currentLevel ∧
          levelsFrom a.applicationType a.currentLevel =
            a.currentLevel :: levelsFrom a.applicationType b.currentLevel)) := by
  have hid := findById_id hfind
  cases c with
  | approve user comments now =>
    rcases approveApplication_db db id user comments now with h | ⟨a0, h0, -, h⟩
    · exact ⟨a, by simp only [Call.run, h]; exact hfind, rfl, Or.inl rfl⟩
    · rw [hfind] at h0
      cases h0
      refine ⟨applyApproval a user comments now, ?_,
        (applyApproval_frame a user comments now).2, applyApproval_level a user comments now⟩
      simp only [Call.run, h]
      exact findById_replaceDoc hfind ((applyApproval_frame a user comments now).1.trans hid)
  | reject user rejectionReason now =>
    rcases rejectApplication_db db id user rejectionReason now with h | ⟨a0, h0, -, h⟩
    · exact ⟨a, by simp only [Call.run, h]; exact hfind, rfl, Or.inl rfl⟩
    · rw [hfind] at h0
      cases h0
      refine ⟨applyRejection a user rejectionReason now, ?_, rfl, Or.inl rfl⟩
      simp only [Call.run, h]
      exact findById_replaceDoc hfind hid
  | cancel user =>
    rcases cancelApplication_db db id user with h | ⟨a0, h0, -, h⟩
    · exact ⟨a, by simp only [Call.run, h]; exact hfind, rfl, Or.inl rfl⟩
    · rw [hfind] at h0
      cases h0
      refine ⟨applyCancellation a, ?_, rfl, Or.inl rfl⟩
      simp only [Call.run, h]
      exact findById_replaceDoc hfind hid

theorem levelHistory_head (calls : List Call) {db : Collection} {id : Nat} {a : Application}
    (hfind : findById db id = some a) :
    ∃ rest, levelHistory db id calls = a.currentLevel :: rest := by
  cases calls with
  | nil => exact ⟨[], by simp [levelHistory, levelOf, hfind]⟩
  | cons c cs =>
    exact ⟨levelHistory (c.run db id).2 id cs, by simp [levelHistory, levelOf, hfind]⟩

theorem levelHistory_length (calls : List Call) :
    ∀ {db : Collection} {id : Nat} {a : Application}, findById db id = some a →
      (levelHistory db id calls).length = calls.length + 1 := by
  induction calls with
  | nil => intro db id a hfind; simp [levelHistory, levelOf, hfind]
  | cons c cs ih =>
    intro db id a hfind
    obtain ⟨b, hb, -, -⟩ := call_step c hfind
    simp [levelHistory, levelOf, hfind, ih hb]

/-- The distinct levels of a history form a prefix of the levels that
`nextLevel` goes through from the level at the start. -/
theorem distinctRuns_levelHistory (calls : List Call) :
    ∀ {db : Collection} {id : Nat} {a : Application}, findById db id = some a →
      distinctRuns (levelHistory db id calls) <+: levelsFrom a.applicationType a.currentLevel := by
  induction calls with
  | nil =>
    intro db id a hfind
    obtain ⟨rest, hrest⟩ := levelsFrom_head a.applicationType a.currentLevel
    simp only [levelHistory, levelOf, hfind, distinctRuns, hrest]
    exact ⟨rest, rfl⟩
  | cons c cs ih =>
    intro db id a hfind
    obtain ⟨b, hb, hty, hlv⟩ := call_step c hfind
    obtain ⟨rest, hrest⟩ := levelHistory_head cs hb
    have hI := ih hb
    rw [hrest, hty] at hI
    simp only [levelHistory, levelOf, hfind, hrest, List.singleton_append, distinctRuns]
    rcases hlv with heq | ⟨hne, hchain⟩
    · rw [if_pos heq.symm]
      rw [← heq]
      exact hI
    · rw [if_neg (fun h => hne h.symm), hchain]
      exact (List.prefix_cons_inj a.currentLevel).mpr hI

/-- C6.  For a stored request that is at counsellor level, as a submission
leaves it, and for every sequence of approve, reject and cancel calls on it, the
distinct values of `currentLevel` it takes, in order, form a prefix of
counsellor, warden, completed for an outpass and of counsellor, hod,
joint_director, warden, completed for a leave.  The history has one entry for
the start and one per call. -/
theorem level_sequence_is_chain_prefix (db : Collection) (id : Nat) (a : Application)
    (calls : List Call)
    (hfind : findById db id = some a) (hlevel : a.currentLevel = .counsellor) :
    (levelHistory db id calls).length = calls.length + 1 ∧
    distinctRuns (levelHistory db id calls) <+:
      (match a.applicationType with
       | .outpass => [.counsellor, .warden, .completed]
       | .leave => [.counsellor, .hod, .joint_director, .warden, .completed]) := by
  have h := distinctRuns_levelHistory calls hfind
  rw [hlevel] at h
  refine ⟨levelHistory_length calls hfind, ?_⟩
  cases ht : a.applicationType <;> rw [ht] at h <;> exact h

/-- C6 at a concrete input: the sample outpass under a reject by a warden (403),
an approve by a counsellor, a cancel by the owner and an approve by a warden. -/
theorem level_sequence_is_chain_prefix_witness :
    (levelHistory [sampleOutpass] 1
      [.reject sampleWarden (some "not now") 10, .approve sampleCounsellor none 20,
       .cancel sampleStudent, .approve sampleWarden none 30]).length = 4 + 1 ∧
    distinctRuns (levelHistory [sampleOutpass] 1
      [.reject sampleWarden (some "not now") 10, .approve sampleCounsellor none 20,
       .cancel sampleStudent, .approve sampleWarden none 30])
      <+: [.counsellor, .warden, .completed] :=
  level_sequence_is_chain_prefix [sampleOutpass] 1 sampleOutpass
    [.reject sampleWarden (some "not now") 10, .approve sampleCounsellor none 20,
     .cancel sampleStudent, .approve sampleWarden none 30] (by decide) (by decide)

/-! ## The approval records (claim C7) -/

theorem nextLevel_approvals (a : Application) :
    (nextLevel a).counsellorApproval = a.counsellorApproval ∧
    (nextLevel a).hodApproval = a.hodApproval ∧
    (nextLevel a).jointDirectorApproval = a.jointDirectorApproval ∧
    (nextLevel a).wardenApproval = a.wardenApproval := by
  unfold nextLevel
  cases hT : a.applicationType <;> cases hL : a.currentLevel <;> simp

/-- The record that a successful approval writes for a counsellor, an hod and a
warden; for a joint director the computed path `joint_directorApproval` is not a
path of the schema and `jointDirectorApproval` keeps its value. -/
theorem approval_record_by_role (a : Application) (user : User) (comments : Option String)
    (now : Nat) :
    (user.userType = .counsellor →
      (applyApproval a user comments now).counsellorApproval =
        { approved := true, approvedBy := some user.id, approvedAt := some now,
          comments := some (comments.getD "") }) ∧
    (user.userType = .hod →
      (applyApproval a user comments now).hodApproval =
        { approved := true, approvedBy := some user.id, approvedAt := some now,
          comments := some (comments.getD "") }) ∧
    (user.userType = .warden →
      (applyApproval a user comments now).wardenApproval =
        { approved := true, approvedBy := some user.id, approvedAt := some now,
          comments := some (comments.getD "") }) ∧
    (user.userType = .joint_director →
      (applyApproval a user comments now).jointDirectorApproval = a.jointDirectorApproval) := by
  obtain ⟨h1, h2, h3, h4⟩ := nextLevel_approvals (setApprovalPath a (approvalField user)
    { approved := true, approvedBy := some user.id, approvedAt := some now,
      comments := some (comments.getD "") })
  unfold applyApproval
  rw [h1, h2, h3, h4]
  refine ⟨?_, ?_, ?_, ?_⟩ <;> intro hu <;> simp only [approvalField, hu] <;> rfl

/-- C7, evaluated on the code.  A joint director approves a leave that waits at
joint_director level: the call answers 200 and the level moves to warden, but
the stored `jointDirectorApproval` is still the unapproved default, because the
handler writes to the path `joint_directorApproval`. -/
theorem joint_director_approval_not_recorded :
    approvalField sampleJointDirector = "joint_directorApproval" ∧
    approveApplication [leaveAtJointDirector] 2 sampleJointDirector (some "seen") 3000 =
      (.json 200 true "Application approved successfully",
        [{ leaveAtJointDirector with currentLevel := .warden }]) ∧
    (findById (approveApplication [leaveAtJointDirector] 2 sampleJointDirector
        (some "seen") 3000).2 2).map (fun x => x.jointDirectorApproval) =
      some { approved := false, approvedBy := none, approvedAt := none, comments := none } := by
  decide

/-! ## Rejection (claims C8, C9) -/

set_option maxRecDepth 100000 in
/-- C8, counterexample.  A reason of 5 to 200 characters does not make a reject
call at the matching level succeed.  The reason of 101 characters U+1F600 passes
the route validator, which counts 101, but has 202 UTF-16 code units, so the
schema bound of 200 refuses it: `save()` throws, the handler ends in
`next(error)` and the stored request is still pending with no rejection fields.
The reason "ok" followed by three selectors U+FE0F has five characters and five
UTF-16 code units, but the route validator counts 2 and answers 400. -/
theorem reject_reason_in_bounds_not_accepted :
    astralReason.length = 101 ∧ validatorLength astralReason = 101 ∧
    utf16Length astralReason = 202 ∧
    rejectApplication [sampleOutpass] 1 sampleCounsellor (some astralReason) 1500 =
      (.next "ValidationError", [sampleOutpass]) ∧
    selectorReason.length = 5 ∧ utf16Length selectorReason = 5 ∧
    validatorLength selectorReason = 2 ∧
    rejectApplication [sampleOutpass] 1 sampleCounsellor (some selectorReason) 1500 =
      (.json 400 false "Validation failed", [sampleOutpass]) := by
  decide

/-- C8, amended.  A reject call by an admin whose role equals `currentLevel` of
a stored request, with a reason that validator.js counts as at least 5 (UTF-16
code units, a surrogate pair counted once, the selectors U+FE0E and U+FE0F not
counted) and that has at most 200 UTF-16 code units, answers 200 and overwrites
that request only; the stored request afterwards is the one before with `status`
rejected, `rejectedBy` the id of the actor, `rejectedAt` the time of the call
and `rejectionReason` the reason, so `currentLevel` and the four approval
records are as before.  This holds in particular when the request is pending. -/
theorem reject_sets_rejection_only (db : Collection) (id : Nat) (a : Application)
    (user : User) (reason : String) (now : Nat)
    (hfind : findById db id = some a) (hsave : passesSave a = true)
    (hlevel : a.currentLevel.str = user.userType.str)
    (hmin : 5 ≤ validatorLength reason) (hmax : utf16Length reason ≤ 200) :
    rejectApplication db id user (some reason) now =
      (.json 200 true "Application rejected successfully",
        replaceDoc db { a with
                        status := .rejected
                        rejectedBy := some user.id
                        rejectedAt := some now
                        rejectionReason := some reason }) ∧
    findById (rejectApplication db id user (some reason) now).2 id =
      some { a with
             status := .rejected
             rejectedBy := some user.id
             rejectedAt := some now
             rejectionReason := some reason } ∧
    (rejectApplication db id user (some reason) now).2.length = db.length := by
  have hr : rejectionReasonValid (some reason) = true := by
    simp only [rejectionReasonValid, Option.getD_some, Bool.and_eq_true, decide_eq_true_eq]
    exact ⟨hmin, (validatorLength_le_utf16Length reason).trans hmax⟩
  have hid := findById_id hfind
  rw [rejectApplication_ok now hfind hlevel hr hmax hsave]
  exact ⟨rfl, findById_replaceDoc hfind hid, by simp [replaceDoc]⟩

/-- C8 at a concrete input: a counsellor rejects the sample outpass. -/
theorem reject_sets_rejection_only_witness :
    rejectApplication [sampleOutpass] 1 sampleCounsellor (some "insufficient notice") 1500 =
      (.json 200 true "Application rejected successfully",
        replaceDoc [sampleOutpass]
          { sampleOutpass with
            status := .rejected
            rejectedBy := some sampleCounsellor.id
            rejectedAt := some 1500
            rejectionReason := some "insufficient notice" }) ∧
    findById (rejectApplication [sampleOutpass] 1 sampleCounsellor
        (some "insufficient notice") 1500).2 1 =
      some { sampleOutpass with
             status := .rejected
             rejectedBy := some sampleCounsellor.id
             rejectedAt := some 1500
             rejectionReason := some "insufficient notice" } ∧
    (rejectApplication [sampleOutpass] 1 sampleCounsellor
        (some "insufficient notice") 1500).2.length = [sampleOutpass].length :=
  reject_sets_rejection_only [sampleOutpass] 1 sampleOutpass sampleCounsellor
    "insufficient notice" 1500 (by decide) (by decide) (by decide) (by decide) (by decide)

set_option maxRecDepth 100000 in
/-- C9, counterexample.  A reason longer than 200 characters is not always
answered with 400.  The reason of 200 letters followed by one selector U+FE0F
has 201 characters and 201 UTF-16 code units, but the route validator counts
200 and lets it pass: a counsellor on a request at counsellor level ends in
`next(error)`, raised by the schema bound in `save()`, and a warden on the same
request gets the 403 of the level check.  The stored request is unchanged in
both calls. -/
theorem reject_long_reason_passes_validator :
    longSelectorReason.length = 201 ∧ utf16Length longSelectorReason = 201 ∧
    validatorLength longSelectorReason = 200 ∧
    rejectApplication [sampleOutpass] 1 sampleCounsellor (some longSelectorReason) 1500 =
      (.next "ValidationError", [sampleOutpass]) ∧
    rejectApplication [sampleOutpass] 1 sampleWarden (some longSelectorReason) 1500 =
      (.json 403 false "Application is not at warden level", [sampleOutpass]) := by
  decide

/-- C9, amended.  A reject call by an admin whose `rejectionReason` is missing,
or is counted by validator.js (UTF-16 code units, a surrogate pair counted once,
the selectors U+FE0E and U+FE0F not counted) as shorter than 5 or longer than
200, answers 400 "Validation failed" and returns the collection untouched,
whatever the request and whatever its level. -/
theorem reject_invalid_reason (db : Collection) (id : Nat) (user : User)
    (rejectionReason : Option String) (now : Nat)
    (hadmin : isAdmin user = true)
    (hbad : rejectionReason = none ∨
      ∃ s, rejectionReason = some s ∧ (validatorLength s < 5 ∨ 200 < validatorLength s)) :
    rejectApplication db id user rejectionReason now =
      (.json 400 false "Validation failed", db) := by
  have hr : rejectionReasonValid rejectionReason = false := by
    rcases hbad with rfl | ⟨s, rfl, hs⟩
    · rfl
    · simp only [rejectionReasonValid, Option.getD_some, Bool.and_eq_false_iff,
        decide_eq_false_iff_not, not_le]
      exact hs
  unfold rejectApplication
  rw [hadmin, hr]
  rfl

/-- C9 at a concrete input: a counsellor rejects the sample outpass, which is at
counsellor level, with the reason "no". -/
theorem reject_invalid_reason_witness :
    rejectApplication [sampleOutpass] 1 sampleCounsellor (some "no") 1500 =
      (.json 400 false "Validation failed", [sampleOutpass]) :=
  reject_invalid_reason [sampleOutpass] 1 sampleCounsellor (some "no") 1500 (by decide)
    (Or.inr ⟨"no", rfl, Or.inl (by decide)⟩)

/-! ## Cancellation (claim C10) -/

/-- C10.  A cancel call by the student who owns a stored pending request answers
200, whatever `currentLevel` is, and overwrites that request only; the stored
request afterwards is the one before with `status` cancelled and nothing else
changed: level, approval records and rejection fields are as before. -/
theorem cancel_changes_status_only (db : Collection) (id : Nat) (a : Application)
    (user : User)
    (hfind : findById db id = some a) (hsave : passesSave a = true)
    (hpending : a.status = .pending)
    (hstudent : user.userType = .student) (howner : a.student = user.id) :
    cancelApplication db id user =
      (.json 200 true "Application cancelled successfully",
        replaceDoc db { a with status := .cancelled }) ∧
    findById (cancelApplication db id user).2 id = some { a with status := .cancelled } := by
  have hs : isStudent user = true := by
    unfold isStudent
    rw [hstudent]
    rfl
  have hid := findById_id hfind
  rw [cancelApplication_ok hfind hs howner hpending hsave]
  exact ⟨rfl, findById_replaceDoc hfind hid⟩

/-- C10 at a concrete input: the owner cancels a leave that waits at
joint_director level, stored next to the sample outpass. -/
theorem cancel_changes_status_only_witness :
    cancelApplication [sampleOutpass, leaveAtJointDirector] 2 sampleStudent =
      (.json 200 true "Application cancelled successfully",
        replaceDoc [sampleOutpass, leaveAtJointDirector]
          { leaveAtJointDirector with status := .cancelled }) ∧
    findById (cancelApplication [sampleOutpass, leaveAtJointDirector] 2 sampleStudent).2 2 =
      some { leaveAtJointDirector with status := .cancelled } :=
  cancel_changes_status_only [sampleOutpass, leaveAtJointDirector] 2 leaveAtJointDirector
    sampleStudent (by decide) (by decide) (by decide) (by decide) (by decide)

/-! ## The outcomes of a cancel call (claim C11) -/

/-- C11.  For a student who calls cancel on a stored request the outcome is
decided by two tests, in this order: when the caller is not the owner the call
answers 403 "Access denied" whatever the status is; when the owner calls and
the status is not pending it answers 400; in both cases the collection is
returned untouched.  In every other case the call answers 200 and stores the
request with status cancelled. -/
theorem cancel_outcomes (db : Collection) (id : Nat) (a : Application) (user : User)
    (hfind : findById db id = some a) (hsave : passesSave a = true)
    (hstudent : user.userType = .student) :
    cancelApplication db id user =
      if a.student ≠ user.id then
        (.json 403 false "Access denied", db)
      else if a.status ≠ .pending then
        (.json 400 false "Application cannot be cancelled at this stage", db)
      else
        (.json 200 true "Application cancelled successfully",
          replaceDoc db (applyCancellation a)) := by
  have hs : isStudent user = true := by
    unfold isStudent
    rw [hstudent]
    rfl
  by_cases howner : a.student = user.id
  · by_cases hpending : a.status = .pending
    · rw [cancelApplication_ok hfind hs howner hpending hsave]
      simp [howner, hpending]
    · unfold cancelApplication
      rw [hs, hfind]
      simp [howner, hpending]
  · unfold cancelApplication
    rw [hs, hfind]
    simp [howner]

/-- C11 at concrete inputs: a student who is not the owner, the owner on a
cancelled request, and the owner on a pending request. -/
theorem cancel_outcomes_witness :
    cancelApplication [sampleOutpass] 1 otherStudent =
      (.json 403 false "Access denied", [sampleOutpass]) ∧
    cancelApplication [cancelledOutpass] 1 otherStudent =
      (.json 403 false "Access denied", [cancelledOutpass]) ∧
    cancelApplication [cancelledOutpass] 1 sampleStudent =
      (.json 400 false "Application cannot be cancelled at this stage", [cancelledOutpass]) ∧
    cancelApplication [sampleOutpass] 1 sampleStudent =
      (.json 200 true "Application cancelled successfully", [cancelledOutpass]) :=
  ⟨cancel_outcomes [sampleOutpass] 1 sampleOutpass otherStudent (by decide) (by decide)
      (by decide),
   cancel_outcomes [cancelledOutpass] 1 cancelledOutpass otherStudent (by decide) (by decide)
      (by decide),
   cancel_outcomes [cancelledOutpass] 1 cancelledOutpass sampleStudent (by decide) (by decide)
      (by decide),
   cancel_outcomes [sampleOutpass] 1 sampleOutpass sampleStudent (by decide) (by decide)
      (by decide)⟩

/-! ## Reachable levels (claims C12, C13) -/

/-- After any sequence of calls the document is still stored, has its type, and
its level lies on the path that `nextLevel` takes from the level at the start. -/
theorem runCalls_reach (calls : List Call) :
    ∀ {db : Collection} {id : Nat} {a : Application}, findById db id = some a →
      ∃ b, findById (runCalls db id calls) id = some b ∧
        b.applicationType = a.applicationType ∧
        levelsFrom a.applicationType b.currentLevel <:+
          levelsFrom a.applicationType a.currentLevel := by
  induction calls with
  | nil =>
    intro db id a hfind
    exact ⟨a, hfind, rfl, List.suffix_refl _⟩
  | cons c cs ih =>
    intro db id a hfind
    obtain ⟨b1, hb1, hty1, hlv1⟩ := call_step c hfind
    obtain ⟨b, hb, hty, hlv⟩ := ih hb1
    refine ⟨b, hb, hty.trans hty1, ?_⟩
    rw [hty1] at hlv
    rcases hlv1 with heq | ⟨-, hchain⟩
    · rw [heq] at hlv
      exact hlv
    · rw [hchain]
      exact hlv.trans (List.suffix_cons _ _)

/-- The level reached after any sequence of calls is one of the levels of the
path from the level at the start. -/
theorem runCalls_level_mem (calls : List Call) {db : Collection} {id : Nat} {a : Application}
    (hfind : findById db id = some a) :
    ∃ b, findById (runCalls db id calls) id = some b ∧
      b.applicationType = a.applicationType ∧
      b.currentLevel ∈ levelsFrom a.applicationType a.currentLevel := by
  obtain ⟨b, hb, hty, hlv⟩ := runCalls_reach calls hfind
  refine ⟨b, hb, hty, hlv.subset ?_⟩
  obtain ⟨rest, hrest⟩ := levelsFrom_head a.applicationType b.currentLevel
  rw [hrest]
  exact List.mem_cons_self _ _

theorem outpass_level_ne_hod (l : Level) (t : UserType)
    (hl : l ∈ levelsFrom .outpass .counsellor)
    (ht : t = .hod ∨ t = .joint_director) : l.str ≠ t.str := by
  rcases ht with rfl | rfl <;> revert hl <;> cases l <;> decide

/-- C12.  An outpass that starts at counsellor level, as a submission leaves it,
is after any sequence of approve, reject and cancel calls at counsellor, warden
or completed level, never at hod or joint_director level; an approve call and a
reject call by an hod or a joint director with well-formed bodies then answer
403 and return the collection untouched. -/
theorem outpass_rejects_hod_and_joint_director (db : Collection) (id : Nat)
    (a : Application) (calls : List Call) (user : User)
    (comments rejectionReason : Option String) (now : Nat)
    (hfind : findById db id = some a) (htype : a.applicationType = .outpass)
    (hlevel : a.currentLevel = .counsellor)
    (hrole : user.userType = .hod ∨ user.userType = .joint_director)
    (hc : commentsValid comments = true)
    (hr : rejectionReasonValid rejectionReason = true) :
    approveApplication (runCalls db id calls) id user comments now =
      (.json 403 false ("Application is not at " ++ user.userType.str ++ " level"),
        runCalls db id calls) ∧
    rejectApplication (runCalls db id calls) id user rejectionReason now =
      (.json 403 false ("Application is not at " ++ user.userType.str ++ " level"),
        runCalls db id calls) ∧
    levelOf (runCalls db id calls) id ∈
      [[Level.counsellor], [Level.warden], [Level.completed]] := by
  obtain ⟨b, hb, -, hmem⟩ := runCalls_level_mem calls hfind
  rw [htype, hlevel] at hmem
  have hne := outpass_level_ne_hod b.currentLevel user.userType hmem hrole
  have hadmin : isAdmin user = true := by
    unfold isAdmin
    rcases hrole with h | h <;> rw [h] <;> decide
  refine ⟨approveApplication_forbidden now hb hadmin hne hc,
    rejectApplication_forbidden now hb hadmin hne hr, ?_⟩
  simp only [levelOf, hb]
  revert hmem
  cases b.currentLevel <;> decide

/-- C12 at a concrete input: the sample outpass after an approval by a
counsellor, and an hod who then tries to act on it. -/
theorem outpass_rejects_hod_and_joint_director_witness :
    approveApplication (runCalls [sampleOutpass] 1 [.approve sampleCounsellor none 10]) 1
        sampleHod none 20 =
      (.json 403 false "Application is not at hod level",
        runCalls [sampleOutpass] 1 [.approve sampleCounsellor none 10]) ∧
    rejectApplication (runCalls [sampleOutpass] 1 [.approve sampleCounsellor none 10]) 1
        sampleHod (some "not needed") 20 =
      (.json 403 false "Application is not at hod level",
        runCalls [sampleOutpass] 1 [.approve sampleCounsellor none 10]) ∧
    levelOf (runCalls [sampleOutpass] 1 [.approve sampleCounsellor none 10]) 1 ∈
      [[Level.counsellor], [Level.warden], [Level.completed]] :=
  outpass_rejects_hod_and_joint_director [sampleOutpass] 1 sampleOutpass
    [.approve sampleCounsellor none 10] sampleHod none (some "not needed") 20
    (by decide) (by decide) (by decide) (by decide) (by decide) (by decide)

theorem save_cases_strong (db : Collection) (a : Application) :
    (∃ e, save db a = .error e) ∨
    (passesSave a = true ∧ save db a = .ok (replaceDoc db a)) := by
  by_cases h : passesSave a = true
  · exact Or.inr ⟨h, save_of_passesSave db h⟩
  · left
    unfold save
    by_cases hv : validate a = true
    · rw [hv]
      cases hp : preSave a with
      | none => simp [passesSave, hv, hp] at h
      | some m => exact ⟨_, rfl⟩
    · simp only [Bool.not_eq_true] at hv
      rw [hv]
      exact ⟨_, rfl⟩

/-- What a 200 answer of approve tells about the call. -/
theorem approveApplication_ok_inv {db : Collection} {id : Nat} {user : User}
    {comments : Option String} {now : Nat}
    (h : (approveApplication db id user comments now).1 =
      .json 200 true "Application approved successfully") :
    isAdmin user = true ∧ commentsValid comments = true ∧
    ∃ a, findById db id = some a ∧ a.currentLevel.str = user.userType.str ∧
      passesSave (applyApproval a user comments now) = true ∧
      (approveApplication db id user comments now).2 =
        replaceDoc db (applyApproval a user comments now) := by
  unfold approveApplication at h ⊢
  by_cases hadmin : isAdmin user = true
  · by_cases hc : commentsValid comments = true
    · refine ⟨hadmin, hc, ?_⟩
      rw [hadmin, hc] at h ⊢
      cases hfind : findById db id with
      | none => rw [hfind] at h; simp at h
      | some a =>
        rw [hfind] at h
        by_cases hlevel : a.currentLevel.str = user.userType.str
        · rcases save_cases_strong db (applyApproval a user comments now) with ⟨e, he⟩ | ⟨hs, hok⟩
          · simp [hlevel, he] at h
          · exact ⟨a, rfl, hlevel, hs, by simp [hlevel, hok]⟩
        · simp [hlevel] at h
    · simp only [Bool.not_eq_true] at hc
      rw [hadmin, hc] at h
      simp at h
  · simp only [Bool.not_eq_true] at hadmin
    rw [hadmin] at h
    simp at h

/-- On the path from counsellor level an approval by the role of the current
level moves the level away from that role. -/
theorem approved_level_ne (t : ApplicationType) (l : Level) (u : UserType)
    (hl : l ∈ levelsFrom t .counsellor) (hu : l.str = u.str) :
    (match t, l with
      | .outpass, .counsellor => Level.warden
      | .outpass, .warden => Level.completed
      | .leave, .counsellor => Level.hod
      | .leave, .hod => Level.joint_director
      | .leave, .joint_director => Level.warden
      | .leave, .warden => Level.completed
      | _, l => l).str ≠ u.str := by
  revert hl hu
  cases t <;> cases l <;> cases u <;> decide

theorem applyApproval_level_table (a : Application) (user : User) (comments : Option String)
    (now : Nat) :
    (applyApproval a user comments now).currentLevel =
      match a.applicationType, a.currentLevel with
      | .outpass, .counsellor => Level.warden
      | .outpass, .warden => Level.completed
      | .leave, .counsellor => Level.hod
      | .leave, .hod => Level.joint_director
      | .leave, .joint_director => Level.warden
      | .leave, .warden => Level.completed
      | _, l => l := by
  have h := applyApproval_table a user comments now
  cases hT : a.applicationType <;> cases hL : a.currentLevel <;>
    rw [hT, hL] at h <;> simp only [Prod.mk.injEq] at h <;> exact h.1

/-- C13.  In a state reached from a request at counsellor level, as a submission
leaves it, by any sequence of approve, reject and cancel calls: when an approve
call answers 200, a following approve call by an actor of the same role with a
well-formed body answers 403 and returns the collection as the first call left
it, so the chain is not advanced twice. -/
theorem duplicate_approval_forbidden (db : Collection) (id : Nat) (a : Application)
    (calls : List Call) (user user2 : User) (comments comments2 : Option String)
    (now now2 : Nat)
    (hfind : findById db id = some a) (hlevel : a.currentLevel = .counsellor)
    (hok : (approveApplication (runCalls db id calls) id user comments now).1 =
      .json 200 true "Application approved successfully")
    (hrole : user2.userType = user.userType)
    (hc2 : commentsValid comments2 = true) :
    approveApplication (approveApplication (runCalls db id calls) id user comments now).2
        id user2 comments2 now2 =
      (.json 403 false ("Application is not at " ++ user2.userType.str ++ " level"),
        (approveApplication (runCalls db id calls) id user comments now).2) := by
  obtain ⟨hadmin, -, b, hb, hbl, -, hdb⟩ := approveApplication_ok_inv hok
  obtain ⟨b0, hb0, hty, hmem⟩ := runCalls_level_mem calls hfind
  rw [hb] at hb0
  cases hb0
  rw [hlevel] at hmem
  rw [← hty] at hmem
  have hne := approved_level_ne b.applicationType b.currentLevel user.userType hmem hbl
  rw [← applyApproval_level_table b user comments now, ← hrole] at hne
  have hadmin2 : isAdmin user2 = true := by
    unfold isAdmin at hadmin ⊢
    rw [hrole]
    exact hadmin
  rw [hdb]
  exact approveApplication_forbidden now2
    (findById_replaceDoc hb ((applyApproval_frame b user comments now).1.trans (findById_id hb)))
    hadmin2 hne hc2

/-- C13 at a concrete input: the counsellor approves the sample leave twice. -/
theorem duplicate_approval_forbidden_witness :
    approveApplication (approveApplication (runCalls [sampleLeave] 2 []) 2 sampleCounsellor
        none 10).2 2 sampleCounsellor none 11 =
      (.json 403 false "Application is not at counsellor level",
        (approveApplication (runCalls [sampleLeave] 2 []) 2 sampleCounsellor none 10).2) :=
  duplicate_approval_forbidden [sampleLeave] 2 sampleLeave [] sampleCounsellor
    sampleCounsellor none none 10 11 (by decide) (by decide) (by decide) (by decide)
    (by decide)

/-! ## Invariants of the collection -/

theorem findById_mem {db : Collection} {id : Nat} {a : Application}
    (h : findById db id = some a) : a ∈ db := by
  unfold findById at h
  exact List.mem_of_find?_eq_some h

theorem replaceDoc_ids (db : Collection) (b : Application) :
    (replaceDoc db b).map (fun a => a._id) = db.map (fun a => a._id) := by
  induction db with
  | nil => rfl
  | cons x xs ih =>
    rw [replaceDoc_cons, List.map_cons, List.map_cons, ih]
    by_cases hx : x._id = b._id
    · rw [if_pos hx, hx]
    · rw [if_neg hx]

theorem mem_replaceDoc {db : Collection} {b x : Application} (h : x ∈ replaceDoc db b) :
    x = b ∨ x ∈ db := by
  induction db with
  | nil => simp [replaceDoc] at h
  | cons y ys ih =>
    rw [replaceDoc_cons, List.mem_cons] at h
    rcases h with h | h
    · by_cases hy : y._id = b._id
      · rw [if_pos hy] at h; exact Or.inl h
      · rw [if_neg hy] at h; exact Or.inr (by rw [h]; exact List.mem_cons_self _ _)
    · rcases ih h with h1 | h1
      · exact Or.inl h1
      · exact Or.inr (List.mem_cons_of_mem _ h1)

theorem lt_freshId {db : Collection} {a : Application} (h : a ∈ db) : a._id < freshId db := by
  unfold freshId
  induction db with
  | nil => simp at h
  | cons x xs ih =>
    rw [List.mem_cons] at h
    simp only [List.map_cons, List.foldr_cons]
    rcases h with h | h
    · rw [h]; omega
    · have := ih h; omega

theorem pendingCount_replaceDoc {db : Collection} {a b : Application} (student : Nat)
    (hnodup : (db.map (fun a => a._id)).Nodup) (ha : a ∈ db) (hid : b._id = a._id)
    (hstudent : b.student = a.student) (hstatus : b.status = .pending → a.status = .pending) :
    pendingCount (replaceDoc db b) student ≤ pendingCount db student := by
  unfold pendingCount replaceDoc
  rw [List.countP_map]
  apply List.countP_mono_left
  intro x hx hp
  by_cases hxb : x._id = b._id
  · have hxa : x = a :=
      List.inj_on_of_nodup_map hnodup hx ha (hxb.trans hid)
    simp only [Function.comp, hxb, beq_self_eq_true, if_true, Bool.and_eq_true, beq_iff_eq] at hp
    rw [hxa]
    simp only [Bool.and_eq_true, beq_iff_eq]
    exact ⟨hstudent ▸ hp.1, hstatus hp.2⟩
  · have : (x._id == b._id) = false := by simpa using hxb
    simpa [Function.comp, this] using hp

theorem pendingCount_of_none {db : Collection} {student : Nat}
    (h : pendingApplication db student = none) : pendingCount db student = 0 := by
  unfold pendingApplication at h
  unfold pendingCount
  rw [List.countP_eq_zero]
  intro a ha
  have := List.find?_eq_none.mp h a ha
  exact this

theorem pendingCount_append (db : Collection) (doc : Application) (student : Nat) :
    pendingCount (db ++ [doc]) student =
      pendingCount db student +
        (if doc.student = student ∧ doc.status = .pending then 1 else 0) := by
  unfold pendingCount
  rw [List.countP_append]
  by_cases h : doc.student = student ∧ doc.status = .pending
  · rw [if_pos h]; simp [List.countP_cons, h.1, h.2]
  · rw [if_neg h]
    have : (doc.student == student && doc.status == Status.pending) = false := by
      simpa using h
    simp [List.countP_cons, this]

theorem applyApproval_student_status (a : Application) (user : User)
    (comments : Option String) (now : Nat) :
    (applyApproval a user comments now).student = a.student ∧
    ((applyApproval a user comments now).status = .pending → a.status = .pending) := by
  constructor
  · unfold applyApproval nextLevel setApprovalPath
    split_ifs <;> cases hT : a.applicationType <;> cases hL : a.currentLevel <;> simp [hT, hL]
  · have h := applyApproval_table a user comments now
    cases hT : a.applicationType <;> cases hL : a.currentLevel <;>
      rw [hT, hL] at h <;> simp only [Prod.mk.injEq] at h <;> rw [h.2] <;> simp

/-- What approve, reject and cancel can do to the collection: nothing, or
overwrite the found document by one that passed `save()`, has the same id and
owner, and is pending only if the found one was. -/
theorem workflow_step (db : Collection) (op : Op) (isEmail : String → Bool)
    (dir : Directory) (hop : ∀ user body now, op ≠ .submit user body now) :
    (op.run isEmail dir db).2 = db ∨
    ∃ a b, a ∈ db ∧ passesSave b = true ∧ b._id = a._id ∧ b.student = a.student ∧
      (b.status = .pending → a.status = .pending) ∧
      (op.run isEmail dir db).2 = replaceDoc db b := by
  cases op with
  | submit user body now => exact absurd rfl (hop user body now)
  | approve id user comments now =>
    simp only [Op.run]
    unfold approveApplication
    split_ifs
    · exact Or.inl rfl
    · exact Or.inl rfl
    · cases hfind : findById db id with
      | none => exact Or.inl rfl
      | some a =>
        by_cases hlevel : a.currentLevel.str = user.userType.str
        · rcases save_cases_strong db (applyApproval a user comments now) with
            ⟨e, he⟩ | ⟨hs, hok⟩
          · left; simp [hlevel, he]
          · right
            exact ⟨a, applyApproval a user comments now, findById_mem hfind, hs,
              (applyApproval_frame a user comments now).1,
              (applyApproval_student_status a user comments now).1,
              (applyApproval_student_status a user comments now).2,
              by simp [hlevel, hok]⟩
        · left; simp [hlevel]
  | reject id user rejectionReason now =>
    simp only [Op.run]
    unfold rejectApplication
    split_ifs
    · exact Or.inl rfl
    · exact Or.inl rfl
    · cases hfind : findById db id with
      | none => exact Or.inl rfl
      | some a =>
        by_cases hlevel : a.currentLevel.str = user.userType.str
        · rcases save_cases_strong db (applyRejection a user rejectionReason now) with
            ⟨e, he⟩ | ⟨hs, hok⟩
          · left; simp [hlevel, he]
          · right
            exact ⟨a, applyRejection a user rejectionReason now, findById_mem hfind, hs,
              rfl, rfl, by simp [applyRejection], by simp [hlevel, hok]⟩
        · left; simp [hlevel]
  | cancel id user =>
    simp only [Op.run]
    unfold cancelApplication
    split_ifs
    · exact Or.inl rfl
    · cases hfind : findById db id with
      | none => exact Or.inl rfl
      | some a =>
        by_cases howner : a.student = user.id
        · by_cases hst : a.status = .pending
          · rcases save_cases_strong db (applyCancellation a) with ⟨e, he⟩ | ⟨hs, hok⟩
            · left; simp [howner, hst, he]
            · right
              exact ⟨a, applyCancellation a, findById_mem hfind, hs, rfl, rfl,
                by simp [applyCancellation], by simp [howner, hst, hok]⟩
          · left; simp [howner, hst]
        · left; simp [howner]

theorem create_cases (db : Collection) (a : Application) :
    (∃ e, create db a = .error e) ∨
    (passesSave a = true ∧ create db a = .ok (db ++ [a])) := by
  unfold create
  by_cases hv : validate a = true
  · rw [hv]
    cases hp : preSave a with
    | none => exact Or.inr ⟨by simp [passesSave, hv, hp], rfl⟩
    | some m => exact Or.inl ⟨_, rfl⟩
  · simp only [Bool.not_eq_true] at hv
    rw [hv]
    exact Or.inl ⟨_, rfl⟩

theorem applicationData_frame {db : Collection} {user : User} {body : SubmitBody} {now : Nat}
    {doc : Application} (h : applicationData db user body now = some doc) :
    doc._id = freshId db ∧ doc.student = user.id ∧ doc.status = .pending ∧
    doc.currentLevel = .counsellor ∧
    doc.counsellorApproval = {} ∧ doc.hodApproval = {} ∧
    doc.jointDirectorApproval = {} ∧ doc.wardenApproval = {} ∧
    doc.rejectedBy = none ∧ doc.rejectedAt = none ∧ doc.rejectionReason = none ∧
    doc.attendance = (body.attendance.bind parseFloat).getD 0 ∧
    doc.lastSemesterSGPA = (body.lastSemesterSGPA.bind parseFloat).getD 0 := by
  unfold applicationData at h
  by_cases ho : body.applicationType = "outpass"
  · cases hi : body.initialTime.toDate <;> cases he : body.expectedReturnTime.toDate <;>
      simp [ho, hi, he] at h
    rw [← h]
    simp
  · cases hj : body.journeyDate.toDate <;> cases hr : body.returnDate.toDate <;>
      simp [ho, hj, hr] at h
    rw [← h]
    simp

/-- What a submission can do to the collection: nothing, or append a document
that passed `save()`, has a fresh id, is owned by the caller and is pending,
when the caller had no pending request. -/
theorem submit_step (isEmail : String → Bool) (dir : Directory) (db : Collection)
    (user : User) (body : SubmitBody) (now : Nat) :
    ((submitApplication isEmail dir db user body now).1 ≠
        .json 201 true "Application submitted successfully" ∧
      (submitApplication isEmail dir db user body now).2 = db) ∨
    ∃ doc, applicationData db user body now = some doc ∧ passesSave doc = true ∧
      isStudent user = true ∧ submitValidation isEmail body = true ∧
      pendingApplication db user.id = none ∧
      submitApplication isEmail dir db user body now =
        (.json 201 true "Application submitted successfully", db ++ [doc]) := by
  by_cases h1 : isStudent user = true
  swap
  · left; unfold submitApplication; simp [h1]
  by_cases h2 : submitValidation isEmail body = true
  swap
  · left; unfold submitApplication; simp [h1, h2]
  cases h3 : pendingApplication db user.id with
  | some p => left; unfold submitApplication; simp [h1, h2, h3]
  | none =>
    by_cases h5 :
        (findActiveByEmail dir.toLowerCase dir.counsellors body.counsellorEmail).isNone = true
    · left; unfold submitApplication; simp [h1, h2, h3, h5]
    by_cases h6 :
        (findActiveByEmail dir.wardenEmailCast dir.wardens body.wardenEmail).isNone = true
    · left; unfold submitApplication; simp [h1, h2, h3, h5, h6]
    by_cases h7 : (body.applicationType = "leave"
        && (findActiveByEmail dir.hodEmailCast dir.hods body.hodEmail).isNone) = true
    · left; unfold submitApplication; simp only [h1, h2, h3, h5, h6, h7]; simp
    cases h4 : applicationData db user body now with
    | none => left; unfold submitApplication; simp only [h1, h2, h3, h5, h6, h7, h4]; simp
    | some doc =>
      rcases create_cases db doc with ⟨e, he⟩ | ⟨hs, hok⟩
      · left; unfold submitApplication; simp only [h1, h2, h3, h5, h6, h7, h4, he]; simp
      · right
        refine ⟨doc, rfl, hs, h1, h2, rfl, ?_⟩
        unfold submitApplication
        simp only [h1, h2, h3, h5, h6, h7, h4, hok]
        simp

theorem storeInvariant_nil : StoreInvariant [] := by
  refine ⟨List.nodup_nil, ?_, ?_⟩
  · intro a ha; simp at ha
  · intro s; simp [pendingCount]

theorem storeInvariant_step (isEmail : String → Bool) (dir : Directory) (op : Op)
    {db : Collection} (h : StoreInvariant db) :
    StoreInvariant (op.run isEmail dir db).2 := by
  obtain ⟨hnodup, hsaved, hpending⟩ := h
  by_cases hop : ∀ user body now, op ≠ .submit user body now
  · rcases workflow_step db op isEmail dir hop with heq | ⟨a, b, ha, hb, hid, hst, hpe, heq⟩
    · rw [heq]; exact ⟨hnodup, hsaved, hpending⟩
    · rw [heq]
      refine ⟨?_, ?_, ?_⟩
      · rw [replaceDoc_ids]; exact hnodup
      · intro x hx
        rcases mem_replaceDoc hx with h1 | h1
        · rw [h1]; exact hb
        · exact hsaved x h1
      · intro s
        exact (pendingCount_replaceDoc s hnodup ha hid hst hpe).trans (hpending s)
  · push_neg at hop
    obtain ⟨user, body, now, rfl⟩ := hop
    simp only [Op.run]
    rcases submit_step isEmail dir db user body now with ⟨-, heq⟩ |
      ⟨doc, hdoc, hs, -, -, hnone, heq⟩
    · rw [heq]; exact ⟨hnodup, hsaved, hpending⟩
    · rw [heq]
      obtain ⟨hid, hstu, hstat, -⟩ := applicationData_frame hdoc
      refine ⟨?_, ?_, ?_⟩
      · rw [List.map_append, List.map_singleton]
        apply List.Nodup.append hnodup (List.nodup_singleton _)
        intro i hi1 hi2
        rw [List.mem_singleton] at hi2
        obtain ⟨x, hx, hxi⟩ := List.mem_map.mp hi1
        have := lt_freshId hx
        rw [hi2, hid] at hxi
        omega
      · intro x hx
        rcases List.mem_append.mp hx with h1 | h1
        · exact hsaved x h1
        · rw [List.mem_singleton] at h1; rw [h1]; exact hs
      · intro s
        rw [pendingCount_append]
        by_cases hs2 : doc.student = s ∧ doc.status = .pending
        · rw [if_pos hs2]
          have : pendingCount db s = 0 := by
            rw [← hs2.1, hstu]; exact pendingCount_of_none hnone
          omega
        · rw [if_neg hs2]; exact hpending s

theorem storeInvariant_runOps (isEmail : String → Bool) (dir : Directory) (ops : List Op) :
    ∀ {db : Collection}, StoreInvariant db → StoreInvariant (runOps isEmail dir db ops) := by
  induction ops with
  | nil => intro db h; exact h
  | cons op ops ih => intro db h; exact ih (storeInvariant_step isEmail dir op h)

/-! ## Submission and the one-outstanding-request rule (claims C16, C17, C18) -/

theorem pendingApplication_isSome_iff (db : Collection) (student : Nat) :
    (pendingApplication db student).isSome = true ↔
      ∃ a ∈ db, a.student = student ∧ a.status = .pending := by
  unfold pendingApplication
  rw [List.find?_isSome]
  constructor
  · rintro ⟨a, ha, hp⟩
    simp only [Bool.and_eq_true, beq_iff_eq] at hp
    exact ⟨a, ha, hp⟩
  · rintro ⟨a, ha, hp⟩
    exact ⟨a, ha, by simpa using hp⟩

theorem submitApplication_blocked {isEmail : String → Bool} {dir : Directory}
    {db : Collection} {user : User} {body : SubmitBody} {now : Nat}
    (hstudent : isStudent user = true)
    (hpending : (pendingApplication db user.id).isSome = true) :
    submitApplication isEmail dir db user body now =
      (if submitValidation isEmail body then
        .json 400 false
          "You already have a pending application. Please wait for it to be processed."
       else .json 400 false "Validation failed", db) := by
  unfold submitApplication
  by_cases hv : submitValidation isEmail body = true
  · simp [hstudent, hv, hpending]
  · simp [hstudent, hv]

/-- C16.  For a student and a submission that passes the validation chain, the
call answers 400 "You already have a pending application ..." and returns the
collection untouched exactly when the student owns a stored request with status
pending: a student whose requests are all approved, rejected or cancelled is not
stopped by this rule.  Whatever the body is, a student who owns a pending
request gets a 400 answer and the collection is returned untouched. -/
theorem pending_request_blocks_submission (isEmail : String → Bool) (dir : Directory)
    (db : Collection) (user : User) (body body2 : SubmitBody) (now : Nat)
    (hstudent : user.userType = .student)
    (hvalid : submitValidation isEmail body = true) :
    (submitApplication isEmail dir db user body now =
        (.json 400 false
          "You already have a pending application. Please wait for it to be processed.", db)
      ↔ ∃ a ∈ db, a.student = user.id ∧ a.status = .pending) ∧
    ((∀ a ∈ db, a.student = user.id → a.status ≠ .pending) ∨
      ((submitApplication isEmail dir db user body2 now).2 = db ∧
        (submitApplication isEmail dir db user body2 now).1 ∈
          [Response.json 400 false "Validation failed",
           Response.json 400 false
            "You already have a pending application. Please wait for it to be processed."])) := by
  have hs : isStudent user = true := by
    unfold isStudent
    rw [hstudent]
    rfl
  constructor
  · constructor
    · intro h
      cases h3 : pendingApplication db user.id with
      | some p => exact (pendingApplication_isSome_iff db user.id).mp (by rw [h3]; rfl)
      | none =>
        exfalso
        unfold submitApplication at h
        simp only [hs, hvalid, h3, Bool.not_true, Bool.false_eq_true, if_false,
          Option.isSome_none] at h
        split_ifs at h
        · simp at h
        · simp at h
        · simp at h
        · split at h
          · simp at h
          · split at h <;> simp at h
    · intro h
      rw [submitApplication_blocked hs ((pendingApplication_isSome_iff db user.id).mpr h)]
      simp [hvalid]
  · by_cases hp : (pendingApplication db user.id).isSome = true
    · right
      rw [submitApplication_blocked hs hp]
      by_cases hv : submitValidation isEmail body2 = true <;> simp [hv]
    · left
      intro a ha hst hpe
      exact hp ((pendingApplication_isSome_iff db user.id).mpr ⟨a, ha, hst, hpe⟩)

/-- C16 at a concrete input: the owner of the pending sample outpass submits a
well-formed leave and is stopped; once the outpass is cancelled the same
submission is stored. -/
theorem pending_request_blocks_submission_witness :
    submitApplication sampleIsEmail sampleDirectory [sampleOutpass] sampleStudent leaveBody 900 =
      (.json 400 false
        "You already have a pending application. Please wait for it to be processed.",
        [sampleOutpass]) ∧
    submitApplication sampleIsEmail sampleDirectory [cancelledOutpass] sampleStudent
        leaveBody 900 =
      (.json 201 true "Application submitted successfully", [cancelledOutpass, sampleLeave]) :=
  ⟨(pending_request_blocks_submission sampleIsEmail sampleDirectory [sampleOutpass]
      sampleStudent leaveBody leaveBody 900 (by decide) (by decide)).1.mpr
      ⟨sampleOutpass, List.mem_singleton.mpr rfl, by decide, by decide⟩,
   by decide⟩

/-- C17.  In every collection that a sequence of submit, approve, reject and
cancel calls produces from the empty collection, each student owns at most one
request with status pending. -/
theorem one_pending_request_per_student (isEmail : String → Bool) (dir : Directory)
    (ops : List Op) (student : Nat) :
    pendingCount (runOps isEmail dir [] ops) student ≤ 1 :=
  (storeInvariant_runOps isEmail dir ops storeInvariant_nil).2.2 student

/-- C18.  A submission that answers 201 appends one document to the collection
and changes nothing else; the new document has status pending, level
counsellor, the caller as owner, four unapproved approval records and no
rejection fields, whatever the type is and whatever else the body carries. -/
theorem submitted_request_initial_state (isEmail : String → Bool) (dir : Directory)
    (db : Collection) (user : User) (body : SubmitBody) (now : Nat)
    (hok : (submitApplication isEmail dir db user body now).1 =
      .json 201 true "Application submitted successfully") :
    (submitApplication isEmail dir db user body now).2.length = db.length + 1 ∧
    (submitApplication isEmail dir db user body now).2.take db.length = db ∧
    (submitApplication isEmail dir db user body now).2.getLast?.map
        (fun a => (a.status, a.currentLevel, a.student, a.counsellorApproval, a.hodApproval,
          a.jointDirectorApproval, a.wardenApproval, a.rejectedBy, a.rejectedAt,
          a.rejectionReason)) =
      some (.pending, .counsellor, user.id, {}, {}, {}, {}, none, none, none) := by
  rcases submit_step isEmail dir db user body now with ⟨hne, -⟩ | ⟨doc, hdoc, -, -, -, -, heq⟩
  · exact absurd hok hne
  · obtain ⟨-, h2, h3, h4, h5, h6, h7, h8, h9, h10, h11, -, -⟩ := applicationData_frame hdoc
    rw [heq]
    refine ⟨by simp, List.take_left db [doc], ?_⟩
    simp only [List.getLast?_concat, Option.map_some', h2, h3, h4, h5, h6, h7, h8, h9, h10, h11]

/-- C18 at a concrete input: a leave whose body also carries a status, a level,
a student and an approval. -/
theorem submitted_request_initial_state_witness :
    (submitApplication sampleIsEmail sampleDirectory [cancelledOutpass] sampleStudent
        leaveBodyWithExtras 900).2.length = [cancelledOutpass].length + 1 ∧
    (submitApplication sampleIsEmail sampleDirectory [cancelledOutpass] sampleStudent
        leaveBodyWithExtras 900).2.take [cancelledOutpass].length = [cancelledOutpass] ∧
    (submitApplication sampleIsEmail sampleDirectory [cancelledOutpass] sampleStudent
        leaveBodyWithExtras 900).2.getLast?.map
        (fun a => (a.status, a.currentLevel, a.student, a.counsellorApproval, a.hodApproval,
          a.jointDirectorApproval, a.wardenApproval, a.rejectedBy, a.rejectedAt,
          a.rejectionReason)) =
      some (.pending, .counsellor, sampleStudent.id, {}, {}, {}, {}, none, none, none) :=
  submitted_request_initial_state sampleIsEmail sampleDirectory [cancelledOutpass]
    sampleStudent leaveBodyWithExtras 900 (by decide)

/-! ## Schedule ordering and numeric bounds (claims C19, C20) -/

theorem scheduleOrdered_of_passesSave {a : Application} (h : passesSave a = true) :
    scheduleOrdered a = true := by
  simp only [passesSave, Bool.and_eq_true] at h
  obtain ⟨hv, hp⟩ := h
  unfold scheduleOrdered
  unfold preSave at hp
  unfold validate at hv
  cases hT : a.applicationType
  · rw [hT] at hp hv
    cases hj : a.journeyDate <;> cases hr : a.returnDate <;>
      simp [hj, hr, dateGe] at hp hv ⊢
    omega
  · rw [hT] at hp hv
    cases hi : a.initialTime <;> cases he : a.expectedReturnTime <;>
      simp [hi, he, dateGe] at hp hv ⊢
    omega

theorem mem_runOps_passesSave (isEmail : String → Bool) (dir : Directory) (ops : List Op)
    {a : Application} (ha : a ∈ runOps isEmail dir [] ops) : passesSave a = true :=
  (storeInvariant_runOps isEmail dir ops storeInvariant_nil).2.1 a ha

/-- C19.  Saving a document whose schedule is not in order fails, on an update
and on creation alike, also when the two timestamps are equal; and every
document of a collection produced from the empty one by submit, approve, reject
and cancel calls has its schedule in order. -/
theorem schedule_ordering (isEmail : String → Bool) (dir : Directory) (ops : List Op)
    (a : Application) (db : Collection) (b : Application)
    (ha : a ∈ runOps isEmail dir [] ops) (hb : scheduleOrdered b = false) :
    (save db b).toOption = none ∧ (create db b).toOption = none ∧
    scheduleOrdered a = true := by
  have hns : ¬ passesSave b = true := by
    intro h
    rw [scheduleOrdered_of_passesSave h] at hb
    exact Bool.noConfusion hb
  refine ⟨?_, ?_, scheduleOrdered_of_passesSave (mem_runOps_passesSave isEmail dir ops ha)⟩
  · rcases save_cases_strong db b with ⟨e, he⟩ | ⟨hs, -⟩
    · rw [he]; rfl
    · exact absurd hs hns
  · rcases create_cases db b with ⟨e, he⟩ | ⟨hs, -⟩
    · rw [he]; rfl
    · exact absurd hs hns

/-- C19 at a concrete input: the sample outpass as stored by a submission, and
the same outpass with equal timestamps. -/
theorem schedule_ordering_witness :
    (save [sampleOutpass] outpassWithEqualTimes).toOption = none ∧
    (create [] outpassWithEqualTimes).toOption = none ∧
    scheduleOrdered sampleOutpass = true :=
  schedule_ordering sampleIsEmail sampleDirectory [.submit sampleStudent outpassBody 900]
    sampleOutpass [sampleOutpass] outpassWithEqualTimes (by decide) (by decide)

theorem submitValidation_numeric {isEmail : String → Bool} {body : SubmitBody}
    (h : submitValidation isEmail body = true) :
    isFloat 0 100 body.attendance = true ∧ isFloat 0 10 body.lastSemesterSGPA = true := by
  unfold submitValidation at h
  simp only [Bool.and_eq_true] at h
  exact ⟨h.1.1.1.1.1.1.1.1.2, h.1.1.1.1.1.1.1.2⟩

/-- C20, counterexample.  The float literal `100.00000000000000001` is above
100, but `parseFloat` rounds it to the double 100, which the validator and the
schema accept: the sample submission with this attendance is answered with 201
and the request is stored with attendance 100. -/
theorem literal_above_bound_accepted :
    (100 : ℚ) < literalAbove100 ∧
    parseFloat literalAbove100 = some 100 ∧
    (submitApplication sampleIsEmail sampleDirectory [] sampleStudent
        { outpassBody with attendance := some literalAbove100 } 900).1 =
      .json 201 true "Application submitted successfully" ∧
    (submitApplication sampleIsEmail sampleDirectory [] sampleStudent
        { outpassBody with attendance := some literalAbove100 } 900).2.map
        (fun a => a.attendance) = [100] := by
  decide

/-- C20, amended.  A submission by a student whose attendance, rounded to a
double as `parseFloat` does, is below 0 or above 100 or is an infinity, or whose
SGPA, rounded in the same way, is below 0 or above 10 or is an infinity, answers
400 "Validation failed" and returns the collection untouched; the boundary
values 0 and 100, 0 and 10 are accepted (the sample submission with them is
stored); and every document of a collection produced from the empty one by
submit, approve, reject and cancel calls has its attendance in [0, 100] and its
SGPA in [0, 10]. -/
theorem numeric_bounds (isEmail : String → Bool) (dir : Directory) (db : Collection)
    (user : User) (body : SubmitBody) (now : Nat) (ops : List Op) (a : Application)
    (hstudent : user.userType = .student)
    (hbad : (∃ x, body.attendance = some x ∧
        (parseFloat x = none ∨ ∃ v, parseFloat x = some v ∧ (v < 0 ∨ 100 < v))) ∨
      (∃ y, body.lastSemesterSGPA = some y ∧
        (parseFloat y = none ∨ ∃ v, parseFloat y = some v ∧ (v < 0 ∨ 10 < v))))
    (ha : a ∈ runOps isEmail dir [] ops) :
    submitApplication isEmail dir db user body now =
      (.json 400 false "Validation failed", db) ∧
    (isFloat 0 100 (some 0) = true ∧ isFloat 0 100 (some 100) = true ∧
      isFloat 0 10 (some 0) = true ∧ isFloat 0 10 (some 10) = true) ∧
    (submitApplication sampleIsEmail sampleDirectory [] sampleStudent
        { outpassBody with attendance := some 0, lastSemesterSGPA := some 10 } 900).1 =
      .json 201 true "Application submitted successfully" ∧
    (submitApplication sampleIsEmail sampleDirectory [] sampleStudent
        { outpassBody with attendance := some 100, lastSemesterSGPA := some 0 } 900).1 =
      .json 201 true "Application submitted successfully" ∧
    (0 ≤ a.attendance ∧ a.attendance ≤ 100 ∧
      0 ≤ a.lastSemesterSGPA ∧ a.lastSemesterSGPA ≤ 10) := by
  have hs : isStudent user = true := by
    unfold isStudent
    rw [hstudent]
    rfl
  have hv : submitValidation isEmail body = false := by
    cases hval : submitValidation isEmail body with
    | false => rfl
    | true =>
      exfalso
      obtain ⟨h1, h2⟩ := submitValidation_numeric hval
      rcases hbad with ⟨x, hx, hr⟩ | ⟨y, hy, hr⟩
      · rw [hx] at h1
        rcases hr with hr | ⟨v, hv, hr⟩
        · simp [isFloat, hr] at h1
        · simp only [isFloat, hv, Bool.and_eq_true, decide_eq_true_eq] at h1
          rcases hr with hr | hr
          · exact absurd h1.1 (not_le.mpr hr)
          · exact absurd h1.2 (not_le.mpr hr)
      · rw [hy] at h2
        rcases hr with hr | ⟨v, hv, hr⟩
        · simp [isFloat, hr] at h2
        · simp only [isFloat, hv, Bool.and_eq_true, decide_eq_true_eq] at h2
          rcases hr with hr | hr
          · exact absurd h2.1 (not_le.mpr hr)
          · exact absurd h2.2 (not_le.mpr hr)
  have hp := mem_runOps_passesSave isEmail dir ops ha
  simp only [passesSave, Bool.and_eq_true] at hp
  have hval := hp.1
  unfold validate at hval
  simp only [Bool.and_eq_true, decide_eq_true_eq] at hval
  refine ⟨?_, by decide, by decide, by decide, ?_⟩
  · unfold submitApplication
    simp [hs, hv]
  · exact ⟨hval.1.1.1.1.1.1.1.1.2, hval.1.1.1.1.1.1.1.2, hval.1.1.1.1.1.1.2, hval.1.1.1.1.1.2⟩

/-- C20, amended, at a concrete input: a submission with attendance 101, and
the sample outpass as stored by a submission. -/
theorem numeric_bounds_witness :
    submitApplication sampleIsEmail sampleDirectory [] sampleStudent
        { outpassBody with attendance := some 101 } 900 =
      (.json 400 false "Validation failed", []) ∧
    (isFloat 0 100 (some 0) = true ∧ isFloat 0 100 (some 100) = true ∧
      isFloat 0 10 (some 0) = true ∧ isFloat 0 10 (some 10) = true) ∧
    (submitApplication sampleIsEmail sampleDirectory [] sampleStudent
        { outpassBody with attendance := some 0, lastSemesterSGPA := some 10 } 900).1 =
      .json 201 true "Application submitted successfully" ∧
    (submitApplication sampleIsEmail sampleDirectory [] sampleStudent
        { outpassBody with attendance := some 100, lastSemesterSGPA := some 0 } 900).1 =
      .json 201 true "Application submitted successfully" ∧
    (0 ≤ sampleOutpass.attendance ∧ sampleOutpass.attendance ≤ 100 ∧
      0 ≤ sampleOutpass.lastSemesterSGPA ∧ sampleOutpass.lastSemesterSGPA ≤ 10) :=
  numeric_bounds sampleIsEmail sampleDirectory [] sampleStudent
    { outpassBody with attendance := some 101 } 900
    [.submit sampleStudent outpassBody 900] sampleOutpass (by decide)
    (Or.inl ⟨101, rfl, Or.inr ⟨101, by decide, Or.inr (by norm_num)⟩⟩) (by decide)

/-! ## Notifications (claims C14, C15) -/

/-- C14, evaluated on the code.  The directory has one active admin of each
role.  After a counsellor approves the sample outpass (new level warden) no
message is sent, although there is an active warden; after a counsellor
approves the sample leave (new level hod) the joint director is notified, not
the hod; after an hod approves (new level joint_director) the warden is
notified; after a joint director approves (new level warden) no message is
sent.  The `switch` reads `currentLevel` after it has been advanced, so each
notification goes one level too far. -/
theorem forward_notification_one_level_off :
    findActive sampleDirectory.wardens =
      [{ id := 103, name := "Das", email := "w@college.edu", mobile := "9000000103" }] ∧
    approveMessages sampleDirectory [sampleOutpass] 1
      sampleCounsellor none 10 = [] ∧
    approveMessages sampleDirectory [sampleLeave] 2
      sampleCounsellor none 10 =
      [.email "j@college.edu" .newApplicationNotification,
       .sms "9000000102" .newApplicationNotification] ∧
    approveMessages sampleDirectory [leaveAtHod] 2
      sampleHod none 10 =
      [.email "w@college.edu" .newApplicationNotification,
       .sms "9000000103" .newApplicationNotification] ∧
    approveMessages sampleDirectory [leaveAtJointDirector] 2
      sampleJointDirector none 10 = [] := by
  decide

/-- The owner of a request is found when `users` holds a document with its id. -/
theorem populate_isSome {users : List Identity} {student : Identity} {n : Nat}
    (hmem : student ∈ users) (hid : student.id = n) :
    ∃ s, populate users n = some s := by
  unfold populate
  cases h : users.find? (fun u => u.id == n) with
  | some s => exact ⟨s, rfl⟩
  | none =>
    rw [List.find?_eq_none] at h
    exact absurd (by simpa using hid) (h student hmem)

/-- The owner that `populate` returns is the document of `users` with the id of
the reference, when there is one only. -/
theorem populate_eq_some {users : List Identity} {student : Identity} {n : Nat}
    (hmem : student ∈ users) (hid : student.id = n)
    (huniq : ∀ u ∈ users, u.id = n → u = student) :
    populate users n = some student := by
  obtain ⟨s, hs⟩ := populate_isSome hmem hid
  rw [hs]
  unfold populate at hs
  have h1 := List.find?_some hs
  have h2 := List.mem_of_find?_eq_some hs
  rw [huniq s h2 (by simpa using h1)]

/-- C15.  Let the owner of a stored request be the one document of `users` with
the id in its `student` path.  When an approve call by the role of the current
level (with no comment or one of at most 200 UTF-16 code units) leaves the
request with status approved, the call answers 200 and sends exactly two
messages, an email to the email address of the owner and an SMS to the mobile
number of the owner, both with the approved template, and none to an admin.
When a reject call by the role of the current level, whatever that level is
(with a reason that validator.js counts as at least 5 and that has at most 200
UTF-16 code units), is made on a stored request, the call answers 200 and sends
exactly an email and an SMS to the owner of that request with the rejected
template. -/
theorem final_decision_notifies_submitter (transport : Transport) (dir : Directory)
    (db : Collection) (id : Nat) (a : Application) (user : User) (student : Identity)
    (comments : Option String) (now : Nat)
    (db2 : Collection) (id2 : Nat) (a2 : Application) (user2 : User) (student2 : Identity)
    (reason : String) (now2 : Nat)
    (hfind : findById db id = some a) (hsave : passesSave a = true)
    (hlevel : a.currentLevel.str = user.userType.str)
    (hu : utf16Length (comments.getD "") ≤ 200)
    (hdone : (applyApproval a user comments now).status = .approved)
    (hmem : student ∈ dir.users) (hid : student.id = a.student)
    (huniq : ∀ u ∈ dir.users, u.id = a.student → u = student)
    (hfind2 : findById db2 id2 = some a2) (hsave2 : passesSave a2 = true)
    (hlevel2 : a2.currentLevel.str = user2.userType.str)
    (hmin : 5 ≤ validatorLength reason) (hmax : utf16Length reason ≤ 200)
    (hmem2 : student2 ∈ dir.users) (hid2 : student2.id = a2.student)
    (huniq2 : ∀ u ∈ dir.users, u.id = a2.student → u = student2) :
    (approveHandler transport dir db id user comments now).1 =
      .json 200 true "Application approved successfully" ∧
    approveMessages dir db id user comments now =
      [.email student.email .applicationApproved,
       .sms student.mobile .applicationApproved] ∧
    (rejectHandler transport dir db2 id2 user2 (some reason) now2).1 =
      .json 200 true "Application rejected successfully" ∧
    rejectMessages dir db2 id2 user2 (some reason) now2 =
      [.email student2.email .applicationRejected,
       .sms student2.mobile .applicationRejected] := by
  have hc := commentsValid_of_utf16Length hu
  have hr : rejectionReasonValid (some reason) = true := by
    simp only [rejectionReasonValid, Option.getD_some, Bool.and_eq_true, decide_eq_true_eq]
    exact ⟨hmin, (validatorLength_le_utf16Length reason).trans hmax⟩
  have hp : populate dir.users (applyApproval a user comments now).student = some student := by
    rw [(applyApproval_student_status a user comments now).1]
    exact populate_eq_some hmem hid huniq
  have hp2 : populate dir.users (applyRejection a2 user2 (some reason) now2).student =
      some student2 := populate_eq_some hmem2 hid2 huniq2
  have hn : approveNotifications dir (applyApproval a user comments now) =
      .ok [.email student.email .applicationApproved,
           .sms student.mobile .applicationApproved] := by
    unfold approveNotifications
    rw [if_pos hdone, hp]
  have hn2 : rejectNotifications dir (applyRejection a2 user2 (some reason) now2) =
      .ok [.email student2.email .applicationRejected,
           .sms student2.mobile .applicationRejected] := by
    unfold rejectNotifications
    rw [hp2]
  refine ⟨?_, ?_, ?_, ?_⟩
  · unfold approveHandler
    rw [isAdmin_of_level_eq hlevel, hc, hfind]
    simp only [Bool.not_true, Bool.false_eq_true, if_false, hlevel, bne_self_eq_false]
    rw [save_of_passesSave db (passesSave_applyApproval user now hsave hu)]
    simp only [hn]
  · unfold approveMessages
    rw [isAdmin_of_level_eq hlevel, hc, hfind]
    simp only [Bool.not_true, Bool.false_eq_true, if_false, hlevel, bne_self_eq_false]
    rw [save_of_passesSave db (passesSave_applyApproval user now hsave hu)]
    simp only [hn]
  · unfold rejectHandler
    rw [isAdmin_of_level_eq hlevel2, hr, hfind2]
    simp only [Bool.not_true, Bool.false_eq_true, if_false, hlevel2, bne_self_eq_false]
    rw [save_of_passesSave db2 (passesSave_applyRejection user2 now2 hsave2
      (show utf16Length ((some reason).getD "") ≤ 200 from hmax))]
    simp only [hn2]
  · unfold rejectMessages
    rw [isAdmin_of_level_eq hlevel2, hr, hfind2]
    simp only [Bool.not_true, Bool.false_eq_true, if_false, hlevel2, bne_self_eq_false]
    rw [save_of_passesSave db2 (passesSave_applyRejection user2 now2 hsave2
      (show utf16Length ((some reason).getD "") ≤ 200 from hmax))]
    simp only [hn2]

/-- C15 at a concrete input: a warden approves the sample outpass that waits at
warden level, and a counsellor rejects the sample leave, which is at counsellor
level; both requests are owned by the student with id 7. -/
theorem final_decision_notifies_submitter_witness :
    (approveHandler brokenTransport sampleDirectory [outpassAtWarden] 1 sampleWarden
        (some "ok") 10).1 =
      .json 200 true "Application approved successfully" ∧
    approveMessages sampleDirectory [outpassAtWarden] 1 sampleWarden (some "ok") 10 =
      [.email "asha@college.edu" .applicationApproved,
       .sms "9000000007" .applicationApproved] ∧
    (rejectHandler brokenTransport sampleDirectory [sampleLeave] 2 sampleCounsellor
        (some "too late") 20).1 =
      .json 200 true "Application rejected successfully" ∧
    rejectMessages sampleDirectory [sampleLeave] 2 sampleCounsellor (some "too late") 20 =
      [.email "asha@college.edu" .applicationRejected,
       .sms "9000000007" .applicationRejected] :=
  final_decision_notifies_submitter brokenTransport sampleDirectory
    [outpassAtWarden] 1 outpassAtWarden sampleWarden sampleStudentIdentity (some "ok") 10
    [sampleLeave] 2 sampleLeave sampleCounsellor sampleStudentIdentity "too late" 20
    (by decide) (by decide) (by decide) (by decide) (by decide) (by decide) (by decide)
    (by decide) (by decide) (by decide) (by decide) (by decide) (by decide) (by decide)
    (by decide) (by decide)

/-! ## Approver resolution at submission (claim C21) -/

theorem submitValidation_outpass_hodEmail (isEmail : String → Bool) (body : SubmitBody)
    (hodEmail : String) :
    submitValidation isEmail { body with applicationType := "outpass", hodEmail := hodEmail } =
      submitValidation isEmail { body with applicationType := "outpass" } := by
  simp [submitValidation]

theorem applicationData_outpass_hodEmail (db : Collection) (user : User) (body : SubmitBody)
    (hodEmail : String) (now : Nat) :
    applicationData db user { body with applicationType := "outpass", hodEmail := hodEmail } now =
      applicationData db user { body with applicationType := "outpass" } now := by
  simp [applicationData]

/-- The query finds nothing exactly when the cast email does not resolve. -/
theorem findActiveByEmail_isNone_iff (cast : String → String) (l : List Identity)
    (email : String) :
    (findActiveByEmail cast l email).isNone = true ↔ ¬ resolves l (cast email) := by
  unfold findActiveByEmail resolves
  rw [Option.isNone_iff_eq_none, List.find?_eq_none]
  constructor
  · rintro h ⟨x, hx, hact, hmail⟩
    exact h x hx (by simp [hact, hmail])
  · intro h x hx hp
    simp only [Bool.and_eq_true, beq_iff_eq] at hp
    exact h ⟨x, hx, hp.2, hp.1⟩

/-- C21.  For a submission by a student that passes the validation chain and
the pending check: when no active counsellor has the counsellor email (in
lower case, as the query casts it) the call answers 400 "Invalid counsellor
email" and returns the collection untouched; when the counsellor resolves and
no active warden has the warden email it answers 400 "Invalid warden email" and
returns the collection untouched; when both resolve, the type is leave and no
active HOD has the HOD email it answers 400 "Invalid HOD email" and returns the
collection untouched; and when the counsellor and the warden resolve and, for a
leave, the HOD resolves, the call goes on to create the request, so it answers
201 or ends in `next(error)`.  For an outpass the HOD email plays no part: the
outcome is the same whatever it is, and the document built has no `hodEmail`. -/
theorem unresolved_approver_rejected (isEmail : String → Bool) (dir : Directory)
    (db : Collection) (user : User) (body body2 : SubmitBody) (hodEmail : String) (now : Nat)
    (hstudent : user.userType = .student)
    (hvalid : submitValidation isEmail body = true)
    (hfree : pendingApplication db user.id = none) :
    (¬ resolves dir.counsellors (dir.toLowerCase body.counsellorEmail) →
      submitApplication isEmail dir db user body now =
        (.json 400 false "Invalid counsellor email. Please check and try again.", db)) ∧
    (resolves dir.counsellors (dir.toLowerCase body.counsellorEmail) →
      ¬ resolves dir.wardens (dir.wardenEmailCast body.wardenEmail) →
      submitApplication isEmail dir db user body now =
        (.json 400 false "Invalid warden email. Please check and try again.", db)) ∧
    (resolves dir.counsellors (dir.toLowerCase body.counsellorEmail) →
      resolves dir.wardens (dir.wardenEmailCast body.wardenEmail) →
      body.applicationType = "leave" →
      ¬ resolves dir.hods (dir.hodEmailCast body.hodEmail) →
      submitApplication isEmail dir db user body now =
        (.json 400 false "Invalid HOD email. Please check and try again.", db)) ∧
    (resolves dir.counsellors (dir.toLowerCase body.counsellorEmail) →
      resolves dir.wardens (dir.wardenEmailCast body.wardenEmail) →
      (body.applicationType = "leave" → resolves dir.hods (dir.hodEmailCast body.hodEmail)) →
      (submitApplication isEmail dir db user body now).1 =
          .json 201 true "Application submitted successfully" ∨
        ∃ e, (submitApplication isEmail dir db user body now).1 = .next e) ∧
    submitApplication isEmail dir db user
        { body2 with applicationType := "outpass", hodEmail := hodEmail } now =
      submitApplication isEmail dir db user { body2 with applicationType := "outpass" } now ∧
    ((applicationData db user { body2 with applicationType := "outpass", hodEmail := hodEmail }
        now).map (fun a => a.hodEmail)).getD none = none := by
  have hs : isStudent user = true := by
    unfold isStudent
    rw [hstudent]
    rfl
  have hC := findActiveByEmail_isNone_iff dir.toLowerCase dir.counsellors body.counsellorEmail
  have hW := findActiveByEmail_isNone_iff dir.wardenEmailCast dir.wardens body.wardenEmail
  have hH := findActiveByEmail_isNone_iff dir.hodEmailCast dir.hods body.hodEmail
  refine ⟨?_, ?_, ?_, ?_, ?_, ?_⟩
  · intro hc
    unfold submitApplication
    simp only [hs, hvalid, hfree, Bool.not_true, Bool.false_eq_true, if_false,
      Option.isSome_none, hC.2 hc, if_true]
  · intro hc hw
    have hc' : (findActiveByEmail dir.toLowerCase dir.counsellors
        body.counsellorEmail).isNone = false := by
      rw [Bool.eq_false_iff]
      exact fun h => hC.1 h hc
    unfold submitApplication
    simp only [hs, hvalid, hfree, Bool.not_true, Bool.false_eq_true, if_false,
      Option.isSome_none, hc', hW.2 hw, if_true]
  · intro hc hw hl hh
    have hc' : (findActiveByEmail dir.toLowerCase dir.counsellors
        body.counsellorEmail).isNone = false := by
      rw [Bool.eq_false_iff]
      exact fun h => hC.1 h hc
    have hw' : (findActiveByEmail dir.wardenEmailCast dir.wardens
        body.wardenEmail).isNone = false := by
      rw [Bool.eq_false_iff]
      exact fun h => hW.1 h hw
    unfold submitApplication
    simp only [hs, hvalid, hfree, Bool.not_true, Bool.false_eq_true, if_false,
      Option.isSome_none, hc', hw', hH.2 hh, hl, decide_True, Bool.and_self, if_true]
  · intro hc hw hh
    have hc' : (findActiveByEmail dir.toLowerCase dir.counsellors
        body.counsellorEmail).isNone = false := by
      rw [Bool.eq_false_iff]
      exact fun h => hC.1 h hc
    have hw' : (findActiveByEmail dir.wardenEmailCast dir.wardens
        body.wardenEmail).isNone = false := by
      rw [Bool.eq_false_iff]
      exact fun h => hW.1 h hw
    have hh' : (decide (body.applicationType = "leave")
        && (findActiveByEmail dir.hodEmailCast dir.hods body.hodEmail).isNone) = false := by
      rw [Bool.eq_false_iff]
      intro h
      simp only [Bool.and_eq_true, decide_eq_true_eq] at h
      exact hH.1 h.2 (hh h.1)
    unfold submitApplication
    simp only [hs, hvalid, hfree, Bool.not_true, Bool.false_eq_true, if_false,
      Option.isSome_none, hc', hw', hh']
    cases applicationData db user body now with
    | none => exact Or.inr ⟨_, rfl⟩
    | some doc =>
      cases hcr : create db doc with
      | error e => exact Or.inr ⟨e, by simp only [hcr]⟩
      | ok db2 => exact Or.inl (by simp only [hcr])
  · unfold submitApplication
    rw [submitValidation_outpass_hodEmail, applicationData_outpass_hodEmail]
    simp
  · rw [applicationData_outpass_hodEmail]
    unfold applicationData
    cases hi : body2.initialTime.toDate <;> cases he : body2.expectedReturnTime.toDate <;>
      simp [hi, he]

/-- C21 at a concrete input: the sample leave submission against a directory
whose only counsellor is deactivated is answered with 400; against the sample
directory, whose counsellor has the email "c@college.edu", the same submission
with the counsellor email written "C@College.edu" is answered with 201. -/
theorem unresolved_approver_rejected_witness :
    submitApplication sampleIsEmail directoryWithoutCounsellor [] sampleStudent leaveBody 900 =
      (.json 400 false "Invalid counsellor email. Please check and try again.", []) ∧
    (submitApplication sampleIsEmail sampleDirectory [] sampleStudent
        { leaveBody with counsellorEmail := "C@College.edu" } 900).1 =
      .json 201 true "Application submitted successfully" :=
  ⟨(unresolved_approver_rejected sampleIsEmail directoryWithoutCounsellor [] sampleStudent
      leaveBody outpassBody "nobody@college.edu" 900 (by decide) (by decide) (by decide)).1
      (by unfold resolves; decide),
   by decide⟩

/-! ## One call, case by case -/

/-- One call keeps the document in the collection and leaves it as it was, or
stores its approved version (the role of the actor being the level), or its
rejected version (likewise), or its cancelled version (the status being
pending). -/
theorem call_step_cases (c : Call) {db : Collection} {id : Nat} {a : Application}
    (hfind : findById db id = some a) :
    ∃ b, findById (c.run db id).2 id = some b ∧
      (b = a ∨
        (∃ user comments now, a.currentLevel.str = user.userType.str ∧
          b = applyApproval a user comments now) ∨
        (∃ user rejectionReason now, a.currentLevel.str = user.userType.str ∧
          b = applyRejection a user rejectionReason now) ∨
        (a.status = .pending ∧ b = applyCancellation a)) := by
  have hid := findById_id hfind
  cases c with
  | approve user comments now =>
    rcases approveApplication_db db id user comments now with h | ⟨a0, h0, hl, h⟩
    · exact ⟨a, by simp only [Call.run, h]; exact hfind, Or.inl rfl⟩
    · rw [hfind] at h0
      cases h0
      refine ⟨applyApproval a user comments now, ?_, Or.inr (Or.inl ⟨user, comments, now, hl, rfl⟩)⟩
      simp only [Call.run, h]
      exact findById_replaceDoc hfind ((applyApproval_frame a user comments now).1.trans hid)
  | reject user rejectionReason now =>
    rcases rejectApplication_db db id user rejectionReason now with h | ⟨a0, h0, hl, h⟩
    · exact ⟨a, by simp only [Call.run, h]; exact hfind, Or.inl rfl⟩
    · rw [hfind] at h0
      cases h0
      refine ⟨applyRejection a user rejectionReason now, ?_,
        Or.inr (Or.inr (Or.inl ⟨user, rejectionReason, now, hl, rfl⟩))⟩
      simp only [Call.run, h]
      exact findById_replaceDoc hfind hid
  | cancel user =>
    rcases cancelApplication_db db id user with h | ⟨a0, h0, hp, h⟩
    · exact ⟨a, by simp only [Call.run, h]; exact hfind, Or.inl rfl⟩
    · rw [hfind] at h0
      cases h0
      refine ⟨applyCancellation a, ?_, Or.inr (Or.inr (Or.inr ⟨hp, rfl⟩))⟩
      simp only [Call.run, h]
      exact findById_replaceDoc hfind hid

/-! ## Already decided requests and the level check (claim C22) -/

/-- C22, refuted on the code.  A warden who acts on the approved sample outpass
(already decided, level completed) and a warden who acts on the pending sample
outpass at counsellor level (not the warden's) get the very same response from
approve, and the very same response from reject: 403 "Application is not at
warden level". -/
theorem decided_error_not_distinct :
    (approveApplication [approvedOutpass] 1 sampleWarden none 50).1 =
      (approveApplication [sampleOutpass] 1 sampleWarden none 50).1 ∧
    (rejectApplication [approvedOutpass] 1 sampleWarden (some "too late") 50).1 =
      (rejectApplication [sampleOutpass] 1 sampleWarden (some "too late") 50).1 ∧
    (approveApplication [approvedOutpass] 1 sampleWarden none 50).1 =
      .json 403 false "Application is not at warden level" ∧
    (rejectApplication [approvedOutpass] 1 sampleWarden (some "too late") 50).1 =
      .json 403 false "Application is not at warden level" := by
  decide

/-- C22, amended.  For an admin whose role differs from the level of two stored
requests, whatever their statuses are (one may be decided, the other pending),
approve gives the same response on both and reject gives the same response on
both: the 403 of the level check, whose message names the role of the actor and
nothing of the request. -/
theorem level_mismatch_response_ignores_status (db1 db2 : Collection) (id1 id2 : Nat)
    (a1 a2 : Application) (user : User) (comments rejectionReason : Option String)
    (now : Nat)
    (hfind1 : findById db1 id1 = some a1) (hfind2 : findById db2 id2 = some a2)
    (hadmin : isAdmin user = true)
    (hrole1 : user.userType.str ≠ a1.currentLevel.str)
    (hrole2 : user.userType.str ≠ a2.currentLevel.str)
    (hc : commentsValid comments = true)
    (hr : rejectionReasonValid rejectionReason = true) :
    (approveApplication db1 id1 user comments now).1 =
      (approveApplication db2 id2 user comments now).1 ∧
    (rejectApplication db1 id1 user rejectionReason now).1 =
      (rejectApplication db2 id2 user rejectionReason now).1 ∧
    (approveApplication db1 id1 user comments now).1 =
      .json 403 false ("Application is not at " ++ user.userType.str ++ " level") ∧
    (rejectApplication db1 id1 user rejectionReason now).1 =
      .json 403 false ("Application is not at " ++ user.userType.str ++ " level") := by
  rw [approveApplication_forbidden now hfind1 hadmin (fun h => hrole1 h.symm) hc,
    approveApplication_forbidden now hfind2 hadmin (fun h => hrole2 h.symm) hc,
    rejectApplication_forbidden now hfind1 hadmin (fun h => hrole1 h.symm) hr,
    rejectApplication_forbidden now hfind2 hadmin (fun h => hrole2 h.symm) hr]
  exact ⟨rfl, rfl, rfl, rfl⟩

/-- C22, amended, at a concrete input: a counsellor on the approved sample
outpass and on the sample leave that waits at hod level. -/
theorem level_mismatch_response_ignores_status_witness :
    (approveApplication [approvedOutpass] 1 sampleCounsellor none 50).1 =
      (approveApplication [leaveAtHod] 2 sampleCounsellor none 50).1 ∧
    (rejectApplication [approvedOutpass] 1 sampleCounsellor (some "too late") 50).1 =
      (rejectApplication [leaveAtHod] 2 sampleCounsellor (some "too late") 50).1 ∧
    (approveApplication [approvedOutpass] 1 sampleCounsellor none 50).1 =
      .json 403 false "Application is not at counsellor level" ∧
    (rejectApplication [approvedOutpass] 1 sampleCounsellor (some "too late") 50).1 =
      .json 403 false "Application is not at counsellor level" :=
  level_mismatch_response_ignores_status [approvedOutpass] [leaveAtHod] 1 2 approvedOutpass
    leaveAtHod sampleCounsellor none (some "too late") 50 (by decide) (by decide) (by decide)
    (by decide) (by decide) (by decide) (by decide)

/-! ## Submission data under the workflow (claim C25) -/

theorem submissionData_applyApproval (a : Application) (user : User)
    (comments : Option String) (now : Nat) :
    submissionData (applyApproval a user comments now) = submissionData a := by
  unfold applyApproval nextLevel setApprovalPath
  split_ifs <;> cases hT : a.applicationType <;> cases hL : a.currentLevel <;>
    simp [submissionData, hT, hL]

theorem call_step_submissionData (c : Call) {db : Collection} {id : Nat} {a : Application}
    (hfind : findById db id = some a) :
    ∃ b, findById (c.run db id).2 id = some b ∧ submissionData b = submissionData a := by
  obtain ⟨b, hb, hcases⟩ := call_step_cases c hfind
  refine ⟨b, hb, ?_⟩
  rcases hcases with rfl | ⟨u, cm, n, -, rfl⟩ | ⟨u, r, n, -, rfl⟩ | ⟨-, rfl⟩
  · rfl
  · exact submissionData_applyApproval a u cm n
  · rfl
  · rfl

theorem runCalls_submissionData (calls : List Call) :
    ∀ {db : Collection} {id : Nat} {a : Application}, findById db id = some a →
      ∃ b, findById (runCalls db id calls) id = some b ∧
        submissionData b = submissionData a := by
  induction calls with
  | nil => intro db id a hfind; exact ⟨a, hfind, rfl⟩
  | cons c cs ih =>
    intro db id a hfind
    obtain ⟨b1, hb1, h1⟩ := call_step_submissionData c hfind
    obtain ⟨b, hb, h⟩ := ih hb1
    exact ⟨b, hb, h.trans h1⟩

/-- C25.  After any sequence of approve, reject and cancel calls on a stored
request, successful or not (a single call is a sequence of one), the stored
request has the owner, type, schedule fields, reason, address, attendance, SGPA,
approver emails and `submittedAt` that it had before. -/
theorem submission_data_immutable (db : Collection) (id : Nat) (a : Application)
    (calls : List Call) (hfind : findById db id = some a) :
    (findById (runCalls db id calls) id).map submissionData = some (submissionData a) := by
  obtain ⟨b, hb, h⟩ := runCalls_submissionData calls hfind
  rw [hb, Option.map_some', h]

/-- C25 at a concrete input: the sample leave under a failed approve, two
approvals, a rejection and a cancel. -/
theorem submission_data_immutable_witness :
    (findById (runCalls [sampleOutpass, sampleLeave] 2
      [.approve sampleWarden none 10, .approve sampleCounsellor (some "ok") 20,
       .approve sampleHod none 30, .reject sampleJointDirector (some "too long") 40,
       .cancel sampleStudent]) 2).map submissionData = some (submissionData sampleLeave) :=
  submission_data_immutable [sampleOutpass, sampleLeave] 2 sampleLeave
    [.approve sampleWarden none 10, .approve sampleCounsellor (some "ok") 20,
     .approve sampleHod none 30, .reject sampleJointDirector (some "too long") 40,
     .cancel sampleStudent] (by decide)

/-! ## Completed and approved (claims C26, C27) -/

theorem level_ne_completed_of_str_eq {l : Level} {t : UserType} (h : l.str = t.str) :
    l ≠ .completed := by
  revert h
  cases l <;> cases t <;> decide

theorem completedIffApproved_applyApproval {a : Application} (user : User)
    (comments : Option String) (now : Nat) (h : completedIffApproved a = true) :
    completedIffApproved (applyApproval a user comments now) = true := by
  have ht := applyApproval_table a user comments now
  unfold completedIffApproved at h ⊢
  cases hT : a.applicationType <;> cases hL : a.currentLevel <;>
    rw [hT, hL] at ht <;> simp only [Prod.mk.injEq] at ht <;> rw [ht.1, ht.2] <;>
    rw [hL] at h <;> cases hS : a.status <;> rw [hS] at h <;> revert h <;> decide

theorem call_step_completedIffApproved (c : Call) {db : Collection} {id : Nat}
    {a : Application} (hfind : findById db id = some a)
    (h : completedIffApproved a = true) :
    ∃ b, findById (c.run db id).2 id = some b ∧ completedIffApproved b = true := by
  obtain ⟨b, hb, hcases⟩ := call_step_cases c hfind
  refine ⟨b, hb, ?_⟩
  rcases hcases with rfl | ⟨u, cm, n, -, rfl⟩ | ⟨u, r, n, hl, rfl⟩ | ⟨hp, rfl⟩
  · exact h
  · exact completedIffApproved_applyApproval u cm n h
  · have hne := level_ne_completed_of_str_eq hl
    simp [completedIffApproved, applyRejection, hne]
  · have hne : a.currentLevel ≠ .completed := by
      intro hc
      simp [completedIffApproved, hc, hp] at h
    simp [completedIffApproved, applyCancellation, hne]

theorem runCalls_completedIffApproved (calls : List Call) :
    ∀ {db : Collection} {id : Nat} {a : Application}, findById db id = some a →
      completedIffApproved a = true →
      ∃ b, findById (runCalls db id calls) id = some b ∧ completedIffApproved b = true := by
  induction calls with
  | nil => intro db id a hfind h; exact ⟨a, hfind, h⟩
  | cons c cs ih =>
    intro db id a hfind h
    obtain ⟨b1, hb1, h1⟩ := call_step_completedIffApproved c hfind h
    exact ih hb1 h1

/-- C26.  A stored request that is pending at counsellor level, as a submission
leaves it, has after any sequence of approve, reject and cancel calls the level
completed exactly when its status is approved. -/
theorem completed_iff_approved (db : Collection) (id : Nat) (a : Application)
    (calls : List Call) (hfind : findById db id = some a)
    (hstatus : a.status = .pending) (hlevel : a.currentLevel = .counsellor) :
    (findById (runCalls db id calls) id).map completedIffApproved = some true := by
  have h0 : completedIffApproved a = true := by
    simp [completedIffApproved, hstatus, hlevel]
  obtain ⟨b, hb, h⟩ := runCalls_completedIffApproved calls hfind h0
  rw [hb, Option.map_some', h]

/-- C26 at a concrete input: the sample outpass rejected by the counsellor and
then approved by the counsellor and by the warden. -/
theorem completed_iff_approved_witness :
    (findById (runCalls [sampleOutpass] 1
      [.reject sampleCounsellor (some "too late") 10, .approve sampleCounsellor none 20,
       .approve sampleWarden none 30]) 1).map completedIffApproved = some true :=
  completed_iff_approved [sampleOutpass] 1 sampleOutpass
    [.reject sampleCounsellor (some "too late") 10, .approve sampleCounsellor none 20,
     .approve sampleWarden none 30] (by decide) (by decide) (by decide)

theorem isAdmin_level_ne_completed (t : UserType) :
    ["counsellor", "hod", "joint_director", "warden"].contains t.str = true →
      Level.completed.str ≠ t.str := by
  cases t <;> decide

/-- C27.  On a stored request with status approved and level completed, an
approve call and a reject call by any admin with well-formed bodies answer 403
from the level check, and a cancel call by anyone answers 403 or 400; each of
them returns the collection untouched. -/
theorem approved_is_absorbing (db : Collection) (id : Nat) (a : Application)
    (admin caller : User) (comments rejectionReason : Option String) (now : Nat)
    (hfind : findById db id = some a) (hstatus : a.status = .approved)
    (hlevel : a.currentLevel = .completed) (hadmin : isAdmin admin = true)
    (hc : commentsValid comments = true)
    (hr : rejectionReasonValid rejectionReason = true) :
    approveApplication db id admin comments now =
      (.json 403 false ("Application is not at " ++ admin.userType.str ++ " level"), db) ∧
    rejectApplication db id admin rejectionReason now =
      (.json 403 false ("Application is not at " ++ admin.userType.str ++ " level"), db) ∧
    (cancelApplication db id caller).2 = db ∧
    (cancelApplication db id caller).1 ∈
      [Response.json 403 false "Access denied. Student privileges required.",
       Response.json 403 false "Access denied",
       Response.json 400 false "Application cannot be cancelled at this stage"] := by
  have hne : a.currentLevel.str ≠ admin.userType.str := by
    rw [hlevel]
    exact isAdmin_level_ne_completed admin.userType hadmin
  refine ⟨approveApplication_forbidden now hfind hadmin hne hc,
    rejectApplication_forbidden now hfind hadmin hne hr, ?_, ?_⟩
  · unfold cancelApplication
    by_cases hs : isStudent caller = true
    · by_cases ho : a.student = caller.id
      · simp [hs, hfind, ho, hstatus]
      · simp [hs, hfind, ho]
    · simp [hs]
  · unfold cancelApplication
    by_cases hs : isStudent caller = true
    · by_cases ho : a.student = caller.id
      · simp [hs, hfind, ho, hstatus]
      · simp [hs, hfind, ho]
    · simp [hs]

/-- C27 at a concrete input: a warden and the owner act on the approved sample
outpass. -/
theorem approved_is_absorbing_witness :
    approveApplication [approvedOutpass] 1 sampleWarden none 50 =
      (.json 403 false "Application is not at warden level", [approvedOutpass]) ∧
    rejectApplication [approvedOutpass] 1 sampleWarden (some "too late") 50 =
      (.json 403 false "Application is not at warden level", [approvedOutpass]) ∧
    (cancelApplication [approvedOutpass] 1 sampleStudent).2 = [approvedOutpass] ∧
    (cancelApplication [approvedOutpass] 1 sampleStudent).1 ∈
      [Response.json 403 false "Access denied. Student privileges required.",
       Response.json 403 false "Access denied",
       Response.json 400 false "Application cannot be cancelled at this stage"] :=
  approved_is_absorbing [approvedOutpass] 1 approvedOutpass sampleWarden sampleStudent none
    (some "too late") 50 (by decide) (by decide) (by decide) (by decide) (by decide)
    (by decide)

/-! ## The approval audit trail (claim C28) -/

/-- C28, evaluated on the code.  The sample leave is approved by a counsellor,
an hod, a joint director and a warden.  After the third call the level is
warden, and at the end the status is approved, yet `jointDirectorApproval` is
still unapproved in both states, while the records of the counsellor, the hod
and the warden are approved. -/
theorem audit_trail_misses_joint_director :
    (findById (runCalls [sampleLeave] 2
        [.approve sampleCounsellor none 10, .approve sampleHod none 20,
         .approve sampleJointDirector none 30]) 2).map
        (fun a => (a.currentLevel, a.jointDirectorApproval.approved)) =
      some (.warden, false) ∧
    (findById (runCalls [sampleLeave] 2
        [.approve sampleCounsellor none 10, .approve sampleHod none 20,
         .approve sampleJointDirector none 30, .approve sampleWarden none 40]) 2).map
        (fun a => (a.status, a.counsellorApproval.approved, a.hodApproval.approved,
          a.jointDirectorApproval.approved, a.wardenApproval.approved)) =
      some (.approved, true, true, false, true) := by
  decide

/-! ## `canApproveAtLevel` against the seniority order (claim C29) -/

theorem canApproveAtLevel_table (t : UserType) (l : Level) :
    (match userTypeHierarchy t.str with
      | none => false
      | some levels => levels.contains l.str) = levelAtOrBelowRole t l := by
  cases t <;> cases l <;> decide

theorem canApproveAtLevel_exact (t : UserType) (l : Level) :
    l.str = t.str →
      (match userTypeHierarchy t.str with
        | none => false
        | some levels => levels.contains l.str) = true := by
  cases t <;> cases l <;> decide

theorem canApproveAtLevel_levels (t : UserType) (s : String) :
    (match userTypeHierarchy t.str with
      | none => false
      | some levels => levels.contains s) = true →
      s ∈ ["counsellor", "hod", "joint_director", "warden"] := by
  cases t <;> simp [userTypeHierarchy, UserType.str] <;> intro h <;> tauto

/-- C29.  The middleware `canApproveAtLevel` admits a user at a level exactly
when the level is at or below the role of the user in the order counsellor,
hod, joint_director, warden.  It admits every pair that the exact-match check
of approve and reject admits; it admits a warden at each of the four levels and
a counsellor at counsellor level only; it admits no student and no user at the
level completed, nor at any string that is not one of the four levels. -/
theorem canApproveAtLevel_is_seniority (user : User) (level : Level) (s : String) :
    canApproveAtLevel user level.str = levelAtOrBelowRole user.userType level ∧
    (level.str = user.userType.str → canApproveAtLevel user level.str = true) ∧
    (user.userType = .warden → level ≠ .completed →
      canApproveAtLevel user level.str = true) ∧
    (user.userType = .counsellor →
      (canApproveAtLevel user level.str = true ↔ level = .counsellor)) ∧
    (user.userType = .student → canApproveAtLevel user s = false) ∧
    canApproveAtLevel user Level.completed.str = false ∧
    (canApproveAtLevel user s = true →
      s ∈ ["counsellor", "hod", "joint_director", "warden"]) := by
  have htable := canApproveAtLevel_table user.userType level
  refine ⟨htable, canApproveAtLevel_exact user.userType level, ?_, ?_, ?_, ?_,
    canApproveAtLevel_levels user.userType s⟩
  · intro hu hl
    unfold canApproveAtLevel
    rw [htable, hu]
    revert hl
    cases level <;> decide
  · intro hu
    unfold canApproveAtLevel
    rw [htable, hu]
    cases level <;> decide
  · intro hu
    unfold canApproveAtLevel
    rw [hu]
    rfl
  · have := canApproveAtLevel_table user.userType .completed
    unfold canApproveAtLevel
    rw [this]
    cases user.userType <;> rfl

/-! ## Pagination (claim C30) -/

theorem ceil_div_eq (total : Nat) (limit : Int) (hlimit : 1 ≤ limit) :
    ⌈(total : ℚ) / (limit : ℚ)⌉ = ((total : Int) + limit - 1) / limit := by
  have hl : (0 : Int) < limit := by omega
  have hlq : (0 : ℚ) < (limit : ℚ) := by exact_mod_cast hl
  rw [Int.ceil_eq_iff]
  have h1 := Int.ediv_mul_le ((total : Int) + limit - 1) (ne_of_gt hl)
  have h2 := Int.lt_ediv_add_one_mul_self ((total : Int) + limit - 1) hl
  constructor
  · rw [lt_div_iff₀ hlq]
    have : (((total : Int) + limit - 1) / limit - 1) * limit < (total : Int) := by
      nlinarith
    exact_mod_cast this
  · rw [div_le_iff₀ hlq]
    have : (total : Int) ≤ ((total : Int) + limit - 1) / limit * limit := by
      nlinarith
    exact_mod_cast this

/-- C30.  For a page of at least 1 and a limit of at least 1, `pages` is the
ceiling of total / limit (the integer quotient of total + limit - 1 by limit),
`hasNext` is true exactly when the page is below `pages`, and `hasPrev`
exactly when the page is above 1; a missing or non-numeric page, and the page
0, give the page 1, and a missing or non-numeric limit, and the limit 0, give
the limit 10. -/
theorem pagination_consistent (total : Nat) (page limit : Int)
    (hpage : 1 ≤ page) (hlimit : 1 ≤ limit) :
    (pagination (some page) (some limit) total).current = page ∧
    (pagination (some page) (some limit) total).pages = ⌈(total : ℚ) / (limit : ℚ)⌉ ∧
    (pagination (some page) (some limit) total).pages =
      ((total : Int) + limit - 1) / limit ∧
    (pagination (some page) (some limit) total).hasNext =
      decide (page < ((total : Int) + limit - 1) / limit) ∧
    (pagination (some page) (some limit) total).hasPrev = decide (1 < page) ∧
    parseIntOr none 1 = 1 ∧ parseIntOr (some 0) 1 = 1 ∧
    parseIntOr none 10 = 10 ∧ parseIntOr (some 0) 10 = 10 ∧
    pagination none none total = pagination (some 1) (some 10) total ∧
    pagination (some 0) (some 0) total = pagination (some 1) (some 10) total := by
  have hp0 : page ≠ 0 := by omega
  have hl0 : limit ≠ 0 := by omega
  have hlq : (0 : ℚ) < (limit : ℚ) := by exact_mod_cast (by omega : (0 : Int) < limit)
  have hpages : (pagination (some page) (some limit) total).pages =
      ⌈(total : ℚ) / (limit : ℚ)⌉ := by
    simp [pagination, parseIntOr, hl0]
  refine ⟨?_, hpages, hpages.trans (ceil_div_eq total limit hlimit), ?_, ?_,
    rfl, rfl, rfl, rfl, rfl, rfl⟩
  · simp [pagination, parseIntOr, hp0]
  · rw [← ceil_div_eq total limit hlimit]
    simp only [pagination, parseIntOr, hp0, hl0, if_false]
    congr 1
    rw [Int.lt_ceil, lt_div_iff₀ hlq]
    apply propext
    constructor
    · intro h; exact_mod_cast h
    · intro h; exact_mod_cast h
  · simp [pagination, parseIntOr, hp0]

/-- C30 at a concrete input: 25 documents, page 2, limit 10, hence 3 pages. -/
theorem pagination_consistent_witness :
    (pagination (some 2) (some 10) 25).current = 2 ∧
    (pagination (some 2) (some 10) 25).pages = ⌈((25 : Nat) : ℚ) / ((10 : Int) : ℚ)⌉ ∧
    (pagination (some 2) (some 10) 25).pages = 3 ∧
    (pagination (some 2) (some 10) 25).hasNext = true ∧
    (pagination (some 2) (some 10) 25).hasPrev = true ∧
    parseIntOr none 1 = 1 ∧ parseIntOr (some 0) 1 = 1 ∧
    parseIntOr none 10 = 10 ∧ parseIntOr (some 0) 10 = 10 ∧
    pagination none none 25 = pagination (some 1) (some 10) 25 ∧
    pagination (some 0) (some 0) 25 = pagination (some 1) (some 10) 25 :=
  pagination_consistent 25 2 10 (by decide) (by decide)

/-! ## Notifications are best effort (claim C23) -/

theorem send_broken (message : Message) : send brokenTransport message = false := by
  cases message <;> rfl

theorem sendEmail_eq_true_iff (transport : Transport) (message : Message) :
    sendEmail transport message = true ↔ transport message = .ok () := by
  unfold sendEmail
  cases h : transport message <;> simp

theorem sendEmail_eq_false_iff (transport : Transport) (message : Message) :
    sendEmail transport message = false ↔ ∃ e, transport message = .error e := by
  unfold sendEmail
  cases h : transport message <;> simp

theorem sendSMS_eq_true_iff (transport : Transport) (message : Message) :
    sendSMS transport message = true ↔ transport message = .ok () := by
  unfold sendSMS
  cases h : transport message <;> simp

theorem sendSMS_eq_false_iff (transport : Transport) (message : Message) :
    sendSMS transport message = false ↔ ∃ e, transport message = .error e := by
  unfold sendSMS
  cases h : transport message <;> simp

/-- In every call of the approve handler the write comes before every send. -/
theorem approveHandler_persistedFirst (transport : Transport) (dir : Directory)
    (db : Collection) (id : Nat) (user : User) (comments : Option String) (now : Nat) :
    persistedFirst db (approveHandler transport dir db id user comments now).2.1
      (approveHandler transport dir db id user comments now).2.2 := by
  unfold approveHandler
  split_ifs
  · exact rfl
  · exact rfl
  · cases hfind : findById db id with
    | none => exact rfl
    | some a =>
      simp only
      split_ifs
      · exact rfl
      · have hf : findById (replaceDoc db (applyApproval a user comments now))
            (applyApproval a user comments now)._id =
            some (applyApproval a user comments now) := by
          rw [(applyApproval_frame a user comments now).1, findById_id hfind]
          exact findById_replaceDoc hfind
            ((applyApproval_frame a user comments now).1.trans (findById_id hfind))
        rcases save_cases db (applyApproval a user comments now) with ⟨e, he⟩ | hok
        · rw [he]
          exact rfl
        · rw [hok]
          cases approveNotifications dir (applyApproval a user comments now) with
          | error e => exact ⟨rfl, hf, by simp⟩
          | ok messages =>
            refine ⟨rfl, hf, ?_⟩
            intro e he
            obtain ⟨m, -, rfl⟩ := List.mem_map.mp he
            exact ⟨m, _, rfl⟩

/-- In every call of the reject handler the write comes before every send. -/
theorem rejectHandler_persistedFirst (transport : Transport) (dir : Directory)
    (db : Collection) (id : Nat) (user : User) (rejectionReason : Option String) (now : Nat) :
    persistedFirst db (rejectHandler transport dir db id user rejectionReason now).2.1
      (rejectHandler transport dir db id user rejectionReason now).2.2 := by
  unfold rejectHandler
  split_ifs
  · exact rfl
  · exact rfl
  · cases hfind : findById db id with
    | none => exact rfl
    | some a =>
      simp only
      split_ifs
      · exact rfl
      · have hf : findById (replaceDoc db (applyRejection a user rejectionReason now))
            (applyRejection a user rejectionReason now)._id =
            some (applyRejection a user rejectionReason now) := by
          have hid : (applyRejection a user rejectionReason now)._id = id :=
            (show (applyRejection a user rejectionReason now)._id = a._id from rfl).trans
              (findById_id hfind)
          rw [hid]
          exact findById_replaceDoc hfind hid
        rcases save_cases db (applyRejection a user rejectionReason now) with ⟨e, he⟩ | hok
        · rw [he]
          exact rfl
        · rw [hok]
          cases rejectNotifications dir (applyRejection a user rejectionReason now) with
          | error e => exact ⟨rfl, hf, by simp⟩
          | ok messages =>
            refine ⟨rfl, hf, ?_⟩
            intro e he
            obtain ⟨m, -, rfl⟩ := List.mem_map.mp he
            exact ⟨m, _, rfl⟩

/-- The response and the collection of an approve call do not depend on the
transport. -/
theorem approveHandler_transport (t1 t2 : Transport) (dir : Directory)
    (db : Collection) (id : Nat) (user : User) (comments : Option String) (now : Nat) :
    ((approveHandler t1 dir db id user comments now).1,
        (approveHandler t1 dir db id user comments now).2.1) =
      ((approveHandler t2 dir db id user comments now).1,
        (approveHandler t2 dir db id user comments now).2.1) := by
  unfold approveHandler
  split_ifs
  · rfl
  · rfl
  · cases findById db id with
    | none => rfl
    | some a =>
      simp only
      split_ifs
      · rfl
      · cases save db (applyApproval a user comments now) with
        | error e => rfl
        | ok db2 =>
          cases approveNotifications dir (applyApproval a user comments now) <;> rfl

/-- The response and the collection of a reject call do not depend on the
transport. -/
theorem rejectHandler_transport (t1 t2 : Transport) (dir : Directory)
    (db : Collection) (id : Nat) (user : User) (rejectionReason : Option String) (now : Nat) :
    ((rejectHandler t1 dir db id user rejectionReason now).1,
        (rejectHandler t1 dir db id user rejectionReason now).2.1) =
      ((rejectHandler t2 dir db id user rejectionReason now).1,
        (rejectHandler t2 dir db id user rejectionReason now).2.1) := by
  unfold rejectHandler
  split_ifs
  · rfl
  · rfl
  · cases findById db id with
    | none => rfl
    | some a =>
      simp only
      split_ifs
      · rfl
      · cases save db (applyRejection a user rejectionReason now) with
        | error e => rfl
        | ok db2 =>
          cases rejectNotifications dir (applyRejection a user rejectionReason now) <;> rfl

theorem sentMessages_map (f : Message → Bool) (messages : List Message) :
    sentMessages (messages.map (fun m => .sent m (f m))) = messages := by
  induction messages with
  | nil => rfl
  | cons m ms ih => simp only [List.map_cons, sentMessages, ih]

/-- The messages of the trace of an approve call are those of `approveMessages`,
whatever the transport does. -/
theorem approveHandler_sentMessages (transport : Transport) (dir : Directory)
    (db : Collection) (id : Nat) (user : User) (comments : Option String) (now : Nat) :
    sentMessages (approveHandler transport dir db id user comments now).2.2 =
      approveMessages dir db id user comments now := by
  unfold approveHandler approveMessages
  split_ifs
  · rfl
  · rfl
  · cases findById db id with
    | none => rfl
    | some a =>
      simp only
      split_ifs
      · rfl
      · cases save db (applyApproval a user comments now) with
        | error e => rfl
        | ok db2 =>
          cases approveNotifications dir (applyApproval a user comments now) with
          | error e => rfl
          | ok messages => exact sentMessages_map (send transport) messages

/-- The messages of the trace of a reject call are those of `rejectMessages`,
whatever the transport does. -/
theorem rejectHandler_sentMessages (transport : Transport) (dir : Directory)
    (db : Collection) (id : Nat) (user : User) (rejectionReason : Option String) (now : Nat) :
    sentMessages (rejectHandler transport dir db id user rejectionReason now).2.2 =
      rejectMessages dir db id user rejectionReason now := by
  unfold rejectHandler rejectMessages
  split_ifs
  · rfl
  · rfl
  · cases findById db id with
    | none => rfl
    | some a =>
      simp only
      split_ifs
      · rfl
      · cases save db (applyRejection a user rejectionReason now) with
        | error e => rfl
        | ok db2 =>
          cases rejectNotifications dir (applyRejection a user rejectionReason now) with
          | error e => rfl
          | ok messages => exact sentMessages_map (send transport) messages

/-- With the owner found no template throws in the approve handler. -/
theorem approveNotifications_ok {dir : Directory} {application : Application} {s : Identity}
    (hp : populate dir.users application.student = some s) :
    ∃ messages, approveNotifications dir application = .ok messages := by
  unfold approveNotifications
  rw [hp]
  split_ifs
  · exact ⟨_, rfl⟩
  · cases nextAdmins dir application with
    | nil => exact ⟨_, rfl⟩
    | cons x xs => exact ⟨_, rfl⟩

/-- A successful approve call with the owner found: the response, the
collection, the trace, and the messages. -/
theorem approveHandler_ok (transport : Transport) {dir : Directory} {db : Collection}
    {id : Nat} {a : Application} {user : User} {student : Identity}
    {comments : Option String} (now : Nat)
    (hfind : findById db id = some a) (hsave : passesSave a = true)
    (hlevel : a.currentLevel.str = user.userType.str)
    (hu : utf16Length (comments.getD "") ≤ 200)
    (hmem : student ∈ dir.users) (hid : student.id = a.student) :
    approveHandler transport dir db id user comments now =
      (.json 200 true "Application approved successfully",
        replaceDoc db (applyApproval a user comments now),
        .saved (applyApproval a user comments now) ::
          (approveMessages dir db id user comments now).map
            (fun m => .sent m (send transport m))) := by
  obtain ⟨s, hs⟩ := populate_isSome hmem hid
  rw [← (applyApproval_student_status a user comments now).1] at hs
  obtain ⟨messages, hm⟩ := approveNotifications_ok hs
  unfold approveHandler approveMessages
  rw [isAdmin_of_level_eq hlevel, commentsValid_of_utf16Length hu, hfind]
  simp only [Bool.not_true, Bool.false_eq_true, if_false, hlevel, bne_self_eq_false]
  rw [save_of_passesSave db (passesSave_applyApproval user now hsave hu)]
  simp only [hm]

/-- A successful reject call with the owner found: the response, the
collection, the trace, and the two messages. -/
theorem rejectHandler_ok (transport : Transport) {dir : Directory} {db : Collection}
    {id : Nat} {a : Application} {user : User} {student : Identity}
    {reason : String} (now : Nat)
    (hfind : findById db id = some a) (hsave : passesSave a = true)
    (hlevel : a.currentLevel.str = user.userType.str)
    (hmin : 5 ≤ validatorLength reason) (hmax : utf16Length reason ≤ 200)
    (hmem : student ∈ dir.users) (hid : student.id = a.student) :
    rejectHandler transport dir db id user (some reason) now =
      (.json 200 true "Application rejected successfully",
        replaceDoc db (applyRejection a user (some reason) now),
        .saved (applyRejection a user (some reason) now) ::
          (rejectMessages dir db id user (some reason) now).map
            (fun m => .sent m (send transport m))) ∧
    (rejectMessages dir db id user (some reason) now).length = 2 := by
  obtain ⟨s, hs⟩ := populate_isSome hmem hid
  have hr : rejectionReasonValid (some reason) = true := by
    simp only [rejectionReasonValid, Option.getD_some, Bool.and_eq_true, decide_eq_true_eq]
    exact ⟨hmin, (validatorLength_le_utf16Length reason).trans hmax⟩
  have hn : rejectNotifications dir (applyRejection a user (some reason) now) =
      .ok [.email s.email .applicationRejected, .sms s.mobile .applicationRejected] := by
    unfold rejectNotifications
    rw [show (applyRejection a user (some reason) now).student = a.student from rfl, hs]
  unfold rejectHandler rejectMessages
  rw [isAdmin_of_level_eq hlevel, hr, hfind]
  simp only [Bool.not_true, Bool.false_eq_true, if_false, hlevel, bne_self_eq_false]
  rw [save_of_passesSave db (passesSave_applyRejection user now hsave
    (show utf16Length ((some reason).getD "") ≤ 200 from hmax))]
  simp [hn]

/-- C23.  In every approve or reject call, whatever its arguments and whatever
the transport does, the write of `application.save()` comes before every
notification: the trace is empty and the collection is as before, or it begins
with the write, the collection holds the written document, and only sends
follow; in particular nothing is sent when the save throws.  `sendEmail` and
`sendSMS` return true exactly when the transport resolves and false exactly
when it throws, and the response and the collection of a call are the same
with any two transports.  For a call by the role of the current level on a
stored request whose owner is in `users`, with a body the stored record accepts
(approve: no comment or at most 200 UTF-16 code units; reject: a reason that
validator.js counts as at least 5 and that has at most 200 UTF-16 code units):
the call answers 200, the transition is in the collection, every message is
attempted after the write with the result of its send recorded, a reject
attempts two messages, and with a transport that always throws every attempt
is recorded as false while the answer is still 200. -/
theorem notification_failure_is_swallowed
    (t1 t2 : Transport) (dir1 : Directory) (db1 : Collection) (id1 : Nat) (user1 : User)
    (comments1 reason1 : Option String) (now1 : Nat) (message : Message)
    (transport : Transport) (dir : Directory) (db : Collection) (id : Nat)
    (a : Application) (user : User) (student : Identity)
    (comments : Option String) (reason : String) (now : Nat)
    (hfind : findById db id = some a) (hsave : passesSave a = true)
    (hlevel : a.currentLevel.str = user.userType.str)
    (hu : utf16Length (comments.getD "") ≤ 200)
    (hmin : 5 ≤ validatorLength reason) (hmax : utf16Length reason ≤ 200)
    (hmem : student ∈ dir.users) (hid : student.id = a.student) :
    persistedFirst db1 (approveHandler t1 dir1 db1 id1 user1 comments1 now1).2.1
      (approveHandler t1 dir1 db1 id1 user1 comments1 now1).2.2 ∧
    persistedFirst db1 (rejectHandler t1 dir1 db1 id1 user1 reason1 now1).2.1
      (rejectHandler t1 dir1 db1 id1 user1 reason1 now1).2.2 ∧
    (sendEmail t1 message = true ↔ t1 message = .ok ()) ∧
    (sendEmail t1 message = false ↔ ∃ e, t1 message = .error e) ∧
    (sendSMS t1 message = true ↔ t1 message = .ok ()) ∧
    (sendSMS t1 message = false ↔ ∃ e, t1 message = .error e) ∧
    ((approveHandler t1 dir1 db1 id1 user1 comments1 now1).1,
        (approveHandler t1 dir1 db1 id1 user1 comments1 now1).2.1) =
      ((approveHandler t2 dir1 db1 id1 user1 comments1 now1).1,
        (approveHandler t2 dir1 db1 id1 user1 comments1 now1).2.1) ∧
    ((rejectHandler t1 dir1 db1 id1 user1 reason1 now1).1,
        (rejectHandler t1 dir1 db1 id1 user1 reason1 now1).2.1) =
      ((rejectHandler t2 dir1 db1 id1 user1 reason1 now1).1,
        (rejectHandler t2 dir1 db1 id1 user1 reason1 now1).2.1) ∧
    approveHandler transport dir db id user comments now =
      (.json 200 true "Application approved successfully",
        replaceDoc db (applyApproval a user comments now),
        .saved (applyApproval a user comments now) ::
          (approveMessages dir db id user comments now).map
            (fun m => .sent m (send transport m))) ∧
    rejectHandler transport dir db id user (some reason) now =
      (.json 200 true "Application rejected successfully",
        replaceDoc db (applyRejection a user (some reason) now),
        .saved (applyRejection a user (some reason) now) ::
          (rejectMessages dir db id user (some reason) now).map
            (fun m => .sent m (send transport m))) ∧
    (rejectMessages dir db id user (some reason) now).length = 2 ∧
    approveHandler brokenTransport dir db id user comments now =
      (.json 200 true "Application approved successfully",
        replaceDoc db (applyApproval a user comments now),
        .saved (applyApproval a user comments now) ::
          (approveMessages dir db id user comments now).map (fun m => .sent m false)) ∧
    rejectHandler brokenTransport dir db id user (some reason) now =
      (.json 200 true "Application rejected successfully",
        replaceDoc db (applyRejection a user (some reason) now),
        .saved (applyRejection a user (some reason) now) ::
          (rejectMessages dir db id user (some reason) now).map (fun m => .sent m false)) := by
  have hR := fun t => rejectHandler_ok t now hfind hsave hlevel hmin hmax hmem hid
  have hA := fun t => approveHandler_ok t now hfind hsave hlevel hu hmem hid
  refine ⟨approveHandler_persistedFirst t1 dir1 db1 id1 user1 comments1 now1,
    rejectHandler_persistedFirst t1 dir1 db1 id1 user1 reason1 now1,
    sendEmail_eq_true_iff t1 message, sendEmail_eq_false_iff t1 message,
    sendSMS_eq_true_iff t1 message, sendSMS_eq_false_iff t1 message,
    approveHandler_transport t1 t2 dir1 db1 id1 user1 comments1 now1,
    rejectHandler_transport t1 t2 dir1 db1 id1 user1 reason1 now1,
    hA transport, (hR transport).1, (hR transport).2, ?_, ?_⟩
  · rw [hA brokenTransport]
    simp only [send_broken]
  · rw [(hR brokenTransport).1]
    simp only [send_broken]

set_option maxRecDepth 100000 in
/-- C23 at a concrete input.  The unconstrained call is an approve of the
sample outpass by a counsellor with a comment of 101 characters U+1F600, which
the validator accepts and the schema refuses: the save throws, the trace is
empty and the collection is unchanged.  The successful call is an approve, or a
reject, of the sample leave by a counsellor while every transport throws. -/
theorem notification_failure_is_swallowed_witness :
    approveHandler brokenTransport sampleDirectory [sampleOutpass] 1 sampleCounsellor
        (some astralReason) 10 =
      (.next "ValidationError", [sampleOutpass], []) ∧
    persistedFirst [sampleOutpass]
      (approveHandler brokenTransport sampleDirectory [sampleOutpass] 1 sampleCounsellor
        (some astralReason) 10).2.1
      (approveHandler brokenTransport sampleDirectory [sampleOutpass] 1 sampleCounsellor
        (some astralReason) 10).2.2 ∧
    approveHandler brokenTransport sampleDirectory [sampleLeave] 2 sampleCounsellor none 10 =
      (.json 200 true "Application approved successfully",
        replaceDoc [sampleLeave] (applyApproval sampleLeave sampleCounsellor none 10),
        .saved (applyApproval sampleLeave sampleCounsellor none 10) ::
          (approveMessages sampleDirectory [sampleLeave] 2 sampleCounsellor none 10).map
            (fun m => .sent m false)) ∧
    approveMessages sampleDirectory [sampleLeave] 2 sampleCounsellor none 10 =
      [.email "j@college.edu" .newApplicationNotification,
       .sms "9000000102" .newApplicationNotification] ∧
    rejectHandler brokenTransport sampleDirectory [sampleLeave] 2 sampleCounsellor
        (some "not enough notice") 10 =
      (.json 200 true "Application rejected successfully",
        replaceDoc [sampleLeave]
          (applyRejection sampleLeave sampleCounsellor (some "not enough notice") 10),
        .saved (applyRejection sampleLeave sampleCounsellor (some "not enough notice") 10) ::
          (rejectMessages sampleDirectory [sampleLeave] 2 sampleCounsellor
            (some "not enough notice") 10).map (fun m => .sent m false)) :=
  have h := notification_failure_is_swallowed brokenTransport workingTransport
    sampleDirectory [sampleOutpass] 1 sampleCounsellor (some astralReason) none 10
    (.email "asha@college.edu" .applicationApproved)
    brokenTransport sampleDirectory [sampleLeave] 2 sampleLeave sampleCounsellor
    sampleStudentIdentity none "not enough notice" 10
    (by decide) (by decide) (by decide) (by decide) (by decide) (by decide) (by decide)
    (by decide)
  ⟨by decide, h.1, h.2.2.2.2.2.2.2.2.2.2.2.1, by decide, h.2.2.2.2.2.2.2.2.2.2.2.2⟩

/-! ## Overlapping approvals (claim C24) -/

/-- The two parts of the approve handler, run one after the other on the same
collection, are the handler. -/
theorem approveApplication_eq_read_write (db : Collection) (id : Nat) (user : User)
    (comments : Option String) (now : Nat) :
    approveApplication db id user comments now =
      match approveRead db id user comments with
      | .error r => (r, db)
      | .ok application => approveWrite db application user comments now := by
  unfold approveApplication approveRead approveWrite
  split_ifs
  · rfl
  · rfl
  · cases findById db id with
    | none => rfl
    | some a =>
      simp only
      split_ifs <;> rfl

theorem approveRead_ok {db : Collection} {id : Nat} {a : Application} {user : User}
    {comments : Option String}
    (hfind : findById db id = some a) (hlevel : a.currentLevel.str = user.userType.str)
    (hc : commentsValid comments = true) :
    approveRead db id user comments = .ok a := by
  unfold approveRead
  rw [isAdmin_of_level_eq hlevel, hc, hfind]
  simp [hlevel]

theorem approveWrite_ok (db : Collection) {a : Application} (user : User)
    {comments : Option String} (now : Nat)
    (hsave : passesSave a = true) (hu : utf16Length (comments.getD "") ≤ 200) :
    approveWrite db a user comments now =
      (.json 200 true "Application approved successfully",
        replaceDoc db (applyApproval a user comments now)) := by
  unfold approveWrite
  rw [save_of_passesSave db (passesSave_applyApproval user now hsave hu)]

/-- C24, refuted on the code.  Two counsellors approve the pending sample
outpass and both read it before either saves: both calls answer 200, the level
is warden, and the stored approval record is the one of the second counsellor,
the record of the first being overwritten. -/
theorem overlapping_approvals_both_succeed :
    approveOverlapped [sampleOutpass] 1 sampleCounsellor (some "first") 10
        secondCounsellor (some "second") 11 =
      (.json 200 true "Application approved successfully",
       .json 200 true "Application approved successfully",
       [{ sampleOutpass with
          currentLevel := .warden
          counsellorApproval :=
            { approved := true, approvedBy := some 105, approvedAt := some 11,
              comments := some "second" } }]) := by
  decide

/-- C24, amended.  For a stored request at a level of the chain of its type and
two approve calls by actors whose role is that level, each with a body the
stored record accepts (no comment, or a comment of at most 200 UTF-16 code
units, the bound of the schema, which also passes the route validator): when
the second call runs after the first has answered, the first answers 200 and
the second answers 403 and writes nothing; when both calls read the request
before either saves, both answer 200, the level is advanced by one step only,
and the stored request is the approved version written by the call that saved
last. -/
theorem approvals_serial_or_overlapped (db : Collection) (id : Nat) (a : Application)
    (user1 user2 : User) (comments1 comments2 : Option String) (now1 now2 : Nat)
    (hfind : findById db id = some a) (hsave : passesSave a = true)
    (hchain : a.currentLevel ∈ levelsFrom a.applicationType .counsellor)
    (hlevel1 : a.currentLevel.str = user1.userType.str)
    (hlevel2 : a.currentLevel.str = user2.userType.str)
    (hu1 : utf16Length (comments1.getD "") ≤ 200)
    (hu2 : utf16Length (comments2.getD "") ≤ 200) :
    approveApplication db id user1 comments1 now1 =
      (.json 200 true "Application approved successfully",
        replaceDoc db (applyApproval a user1 comments1 now1)) ∧
    approveApplication (approveApplication db id user1 comments1 now1).2 id user2 comments2
        now2 =
      (.json 403 false ("Application is not at " ++ user2.userType.str ++ " level"),
        (approveApplication db id user1 comments1 now1).2) ∧
    approveOverlapped db id user1 comments1 now1 user2 comments2 now2 =
      (.json 200 true "Application approved successfully",
       .json 200 true "Application approved successfully",
       replaceDoc (replaceDoc db (applyApproval a user1 comments1 now1))
        (applyApproval a user2 comments2 now2)) ∧
    findById (approveOverlapped db id user1 comments1 now1 user2 comments2 now2).2.2 id =
      some (applyApproval a user2 comments2 now2) ∧
    (applyApproval a user2 comments2 now2).currentLevel =
      (applyApproval a user1 comments1 now1).currentLevel := by
  have hid := findById_id hfind
  have hc1 := commentsValid_of_utf16Length hu1
  have hc2 := commentsValid_of_utf16Length hu2
  have h1 := approveApplication_ok now1 hfind hlevel1 hu1 hsave
  have hf1 : findById (replaceDoc db (applyApproval a user1 comments1 now1)) id =
      some (applyApproval a user1 comments1 now1) :=
    findById_replaceDoc hfind ((applyApproval_frame a user1 comments1 now1).1.trans hid)
  have hne := approved_level_ne a.applicationType a.currentLevel user2.userType hchain hlevel2
  rw [← applyApproval_level_table a user1 comments1 now1] at hne
  have hover : approveOverlapped db id user1 comments1 now1 user2 comments2 now2 =
      (.json 200 true "Application approved successfully",
       .json 200 true "Application approved successfully",
       replaceDoc (replaceDoc db (applyApproval a user1 comments1 now1))
        (applyApproval a user2 comments2 now2)) := by
    unfold approveOverlapped
    simp only [approveRead_ok hfind hlevel1 hc1, approveRead_ok hfind hlevel2 hc2,
      approveWrite_ok _ _ _ hsave hu1, approveWrite_ok _ _ _ hsave hu2]
  refine ⟨h1, ?_, hover, ?_, ?_⟩
  · rw [h1]
    exact approveApplication_forbidden now2 hf1
      (isAdmin_of_level_eq hlevel2) hne hc2
  · rw [hover]
    exact findById_replaceDoc hf1
      ((applyApproval_frame a user2 comments2 now2).1.trans hid)
  · rw [applyApproval_level_table, applyApproval_level_table]

/-- C24, amended, at a concrete input: two counsellors on the pending sample
outpass. -/
theorem approvals_serial_or_overlapped_witness :
    approveApplication [sampleOutpass] 1 sampleCounsellor (some "first") 10 =
      (.json 200 true "Application approved successfully",
        replaceDoc [sampleOutpass]
          (applyApproval sampleOutpass sampleCounsellor (some "first") 10)) ∧
    approveApplication (approveApplication [sampleOutpass] 1 sampleCounsellor (some "first")
        10).2 1 secondCounsellor (some "second") 11 =
      (.json 403 false "Application is not at counsellor level",
        (approveApplication [sampleOutpass] 1 sampleCounsellor (some "first") 10).2) ∧
    approveOverlapped [sampleOutpass] 1 sampleCounsellor (some "first") 10
        secondCounsellor (some "second") 11 =
      (.json 200 true "Application approved successfully",
       .json 200 true "Application approved successfully",
       replaceDoc (replaceDoc [sampleOutpass]
          (applyApproval sampleOutpass sampleCounsellor (some "first") 10))
        (applyApproval sampleOutpass secondCounsellor (some "second") 11)) ∧
    findById (approveOverlapped [sampleOutpass] 1 sampleCounsellor (some "first") 10
        secondCounsellor (some "second") 11).2.2 1 =
      some (applyApproval sampleOutpass secondCounsellor (some "second") 11) ∧
    (applyApproval sampleOutpass secondCounsellor (some "second") 11).currentLevel =
      (applyApproval sampleOutpass sampleCounsellor (some "first") 10).currentLevel :=
  approvals_serial_or_overlapped [sampleOutpass] 1 sampleOutpass sampleCounsellor
    secondCounsellor (some "first") (some "second") 10 11 (by decide) (by decide) (by decide)
    (by decide) (by decide) (by decide) (by decide)

end LeaveEase
